import Mathlib

/-!
# GLSL-Debugger: the instrumentation code generator (`CodeInsertion.cpp`)

A shallow embedding of `src/mesa-glsl/glslang/Interface/CodeInsertion.cpp`.

Conventions of the embedding:

* C `int` values are `Int`.  Where the source multiplies two `int`s or adds up widths,
  the result is reduced to the range of a 32-bit `int` with `wrapInt32`; counters that
  count the elements of a list or the calls of a function are not reduced.
* A `char** prog` output buffer that is only ever appended to
  (`ralloc_asprintf_append`) is a `String` passed in and returned.
* A function that can reach `exit(1)` returns `Except CgError _` with the error
  `CgError.fatal`.  Reading memory the source never wrote or does not own (a struct
  field outside the field array, a swizzle buffer character that was never set, a
  write behind the end of a buffer, a `NULL` string given to `%s`) is
  `CgError.undefined`: the function has no defined result there.  The same error
  stands for the one result the embedding leaves open, the float expression
  `ceil(log10((float)i))` from `10^6` on.
* Pointers that the source tests against `NULL` are `Option`s.
* The file-scope struct `g` is a `CgState` passed in and returned.
* The calls of `rand()` are a stream of letters (`RandomSource`) together with the number
  of calls made so far.  The retry loop of the name allocation need not end; it is run
  for a bounded number of tests of its condition, and `none` means that it is still
  running after that many tests.
-/

deriving instance DecidableEq for Except

namespace CodeInsertion

/-! ## Data model (declared in `ShaderLang.h`, used by the source) -/

/-- Ways in which a call does not return a value. -/
inductive CgError where
  /-- The source printed an error and called `exit(1)`. -/
  | fatal
  /-- The source has no defined result on this input, or none that this embedding
  determines (see `ceilLog10`). -/
  | undefined
  deriving DecidableEq, Repr

/-- Base types of a shader variable; `other` stands for every enumerator the source
does not name. -/
inductive variableType where
  | SH_FLOAT
  | SH_INT
  | SH_UINT
  | SH_BOOL
  | other (code : Nat)
  deriving DecidableEq, Repr

/-- Storage qualifiers of a shader variable; `other` stands for every enumerator the
source does not name. -/
inductive variableQualifier where
  | SH_TEMPORARY
  | SH_VARYING_IN
  | SH_VARYING_OUT
  | SH_UNIFORM
  | SH_ATTRIBUTE
  | other (code : Nat)
  deriving DecidableEq, Repr

/-- The C struct `ShVariable`.  `structSpec` is the pointer to the array of field
variables (`none` is `NULL`), `structSize` the stored field count, `arraySize` the
array `int arraySize[MAX_ARRAYS]`, `name` the `char*` name (`none` is `NULL`). -/
inductive ShVariable where
  | mk (uniqueId : Int) (builtin : Bool) (name : Option String)
      (type : variableType) (qualifier : variableQualifier)
      (size : Int) (isMatrix : Bool) (isArray : Bool) (arraySize : List Int)
      (structName : Option String) (structSize : Int)
      (structSpec : Option (List ShVariable))

namespace ShVariable

def uniqueId : ShVariable → Int
  | mk u _ _ _ _ _ _ _ _ _ _ _ => u

def builtin : ShVariable → Bool
  | mk _ b _ _ _ _ _ _ _ _ _ _ => b

def name : ShVariable → Option String
  | mk _ _ n _ _ _ _ _ _ _ _ _ => n

def type : ShVariable → variableType
  | mk _ _ _ t _ _ _ _ _ _ _ _ => t

def qualifier : ShVariable → variableQualifier
  | mk _ _ _ _ q _ _ _ _ _ _ _ => q

def size : ShVariable → Int
  | mk _ _ _ _ _ s _ _ _ _ _ _ => s

def isMatrix : ShVariable → Bool
  | mk _ _ _ _ _ _ m _ _ _ _ _ => m

def isArray : ShVariable → Bool
  | mk _ _ _ _ _ _ _ a _ _ _ _ => a

def arraySize : ShVariable → List Int
  | mk _ _ _ _ _ _ _ _ l _ _ _ => l

def structName : ShVariable → Option String
  | mk _ _ _ _ _ _ _ _ _ n _ _ => n

def structSize : ShVariable → Int
  | mk _ _ _ _ _ _ _ _ _ _ s _ => s

def structSpec : ShVariable → Option (List ShVariable)
  | mk _ _ _ _ _ _ _ _ _ _ _ f => f

/-- The element `var->arraySize[0]`. -/
def arraySize0 (v : ShVariable) : Int := v.arraySize.headD 0

/-- The read `var->structSpec[i]`: defined when the field array exists and `i` is one
of its positions. -/
def structField (v : ShVariable) (i : Int) : Option ShVariable :=
  match v.structSpec with
  | none => none
  | some fields => if 0 ≤ i then fields.get? i.toNat else none

end ShVariable

/-- The kinds of index operation of an observation path (`ShChangeableType`). -/
inductive ShChangeableType where
  | SH_CGB_ARRAY_INDIRECT
  | SH_CGB_ARRAY_DIRECT
  | SH_CGB_STRUCT
  | SH_CGB_SWIZZLE
  deriving DecidableEq, Repr

/-- One index operation (`ShChangeableIndex`). -/
structure ShChangeableIndex where
  type : ShChangeableType
  index : Int
  deriving DecidableEq, Repr

/-- An observation path (`ShChangeable`): the id of a variable and the chain
`indices[0 .. numIndices-1]`. -/
structure ShChangeable where
  id : Int
  indices : List ShChangeableIndex
  deriving DecidableEq, Repr

/-- The variable table (`ShVariableList`): `variables[0 .. numVariables-1]`. -/
abbrev ShVariableList := List ShVariable

/-- A list of observation paths (`ShChangeableList`); an entry may be a `NULL`
pointer. -/
abbrev ShChangeableList := List (Option ShChangeable)

/-- Modelled from the spec: `findShVariableFromId` is defined outside this file
(the registry "lookup by id"); it yields the first variable of the table that has the
requested id, and `NULL` when there is none. -/
def findShVariableFromId (vl : ShVariableList) (id : Int) : Option ShVariable :=
  vl.find? (fun v => v.uniqueId == id)

/-! ## Width of a variable after a number of array subscripts -/

/-- The value of a C `int` sum or product whose exact value is `x`, on 32-bit
two's-complement `int`s: the representative of `x` modulo `2^32` in the range
`-2^31 .. 2^31 - 1`.  It is `x` itself when `x` is in that range; outside of it the
C language leaves the result open, and this is what the machine arithmetic gives. -/
def wrapInt32 (x : Int) : Int := (x + 2147483648) % 4294967296 - 2147483648

/-- `getVariableSizeByArrayIndices(var, numOfArrayIndices)`. -/
def getVariableSizeByArrayIndices (var : ShVariable) (numOfArrayIndices : Int) :
    Except CgError Int :=
  if numOfArrayIndices = 0 then
    if var.isArray then
      .ok (wrapInt32 (var.arraySize0 * var.size))
    else if var.structSpec.isSome then
      .ok var.structSize
    else if var.isMatrix then
      .ok (wrapInt32 (var.size * var.size))
    else
      .ok var.size
  else if numOfArrayIndices = 1 then
    if var.isArray then
      if var.structSpec.isSome then
        .ok var.structSize
      else
        .ok var.size
    else if var.isMatrix then
      .ok var.size
    else if var.size > 1 then
      .ok 1
    else
      .error .fatal
  else if numOfArrayIndices = 2 then
    if var.isArray then
      if var.isMatrix then
        .ok var.size
      else if var.size > 1 then
        .ok 1
      else
        .error .fatal
    else if var.isMatrix then
      .ok 1
    else
      .error .fatal
  else if numOfArrayIndices = 3 then
    if var.isArray && var.isMatrix then
      .ok 1
    else
      .error .fatal
  else
    .error .fatal

/-! ## Swizzle letters -/

/-- `itoSwizzle(i)`: the two-character buffer is filled for `i` in `0..3` only; for
any other `i` it is returned as allocated, without contents. -/
def itoSwizzle (i : Int) : Except CgError String :=
  if i = 0 then .ok "x"
  else if i = 1 then .ok "y"
  else if i = 2 then .ok "z"
  else if i = 3 then .ok "w"
  else .error .undefined

/-- The least `k` at or above the start value with `n ≤ 10 ^ k`, searched upwards for
at most the given number of steps. -/
def ceilLog10Search : Nat → Nat → Nat → Nat
  | 0, k, _ => k
  | steps + 1, k, n => if n ≤ 10 ^ k then k else ceilLog10Search steps (k + 1) n

/-- The expression `(int)ceil(log10((float)i))`.  For `1 ≤ i < 10^6` the conversion to
`float` is exact and `log10 i` is either an integer (at a power of ten) or many float
ulps away from one, so the result is the least `k` with `i ≤ 10^k`.  For `i ≤ 0` the
logarithm is minus infinity or NaN and its conversion to `int` is not defined; for
`i ≥ 10^6` the result depends on float rounding and is not determined here. -/
def ceilLog10 (i : Int) : Except CgError Int :=
  if 1 ≤ i ∧ i < 1000000 then .ok (ceilLog10Search 6 0 i.toNat) else .error .undefined

/-- The `switch (d-1)` of `itoMultiSwizzle`: the character stored for the digit `d`,
if one is stored. -/
def swizzleChar (d : Int) : Option Char :=
  if d - 1 = 0 then some 'x'
  else if d - 1 = 1 then some 'y'
  else if d - 1 = 2 then some 'z'
  else if d - 1 = 3 then some 'w'
  else none

/-- The `for` loop of `itoMultiSwizzle`, with `k` iterations left, the remaining value
`i` and the characters `swizzle[0 .. j-1]` written so far.  The buffer has 5
characters: a store at `j ≥ 5` is outside of it, and a position that no `case` fills
stays without contents. -/
def itoMultiSwizzleLoop : Nat → Int → List Char → Except CgError (List Char)
  | 0, _, written => .ok written
  | k + 1, i, written =>
    let d := i / 10 ^ k
    match swizzleChar d with
    | some c =>
      if written.length < 5 then
        itoMultiSwizzleLoop k (i - d * 10 ^ k) (written ++ [c])
      else .error .undefined
    | none => .error .undefined

/-- `itoMultiSwizzle(i)`: decodes the decimal digits of `i`, most significant first,
into a buffer of 5 characters and terminates it with `swizzle[j] = 0`. -/
def itoMultiSwizzle (i : Int) : Except CgError String :=
  match ceilLog10 i with
  | .error e => .error e
  | .ok k =>
    match itoMultiSwizzleLoop k.toNat i [] with
    | .error e => .error e
    | .ok written => if written.length < 5 then .ok (String.mk written) else .error .undefined

/-! ## Text of an observation path -/

/-- The C string behind a `char*` given to `%s`. -/
def cString (s : Option String) : Except CgError String :=
  match s with
  | some t => .ok t
  | none => .error .undefined

/-- One iteration of the `for` loop of `addVariableCode`, on the buffer and the
current variable. -/
def addIndexCode (prog : String) (var : ShVariable) (idx : ShChangeableIndex) :
    Except CgError (String × ShVariable) :=
  match idx.type with
  | .SH_CGB_ARRAY_INDIRECT => .ok (prog ++ "[" ++ toString idx.index ++ "]", var)
  | .SH_CGB_ARRAY_DIRECT =>
    match itoSwizzle idx.index with
    | .error e => .error e
    | .ok s => .ok (prog ++ "." ++ s, var)
  | .SH_CGB_STRUCT =>
    if idx.index < var.structSize then
      match var.structField idx.index with
      | none => .error .undefined
      | some field =>
        match cString field.name with
        | .error e => .error e
        | .ok n => .ok (prog ++ "." ++ n, field)
    else .error .fatal
  | .SH_CGB_SWIZZLE =>
    match itoMultiSwizzle idx.index with
    | .error e => .error e
    | .ok s => .ok (prog ++ "." ++ s, var)

/-- The `for` loop of `addVariableCode` over `cgb->indices`. -/
def addIndicesCode : List ShChangeableIndex → String → ShVariable → Except CgError String
  | [], prog, _ => .ok prog
  | idx :: rest, prog, var =>
    match addIndexCode prog var idx with
    | .error e => .error e
    | .ok (prog1, var1) => addIndicesCode rest prog1 var1

/-- The test that decides whether `_<uniqueId>` follows the name. -/
def needsIdSuffix (var : ShVariable) : Bool :=
  !var.builtin &&
    var.qualifier != .SH_VARYING_IN &&
    var.qualifier != .SH_VARYING_OUT &&
    var.qualifier != .SH_UNIFORM &&
    var.qualifier != .SH_ATTRIBUTE

/-- `addVariableCode(prog, cgb, vl)`. -/
def addVariableCode (prog : String) (cgb : Option ShChangeable) (vl : Option ShVariableList) :
    Except CgError String :=
  match cgb, vl with
  | some c, some l =>
    match findShVariableFromId l c.id with
    | none => .error .fatal
    | some var =>
      match cString var.name with
      | .error e => .error e
      | .ok n =>
        let prog1 := prog ++ n
        let prog2 := if needsIdSuffix var then prog1 ++ "_" ++ toString var.uniqueId else prog1
        addIndicesCode c.indices prog2 var
  | _, _ => .error .fatal

/-! ## Width of an observation path -/

/-- The local variables `var`, `arraySub` and `size` of `getShChangeableSize`. -/
structure SizeState where
  var : ShVariable
  arraySub : Int
  size : Int

/-- One iteration of the `for` loop of `getShChangeableSize`. -/
def sizeStep (st : SizeState) (idx : ShChangeableIndex) : Except CgError SizeState :=
  match idx.type with
  | .SH_CGB_ARRAY_INDIRECT =>
    match getVariableSizeByArrayIndices st.var (st.arraySub + 1) with
    | .error e => .error e
    | .ok w => .ok { st with arraySub := st.arraySub + 1, size := w }
  | .SH_CGB_ARRAY_DIRECT => .ok { st with size := 1 }
  | .SH_CGB_STRUCT =>
    if idx.index < st.var.structSize then
      match st.var.structField idx.index with
      | none => .error .undefined
      | some field =>
        match getVariableSizeByArrayIndices field 0 with
        | .error e => .error e
        | .ok w => .ok { var := field, arraySub := 0, size := w }
    else .error .fatal
  | .SH_CGB_SWIZZLE =>
    match ceilLog10 idx.index with
    | .error e => .error e
    | .ok w => .ok { st with size := w }

/-- The `for` loop of `getShChangeableSize` over `cgb->indices`. -/
def sizeLoop : List ShChangeableIndex → SizeState → Except CgError SizeState
  | [], st => .ok st
  | idx :: rest, st =>
    match sizeStep st idx with
    | .error e => .error e
    | .ok st1 => sizeLoop rest st1

/-- `getShChangeableSize(cgb, vl)`. -/
def getShChangeableSize (cgb : Option ShChangeable) (vl : Option ShVariableList) :
    Except CgError Int :=
  match cgb, vl with
  | some c, some l =>
    match findShVariableFromId l c.id with
    | none => .ok 0
    | some var =>
      match sizeLoop c.indices { var := var, arraySub := 0, size := var.size } with
      | .error e => .error e
      | .ok st => .ok st.size
  | _, _ => .ok 0

/-! ## Text of a list of observation paths -/

/-- The first `for` loop of `addVariableCodeFromList`: the remaining entries, the
buffer and the running `size`.  The separator follows every entry but the last one
(`id < numChangeables - 1`). -/
def addChangeablesCode : List (Option ShChangeable) → Option ShVariableList → String → Int →
    Except CgError (String × Int)
  | [], _, prog, size => .ok (prog, size)
  | c :: rest, vl, prog, size =>
    match addVariableCode prog c vl with
    | .error e => .error e
    | .ok prog1 =>
      match getShChangeableSize c vl with
      | .error e => .error e
      | .ok w =>
        addChangeablesCode rest vl (if rest.isEmpty then prog1 else prog1 ++ ", ")
          (wrapInt32 (size + w))

/-- The last `for` loop of `addVariableCodeFromList`, which runs `count` times. -/
def addPadding : Nat → String → String
  | 0, prog => prog
  | count + 1, prog => addPadding count (prog ++ ", 0.0")

/-- `addVariableCodeFromList(prog, cgbl, vl, targetSize)`. -/
def addVariableCodeFromList (prog : String) (cgbl : Option ShChangeableList)
    (vl : Option ShVariableList) (targetSize : Int) : Except CgError String :=
  match cgbl with
  | none => .ok prog
  | some l =>
    match addChangeablesCode l vl prog 0 with
    | .error e => .error e
    | .ok (prog1, size) => .ok (addPadding (targetSize - size).toNat prog1)

/-! ## Loop path guard -/

/-- The debug states of a loop node; `other` stands for every enumerator the source
does not name. -/
inductive ir_dbg_loop_state where
  | ir_dbg_loop_unset
  | ir_dbg_loop_qyr_init
  | ir_dbg_loop_wrk_init
  | other (code : Nat)
  deriving DecidableEq, Repr

/-- What the source reads of an `ir_loop`: its debug state, the iteration to stop at
and the string behind `dbg_iter_name(ir)` (`none` is `NULL`). -/
structure ir_loop where
  debug_state_internal : ir_dbg_loop_state
  debug_iter : Int
  iter_name : Option String
  deriving DecidableEq, Repr

/-- An entry of the stack of enclosing constructs; `as_loop` is `NULL` for a node
that is not a loop. -/
structure ir_instruction where
  as_loop : Option ir_loop
  deriving DecidableEq, Repr

abbrev IRGenStack := List ir_instruction

/-- `needDbgLoopIter(ir)`. -/
def needDbgLoopIter (ir : Option ir_loop) : Bool :=
  match ir with
  | none => false
  | some l =>
    l.debug_state_internal != .ir_dbg_loop_unset &&
      l.debug_state_internal != .ir_dbg_loop_qyr_init &&
      l.debug_state_internal != .ir_dbg_loop_wrk_init

/-- `hasLoop(stack)`. -/
def hasLoop : IRGenStack → Bool
  | [] => false
  | node :: rest => if needDbgLoopIter node.as_loop then true else hasLoop rest

/-- The `for` loop of `addLoopHeader`. -/
def addLoopConditions : IRGenStack → String → Except CgError String
  | [], prog => .ok prog
  | node :: rest, prog =>
    if needDbgLoopIter node.as_loop then
      match node.as_loop with
      | none => .error .undefined
      | some l =>
        match cString l.iter_name with
        | .error e => .error e
        | .ok n => addLoopConditions rest (prog ++ n ++ " == " ++ toString l.debug_iter ++ " &&")
    else addLoopConditions rest prog

/-- `addLoopHeader(prog, stack)`. -/
def addLoopHeader (prog : String) (stack : IRGenStack) : Except CgError String :=
  if hasLoop stack then
    match addLoopConditions stack (prog ++ "(") with
    | .error e => .error e
    | .ok prog1 => .ok (prog1 ++ ")")
  else .ok prog

/-- `addLoopFooter(prog, stack)`. -/
def addLoopFooter (prog : String) (stack : IRGenStack) : String :=
  if hasLoop stack then prog ++ ", true))" else prog

/-! ## Enumerations and session state (declared in `CodeInsertion.h` and `ShaderLang.h`) -/

/-- The shading stages (`EShLanguage`); `other` stands for every enumerator the source
does not name. -/
inductive EShLanguage where
  | EShLangVertex
  | EShLangGeometry
  | EShLangFragment
  | other (code : Nat)
  deriving DecidableEq, Repr

/-- The kinds of debug object (`cgTypes`); `other` stands for every enumerator the
source does not name. -/
inductive cgTypes where
  | CG_TYPE_RESULT
  | CG_TYPE_CONDITION
  | CG_TYPE_PARAMETER
  | CG_TYPE_LOOP_ITERS
  | CG_TYPE_ALL
  | other (code : Nat)
  deriving DecidableEq, Repr

/-- The canned initial values (`cgInitialization`). -/
inductive cgInitialization where
  | CG_INIT_BLACK
  | CG_INIT_WHITE
  | CG_INIT_CHESS
  | CG_INIT_GEOMAP
  deriving DecidableEq, Repr

/-- The probe families (`DbgCgOptions`); `other` stands for every enumerator the source
does not name. -/
inductive DbgCgOptions where
  | DBG_CG_COVERAGE
  | DBG_CG_SELECTION_CONDITIONAL
  | DBG_CG_LOOP_CONDITIONAL
  | DBG_CG_CHANGEABLE
  | DBG_CG_GEOMETRY_MAP
  | DBG_CG_GEOMETRY_CHANGEABLE
  | DBG_CG_VERTEX_COUNT
  | other (code : Nat)
  deriving DecidableEq, Repr

/-- The output qualifiers that `cgAddOutput` tells apart (`TQualifier`); `other` stands
for every other enumerator. -/
inductive TQualifier where
  | EvqFragColor
  | EvqFragData
  | other (code : Nat)
  deriving DecidableEq, Repr

/-- Modelled from the spec: the three sub-cases of the geometry-changeable family are
`option` values declared in `CodeInsertion.h` ("at target", "in scope", "no scope");
they are the labels of one `switch`, hence distinct, and are numbered here in this
order. -/
def CG_GEOM_CHANGEABLE_AT_TARGET : Int := 0

/-- Modelled from the spec: see `CG_GEOM_CHANGEABLE_AT_TARGET`. -/
def CG_GEOM_CHANGEABLE_IN_SCOPE : Int := 1

/-- Modelled from the spec: see `CG_GEOM_CHANGEABLE_AT_TARGET`. -/
def CG_GEOM_CHANGEABLE_NO_SCOPE : Int := 2

/-- The file-scope struct `g`: the three debug variables (`none` is `NULL`), the map of
debug function names, the list of loop iterator names and their counter. -/
structure CgState where
  result : Option ShVariable
  condition : Option ShVariable
  parameter : Option ShVariable
  nameMap : List (String × String)
  loopIters : List String
  numLoopIters : Int

/-- Modelled from the spec: `MAX_ARRAYS`, the length of `arraySize`, is declared in
`ShaderLang.h` (the spec speaks of "zero or more array-dimension sizes"); no theorem
depends on the value. -/
def MAX_ARRAYS : Nat := 4

/-- The variable with another `name` pointer. -/
def ShVariable.setName : ShVariable → Option String → ShVariable
  | .mk u b _ t q s m a l sn ss sp, n => .mk u b n t q s m a l sn ss sp

/-! ## Default variables -/

/-- The variable that `createDefault` fills in before its `switch`, with the type and
qualifier that the `switch` then stores. -/
def defaultVariable (type : variableType) (qualifier : variableQualifier) : ShVariable :=
  .mk (-1) false none type qualifier 1 false false (List.replicate MAX_ARRAYS 0) none 0 none

/-- `createDefault(type, l)`; `none` is the `NULL` it returns for a parameter and for
every other kind. -/
def createDefault (type : cgTypes) (l : EShLanguage) : Option ShVariable :=
  match type with
  | .CG_TYPE_RESULT =>
    match l with
    | .EShLangVertex => some (defaultVariable .SH_FLOAT .SH_VARYING_OUT)
    | .EShLangGeometry => some (defaultVariable .SH_FLOAT .SH_VARYING_OUT)
    | _ => some (defaultVariable .SH_FLOAT .SH_TEMPORARY)
  | .CG_TYPE_CONDITION => some (defaultVariable .SH_BOOL .SH_TEMPORARY)
  | .CG_TYPE_PARAMETER => none
  | _ => none

/-! ## Unused names -/

/-- The random source: the value of
`(char)((rand()/(float)RAND_MAX)*('Z'-'A')+'A') - 'A'` at every call of `rand()`, in the
order of the calls.  Since `0 ≤ rand() ≤ RAND_MAX`, the quotient lies in `[0, 1]` and
the character between `'A'` and `'Z'`, whatever the rounding. -/
abbrev RandomSource := Nat → Fin 26

/-- The character drawn at the call number `pos` of `rand()`. -/
def randomLetter (rnd : RandomSource) (pos : Nat) : Char :=
  Char.ofNat ('A'.toNat + (rnd pos).val)

/-- The `CG_RANDOMIZED_POSTFIX_SIZE = 3` characters that one round of the inner `for`
loop appends, drawn from the call number `pos` on. -/
def randomLetters (rnd : RandomSource) (pos : Nat) : String :=
  String.mk [randomLetter rnd pos, randomLetter rnd (pos + 1), randomLetter rnd (pos + 2)]

/-- Modelled from the spec: `findFirstShVariableFromName` is defined outside this file;
it yields the first variable of the registry whose name is the given string (the name
is then "present in the registry"), and `NULL` when there is none. -/
def findFirstShVariableFromName (vl : ShVariableList) (name : String) : Option ShVariable :=
  vl.find? (fun v => v.name == some name)

/-- The `while` loop of `getUnusedNameByPrefix`, with the current `*name` and the number
of calls of `rand()` so far.  The first argument bounds the number of times the loop
condition is tested; `none` means that the loop is still running after that many tests.
-/
def getUnusedNameLoop (vl : ShVariableList) (pfx : String) (rnd : RandomSource) :
    Nat → String → Nat → Option (String × Nat)
  | 0, _, _ => none
  | tests + 1, name, pos =>
    if (findFirstShVariableFromName vl name).isSome then
      getUnusedNameLoop vl pfx rnd tests (pfx ++ randomLetters rnd pos) (pos + 3)
    else some (name, pos)

/-- `getUnusedNameByPrefix(name, vl, prefix)`: the string stored in `*name` and the
number of calls of `rand()` afterwards.  (A failing `malloc` is not modelled.) -/
def getUnusedNameByPrefix (vl : ShVariableList) (pfx : String) (rnd : RandomSource)
    (pos tests : Nat) : Option (String × Nat) :=
  if (findFirstShVariableFromName vl pfx).isSome then
    getUnusedNameLoop vl pfx rnd tests pfx pos
  else some (pfx, pos)

/-- `cgGetNewName(name, vl, prefix)`. -/
def cgGetNewName (vl : ShVariableList) (pfx : String) (rnd : RandomSource)
    (pos tests : Nat) : Option (String × Nat) :=
  getUnusedNameByPrefix vl pfx rnd pos tests

def CG_RESULT_PREFIX : String := "dbgResult"

def CG_CONDITION_PREFIX : String := "dbgCond"

def CG_PARAMETER_PREFIX : String := "dbgParam"

def CG_LOOP_ITER_PREFIX : String := "dbgIter"

/-- A store through the pointer `&((*var)->name)`: it needs a variable to store into. -/
def storeName (var : Option ShVariable) (name : String) : Except CgError ShVariable :=
  match var with
  | none => .error .undefined
  | some v => .ok (v.setName (some name))

/-- The calls `getUnusedNameByPrefix(&((*var)->name), vl, prefix)` of `getNewUnusedName`:
the first store into `*name` comes before the loop. -/
def assignUnusedName (var : Option ShVariable) (vl : ShVariableList) (pfx : String)
    (rnd : RandomSource) (pos tests : Nat) : Except CgError (Option (ShVariable × Nat)) :=
  match var with
  | none => .error .undefined
  | some v =>
    match getUnusedNameByPrefix vl pfx rnd pos tests with
    | none => .ok none
    | some (name, pos1) => .ok (some (v.setName (some name), pos1))

/-- `getNewUnusedName(type, &((*var)->name), vl, l)`, on the variable `*var` whose name
it assigns: the variable afterwards and the number of calls of `rand()`.  The inner
`none` means that the retry loop is still running after `tests` tests. -/
def getNewUnusedName (type : cgTypes) (var : Option ShVariable) (vl : ShVariableList)
    (l : EShLanguage) (rnd : RandomSource) (pos tests : Nat) :
    Except CgError (Option (Option ShVariable × Nat)) :=
  match type with
  | .CG_TYPE_RESULT =>
    match l with
    | .EShLangVertex =>
      match storeName var CG_RESULT_PREFIX with
      | .error e => .error e
      | .ok v => .ok (some (some v, pos))
    | .EShLangGeometry =>
      match storeName var CG_RESULT_PREFIX with
      | .error e => .error e
      | .ok v => .ok (some (some v, pos))
    | .EShLangFragment =>
      match assignUnusedName var vl CG_RESULT_PREFIX rnd pos tests with
      | .error e => .error e
      | .ok none => .ok none
      | .ok (some (v, pos1)) => .ok (some (some v, pos1))
    | .other _ => .ok (some (var, pos))
  | .CG_TYPE_CONDITION =>
    match assignUnusedName var vl CG_CONDITION_PREFIX rnd pos tests with
    | .error e => .error e
    | .ok none => .ok none
    | .ok (some (v, pos1)) => .ok (some (some v, pos1))
  | .CG_TYPE_PARAMETER =>
    match assignUnusedName var vl CG_PARAMETER_PREFIX rnd pos tests with
    | .error e => .error e
    | .ok none => .ok none
    | .ok (some (v, pos1)) => .ok (some (some v, pos1))
  | _ => .ok (some (var, pos))

/-! ## Initialisation and destruction of the debug variables -/

/-- Modelled from the spec: `copyShVariable` is defined outside this file; it yields a
deep copy of the descriptor, struct fields included. -/
def copyShVariable (src : ShVariable) : ShVariable := src

/-- `cgDestruct(type)`; `freeShVariable(&g.x)` releases the variable and leaves `NULL`
in its place. -/
def cgDestruct (g : CgState) (type : cgTypes) : CgState :=
  match type with
  | .CG_TYPE_RESULT => { g with result := none }
  | .CG_TYPE_CONDITION => { g with condition := none }
  | .CG_TYPE_PARAMETER => { g with parameter := none }
  | .CG_TYPE_LOOP_ITERS => g
  | .CG_TYPE_ALL => { g with result := none, condition := none, parameter := none }
  | .other _ => g

/-- The variable that `var` points to in `cgInit`. -/
def debugVariable (g : CgState) (type : cgTypes) : Option ShVariable :=
  match type with
  | .CG_TYPE_RESULT => g.result
  | .CG_TYPE_CONDITION => g.condition
  | .CG_TYPE_PARAMETER => g.parameter
  | _ => none

/-- The store `*var = v` of `cgInit`. -/
def setDebugVariable (g : CgState) (type : cgTypes) (v : Option ShVariable) : CgState :=
  match type with
  | .CG_TYPE_RESULT => { g with result := v }
  | .CG_TYPE_CONDITION => { g with condition := v }
  | .CG_TYPE_PARAMETER => { g with parameter := v }
  | _ => g

/-- `cgInit(type, src, vl, l)`: the state `g` afterwards and the number of calls of
`rand()`.  The inner `none` means that the name loop is still running after `tests`
tests.  (The dump of the variable at the end only prints.) -/
def cgInit (g : CgState) (type : cgTypes) (src : Option ShVariable) (vl : ShVariableList)
    (l : EShLanguage) (rnd : RandomSource) (pos tests : Nat) :
    Except CgError (Option (CgState × Nat)) :=
  match type with
  | .CG_TYPE_LOOP_ITERS => .ok (some (g, pos))
  | .CG_TYPE_ALL => .ok (some (g, pos))
  | .other _ => .ok (some (g, pos))
  | _ =>
    let g1 := if (debugVariable g type).isSome then cgDestruct g type else g
    let var :=
      match src with
      | none => createDefault type l
      | some s => some (copyShVariable s)
    match getNewUnusedName type var vl l rnd pos tests with
    | .error e => .error e
    | .ok none => .ok none
    | .ok (some (var1, pos1)) => .ok (some (setDebugVariable g1 type var1, pos1))

/-! ## Type and qualifier keywords -/

/-- `getQualifierCode(v, l)`. -/
def getQualifierCode (v : ShVariable) (l : EShLanguage) : String :=
  match v.qualifier with
  | .SH_VARYING_OUT => if l = .EShLangGeometry then "varying out " else "varying "
  | .SH_UNIFORM => "uniform "
  | _ => ""

/-- `getTypeCode(v, reduceToScalar)`. -/
def getTypeCode (v : ShVariable) (reduceToScalar : Bool) : String :=
  if v.size = 1 || reduceToScalar then
    match v.type with
    | .SH_FLOAT => "float"
    | .SH_INT => "int"
    | .SH_UINT => "unsigned int"
    | .SH_BOOL => "bool"
    | .other _ => ""
  else
    match v.type with
    | .SH_FLOAT => "vec" ++ toString v.size
    | .SH_INT => "ivec" ++ toString v.size
    | .SH_UINT => "uvec" ++ toString v.size
    | .SH_BOOL => "bvec" ++ toString v.size
    | .other _ => ""

/-! ## Declarations, initialisations and output -/

/-- The text that `cgAddDeclaration` appends for one of the three debug variables;
`withArraySize` is set for the parameter, whose array size follows the name.  Nothing
is appended for a `NULL` variable. -/
def addVariableDeclaration (var : Option ShVariable) (withArraySize : Bool) (prog : String)
    (l : EShLanguage) : Except CgError String :=
  match var with
  | none => .ok prog
  | some v =>
    match cString v.name with
    | .error e => .error e
    | .ok n =>
      let prog1 := prog ++ getQualifierCode v l ++ getTypeCode v false ++ " " ++ n
      let prog2 :=
        if withArraySize && v.isArray then prog1 ++ "[" ++ toString v.arraySize0 ++ "]"
        else prog1
      .ok (prog2 ++ ";\n")

/-- The `for` loop of `cgAddDeclaration` over `g.loopIters`. -/
def addLoopIterDeclarations : List String → String → String
  | [], prog => prog
  | it :: rest, prog => addLoopIterDeclarations rest (prog ++ "int " ++ it ++ ";\n")

/-- `cgAddDeclaration(type, prog, l)`. -/
def cgAddDeclaration (g : CgState) (type : cgTypes) (prog : String) (l : EShLanguage) :
    Except CgError String :=
  match type with
  | .CG_TYPE_RESULT => addVariableDeclaration g.result false prog l
  | .CG_TYPE_CONDITION => addVariableDeclaration g.condition false prog l
  | .CG_TYPE_PARAMETER => addVariableDeclaration g.parameter true prog l
  | .CG_TYPE_LOOP_ITERS => .ok (addLoopIterDeclarations g.loopIters prog)
  | .CG_TYPE_ALL =>
    match addVariableDeclaration g.result false prog l with
    | .error e => .error e
    | .ok prog1 =>
      match addVariableDeclaration g.condition false prog1 l with
      | .error e => .error e
      | .ok prog2 =>
        match addVariableDeclaration g.parameter true prog2 l with
        | .error e => .error e
        | .ok prog3 => .ok (addLoopIterDeclarations g.loopIters prog3)
  | .other _ => .ok prog

/-- `addInitializationCode(init, prog, l)`. -/
def addInitializationCode (init : cgInitialization) (prog : String) : String :=
  match init with
  | .CG_INIT_BLACK => prog ++ "0.0"
  | .CG_INIT_WHITE => prog ++ "1.0"
  | .CG_INIT_CHESS =>
    prog ++ "(mod(floor(gl_FragCoord.x/8.0), 2.0) == " ++
      "mod(floor(gl_FragCoord.y/8.0), 2.0)) ? " ++ "1.0 : 0.8"
  | .CG_INIT_GEOMAP => prog ++ "0.0, 0.0, gl_PrimitiveIDIn"

/-- The first `switch` of `cgAddInitialization` for one debug variable, which is read
without a test against `NULL`. -/
def addInitializationTarget (var : Option ShVariable) (prog : String) :
    Except CgError String :=
  match var with
  | none => .error .undefined
  | some v =>
    match cString v.name with
    | .error e => .error e
    | .ok n => .ok (prog ++ n ++ " = " ++ getTypeCode v false)

/-- `cgAddInitialization(type, init, prog, l)`. -/
def cgAddInitialization (g : CgState) (type : cgTypes) (init : cgInitialization)
    (prog : String) : Except CgError String :=
  let target :=
    match type with
    | .CG_TYPE_RESULT => addInitializationTarget g.result prog
    | .CG_TYPE_CONDITION => addInitializationTarget g.condition prog
    | .CG_TYPE_PARAMETER => addInitializationTarget g.parameter prog
    | _ => .ok prog
  match target with
  | .error e => .error e
  | .ok prog1 => .ok (addInitializationCode init (prog1 ++ "(") ++ ")")

/-- `cgAddOutput(type, prog, l, o)`. -/
def cgAddOutput (g : CgState) (type : cgTypes) (prog : String) (l : EShLanguage)
    (o : TQualifier) : Except CgError String :=
  match l with
  | .EShLangVertex => .ok prog
  | .EShLangGeometry =>
    match type with
    | .CG_TYPE_RESULT => .ok (prog ++ "EmitVertex(); " ++ "EndPrimitive();\n")
    | _ => .ok prog
  | .EShLangFragment =>
    match type with
    | .CG_TYPE_RESULT =>
      let prog1 :=
        match o with
        | .EvqFragColor => prog ++ "gl_FragColor.x"
        | .EvqFragData => prog ++ "gl_FragData[0].x"
        | .other _ => prog ++ "gl_FragColor.x"
      match g.result with
      | none => .error .undefined
      | some v =>
        match cString v.name with
        | .error e => .error e
        | .ok n => .ok (prog1 ++ " = " ++ n ++ ";\n")
    | _ => .ok prog
  | .other _ => .ok prog

/-! ## Probe statements -/

/-- The test that decides, at both ends of the result case of `cgAddDbgCode`, whether
the loop guard is added. -/
def insideLoopGuard (cgOptions : DbgCgOptions) (option : Int) : Bool :=
  cgOptions != .DBG_CG_GEOMETRY_CHANGEABLE ||
    (option != CG_GEOM_CHANGEABLE_IN_SCOPE && option != CG_GEOM_CHANGEABLE_NO_SCOPE)

/-- The conversion `%f` of the argument `option ? 1.0 : 0.5`: six digits follow the
decimal point. -/
def formatSelection (option : Int) : String :=
  if option ≠ 0 then "1.000000" else "0.500000"

/-- The text `"%s = %s"` with the name of the result and its type code, followed by
`tail`. -/
def addAssignment (v : ShVariable) (prog tail : String) : Except CgError String :=
  match cString v.name with
  | .error e => .error e
  | .ok n => .ok (prog ++ n ++ " = " ++ getTypeCode v false ++ tail)

/-- The inner `switch (cgOptions)` of `cgAddDbgCode` for the result variable `v`. -/
def addResultCode (g : CgState) (v : ShVariable) (prog : String) (cgOptions : DbgCgOptions)
    (src : Option ShChangeableList) (vl : Option ShVariableList) (option outPrimType : Int) :
    Except CgError String :=
  match cgOptions with
  | .DBG_CG_COVERAGE => addAssignment v prog "(1.0)"
  | .DBG_CG_SELECTION_CONDITIONAL => addAssignment v prog ("(" ++ formatSelection option ++ ")")
  | .DBG_CG_LOOP_CONDITIONAL =>
    match g.condition with
    | none => .error .undefined
    | some c =>
      match cString c.name with
      | .error e => .error e
      | .ok cn => addAssignment v prog ("(" ++ cn ++ ")")
  | .DBG_CG_CHANGEABLE =>
    match addAssignment v prog "(" with
    | .error e => .error e
    | .ok prog1 =>
      match getVariableSizeByArrayIndices v 0 with
      | .error e => .error e
      | .ok targetSize =>
        match addVariableCodeFromList prog1 src vl targetSize with
        | .error e => .error e
        | .ok prog2 => .ok (prog2 ++ ")")
  | .DBG_CG_GEOMETRY_MAP =>
    match addAssignment v prog "" with
    | .error e => .error e
    | .ok prog1 =>
      if option ≠ 0 then .ok (prog1 ++ "(dbgResult.x + 1, 0.0, gl_PrimitiveIDIn)")
      else .ok (prog1 ++ "(dbgResult.x, dbgResult.y + 1, gl_PrimitiveIDIn)")
  | .DBG_CG_GEOMETRY_CHANGEABLE =>
    if option = CG_GEOM_CHANGEABLE_AT_TARGET then addAssignment v prog "(0.0)"
    else if option = CG_GEOM_CHANGEABLE_IN_SCOPE then
      match addAssignment v prog "(" with
      | .error e => .error e
      | .ok prog1 =>
        match addVariableCodeFromList prog1 src vl 0 with
        | .error e => .error e
        | .ok prog2 =>
          match cString v.name with
          | .error e => .error e
          | .ok n => .ok (prog2 ++ ", abs(" ++ n ++ ".y))")
    else if option = CG_GEOM_CHANGEABLE_NO_SCOPE then
      match cString v.name with
      | .error e => .error e
      | .ok n => addAssignment v prog ("(0.0, -abs(" ++ n ++ ".y))")
    else .ok prog
  | .DBG_CG_VERTEX_COUNT =>
    match addAssignment v prog "" with
    | .error e => .error e
    | .ok prog1 =>
      if option ≠ 0 then
        if outPrimType = 0 then
          .ok (prog1 ++
            "(dbgResult.y > 0 ? dbgResult.x + 1 : dbgResult.x, 0.0, gl_PrimitiveIDIn)")
        else if outPrimType = 3 then
          .ok (prog1 ++
            "(dbgResult.y > 1 ? dbgResult.x + dbgResult.y : dbgResult.x, 0.0, gl_PrimitiveIDIn)")
        else if outPrimType = 5 then
          .ok (prog1 ++
            "(dbgResult.y > 2 ? dbgResult.x + dbgResult.y : dbgResult.x, 0.0, gl_PrimitiveIDIn)")
        else .ok prog1
      else .ok (prog1 ++ "(dbgResult.x, dbgResult.y + 1, gl_PrimitiveIDIn)")
  | .other _ => .ok prog

/-- `cgAddDbgCode(type, prog, cgOptions, src, vl, stack, option, outPrimType)`. -/
def cgAddDbgCode (g : CgState) (type : cgTypes) (prog : String) (cgOptions : DbgCgOptions)
    (src : Option ShChangeableList) (vl : Option ShVariableList) (stack : IRGenStack)
    (option outPrimType : Int) : Except CgError String :=
  match type with
  | .CG_TYPE_RESULT =>
    let header :=
      if insideLoopGuard cgOptions option then addLoopHeader prog stack else .ok prog
    match header with
    | .error e => .error e
    | .ok prog1 =>
      match g.result with
      | none => .error .undefined
      | some v =>
        match addResultCode g v prog1 cgOptions src vl option outPrimType with
        | .error e => .error e
        | .ok prog2 =>
          if insideLoopGuard cgOptions option then .ok (addLoopFooter prog2 stack)
          else .ok prog2
  | .CG_TYPE_PARAMETER =>
    match g.parameter with
    | none => .error .undefined
    | some v =>
      match cString v.name with
      | .error e => .error e
      | .ok n => .ok (prog ++ n)
  | .CG_TYPE_CONDITION =>
    match g.condition with
    | none => .error .undefined
    | some v =>
      match cString v.name with
      | .error e => .error e
      | .ok n => .ok (prog ++ n)
  | _ => .ok prog

/-! ## Function name map and loop iterator names -/

/-- `cgInitNameMap()`. -/
def cgInitNameMap (g : CgState) : CgState := { g with nameMap := [] }

/-- What the source reads of a `struct gl_shader`: the names of its functions, as
`getFunctionBySignature` compares them with the candidate name. -/
abbrev gl_shader := List String

/-- Modelled from the spec: `getFunctionName` is defined outside this file; it yields
the function name of a signature, the `base` to which `DBG` is appended: the text in
front of the parameter list, which starts at the first `(`. -/
def getFunctionName (input : String) : String :=
  String.mk (input.data.takeWhile (fun c => c != '('))

/-- Modelled from the spec: `getFunctionBySignature` is defined outside this file; it
yields the function of the shader "with that name/signature", and `NULL` when there is
none. -/
def getFunctionBySignature (name : String) (shader : gl_shader) : Option String :=
  shader.find? (fun f => f == name)

def CG_FUNCTION_POSTFIX : String := "DBG"

/-- The `while` loop of `getNewUnusedFunctionName`, with the current `output` and the
number of calls of `rand()` so far; `base` is `output` cut at `baseLen`.  The first
argument bounds the number of times the loop condition is tested; `none` means that the
loop is still running after that many tests. -/
def getNewUnusedFunctionNameLoop (shader : gl_shader) (base : String) (rnd : RandomSource) :
    Nat → String → Nat → Option (String × Nat)
  | 0, _, _ => none
  | tests + 1, output, pos =>
    if (getFunctionBySignature output shader).isSome then
      getNewUnusedFunctionNameLoop shader base rnd tests (base ++ randomLetters rnd pos) (pos + 3)
    else some (output, pos)

/-- `getNewUnusedFunctionName(input, shader)`: the returned string and the number of
calls of `rand()` afterwards.  (A failing `malloc` is not modelled.) -/
def getNewUnusedFunctionName (input : String) (shader : gl_shader) (rnd : RandomSource)
    (pos tests : Nat) : Option (String × Nat) :=
  getNewUnusedFunctionNameLoop shader (getFunctionName input ++ CG_FUNCTION_POSTFIX) rnd tests
    (getFunctionName input ++ CG_FUNCTION_POSTFIX) pos

/-- `cgGetDebugName(input, shader)`: the returned string, the state `g` afterwards and
the number of calls of `rand()`.  The map `g.nameMap`, ordered by the contents of its
keys, is a list of pairs that is searched by key; a new pair is put in front. -/
def cgGetDebugName (g : CgState) (input : String) (shader : gl_shader) (rnd : RandomSource)
    (pos tests : Nat) : Option (String × CgState × Nat) :=
  match g.nameMap.lookup input with
  | some name => some (name, g, pos)
  | none =>
    match getNewUnusedFunctionName input shader rnd pos tests with
    | none => none
    | some (name, pos1) => some (name, { g with nameMap := (input, name) :: g.nameMap }, pos1)

/-- `cgInitLoopIter()`. -/
def cgInitLoopIter (g : CgState) : CgState := { g with numLoopIters := 0, loopIters := [] }

/-- `cgSetLoopIterName(name, vl)`: the string stored in `*name`, the state `g`
afterwards and the number of calls of `rand()`; `none` means that the name loop is
still running after `tests` tests. -/
def cgSetLoopIterName (g : CgState) (vl : ShVariableList) (rnd : RandomSource)
    (pos tests : Nat) : Option (String × CgState × Nat) :=
  match getUnusedNameByPrefix vl (CG_LOOP_ITER_PREFIX ++ toString g.numLoopIters) rnd pos tests
    with
  | none => none
  | some (name, pos1) =>
    some (name, { g with loopIters := g.loopIters ++ [name],
                         numLoopIters := g.numLoopIters + 1 }, pos1)

/-- `cgResetLoopIterNames()`. -/
def cgResetLoopIterNames (g : CgState) : CgState :=
  { g with numLoopIters := 0, loopIters := [] }

/-! ## Statements of the specification, used to compare the code with -/

/-- Follows the spec's words: the width table of section 4.4 for a variable without
struct fields, by the count `n` of array operations already applied, the shape flags,
the declared size and the first array dimension.  `none` is a cell the table does
not give a width for. -/
def specTableWidth (n : Int) (isArray isMatrix : Bool) (size arrayDimension0 : Int) :
    Option Int :=
  match n, isArray, isMatrix with
  | 0, true, _ => some (arrayDimension0 * size)
  | 0, false, true => some (size * size)
  | 0, false, false => some size
  | 1, true, _ => some size
  | 1, false, false => if size > 1 then some 1 else none
  | 2, true, true => some size
  | 2, true, false => if size > 1 then some 1 else none
  | 2, false, true => some 1
  | 3, true, true => some 1
  | _, _, _ => none

/-- Follows the spec's words: the cells of the width table that are marked fatal. -/
def specFatalCell (n : Int) (isArray isMatrix : Bool) (size : Int) : Prop :=
  (n = 1 ∧ isArray = false ∧ isMatrix = false ∧ ¬ size > 1) ∨
  (n = 2 ∧ ¬ (isArray = true ∧ isMatrix = true) ∧
    ¬ (isArray = true ∧ isMatrix = false ∧ size > 1) ∧
    ¬ (isArray = false ∧ isMatrix = true)) ∨
  (n = 3 ∧ ¬ (isArray = true ∧ isMatrix = true)) ∨
  4 ≤ n

/-- Follows the spec's words: the packed swizzle index whose decimal digits are `ds`,
most significant digit first. -/
def packSwizzle : List Nat → Nat
  | [] => 0
  | d :: ds => d * 10 ^ ds.length + packSwizzle ds

/-- Follows the spec's words: the component letter of a swizzle digit
(1 is x, 2 is y, 3 is z, 4 is w). -/
def specSwizzleLetter (d : Nat) : Char :=
  match d with
  | 1 => 'x'
  | 2 => 'y'
  | 3 => 'z'
  | _ => 'w'

/-- The decimal digits of `n` in front of `acc`, most significant digit first; `fuel`
bounds the number of digits that are taken. -/
def decimalDigitsFrom : Nat → Nat → List Nat → List Nat
  | 0, _, acc => acc
  | fuel + 1, n, acc =>
    if n = 0 then acc else decimalDigitsFrom fuel (n / 10) (n % 10 :: acc)

/-- The decimal digits of `n`, most significant digit first; 0 has none. -/
def decimalDigits (n : Nat) : List Nat := decimalDigitsFrom n n []

/-- Follows the spec's words: the multi-component letters of a packed swizzle index,
one letter for every decimal digit, the most significant digit first (1 is x, 2 is y,
3 is z, 4 is w).  `none` when the index is not a packed index: below 1, of more than 4
digits, or with a digit outside `1..4`. -/
def specMultiSwizzleLetters (i : Int) : Option String :=
  if 1 ≤ i ∧ (decimalDigits i.toNat).length ≤ 4 ∧
      ∀ d ∈ decimalDigits i.toNat, 1 ≤ d ∧ d ≤ 4 then
    some (String.mk ((decimalDigits i.toNat).map specSwizzleLetter))
  else none

/-- Follows the spec's words: the single letter of an array-direct index
(0 is x, 1 is y, 2 is z, 3 is w). -/
def specSingleLetter (i : Int) : Option String :=
  match i with
  | 0 => some "x"
  | 1 => some "y"
  | 2 => some "z"
  | 3 => some "w"
  | _ => none

/-- The concatenation of a list of texts, in order. -/
def concatTexts : List String → String
  | [] => ""
  | t :: ts => t ++ concatTexts ts

/-- Follows the spec's words: the text of the variable itself, its name followed by
`_<uniqueId>` if and only if it is not a builtin and its qualifier is none of
varying-in, varying-out, uniform, attribute. -/
def specNameText (var : ShVariable) : Option String :=
  match var.name with
  | none => none
  | some n =>
    if var.builtin = false ∧ var.qualifier ≠ .SH_VARYING_IN ∧ var.qualifier ≠ .SH_VARYING_OUT ∧
        var.qualifier ≠ .SH_UNIFORM ∧ var.qualifier ≠ .SH_ATTRIBUTE then
      some (n ++ "_" ++ toString var.uniqueId)
    else some n

/-- Follows the spec's words: the pieces of text of the index operations, in order,
starting at the current variable `cur`: `[<index>]` for array-indirect, `.` and the
single letter for array-direct, `.<fieldName>` of the field at the index for
struct-field (that field is the current variable from then on), `.` and the
multi-component letters of the packed index for swizzle.  `none` when a struct-field
index is out of range, a field or name is missing, or an index has no letters. -/
def specIndexTexts : ShVariable → List ShChangeableIndex → Option (List String)
  | _, [] => some []
  | cur, idx :: rest =>
    match idx.type with
    | .SH_CGB_ARRAY_INDIRECT =>
      (specIndexTexts cur rest).map (fun ts => ("[" ++ toString idx.index ++ "]") :: ts)
    | .SH_CGB_ARRAY_DIRECT =>
      match specSingleLetter idx.index with
      | none => none
      | some letter => (specIndexTexts cur rest).map (fun ts => ("." ++ letter) :: ts)
    | .SH_CGB_STRUCT =>
      if 0 ≤ idx.index ∧ idx.index < cur.structSize then
        match cur.structField idx.index with
        | none => none
        | some field =>
          match field.name with
          | none => none
          | some fieldName =>
            (specIndexTexts field rest).map (fun ts => ("." ++ fieldName) :: ts)
      else none
    | .SH_CGB_SWIZZLE =>
      match specMultiSwizzleLetters idx.index with
      | none => none
      | some letters => (specIndexTexts cur rest).map (fun ts => ("." ++ letters) :: ts)

/-- Follows the spec's words: the text of an observation path on the variable `var`. -/
def specPathText (var : ShVariable) (indices : List ShChangeableIndex) : Option String :=
  match specNameText var, specIndexTexts var indices with
  | some n, some ts => some (n ++ concatTexts ts)
  | _, _ => none

/-- Follows the spec's words: the texts in order, separated by `, `, with no separator
after the last one. -/
def specJoin : List String → String
  | [] => ""
  | [t] => t
  | t :: u :: ts => t ++ ", " ++ specJoin (u :: ts)

/-- The sum of the widths as the source adds them up, one C `int` addition for every
path, starting from `size`. -/
def addWidths : Int → List Int → Int
  | size, [] => size
  | size, w :: ws => addWidths (wrapInt32 (size + w)) ws

/-- Follows the spec's words: `count` copies of the padding argument `, 0.0`. -/
def specPadding (count : Nat) : String := concatTexts (List.replicate count ", 0.0")

/-- Follows the spec's words: the frames of the stack that need iteration gating, in
stack order. -/
def gatingLoops : IRGenStack → List ir_loop
  | [] => []
  | node :: rest =>
    match node.as_loop with
    | none => gatingLoops rest
    | some l => if needDbgLoopIter (some l) then l :: gatingLoops rest else gatingLoops rest

/-- Follows the spec's words: the condition `<iterName> == <targetIteration> &&` of a
gating frame; `none` when the frame has no iteration-counter name. -/
def specCondition (l : ir_loop) : Option String :=
  match l.iter_name with
  | none => none
  | some iterName => some (iterName ++ " == " ++ toString l.debug_iter ++ " &&")

/-- Follows the spec's words: `typeName(baseType, vectorWidth, forceScalar)`; `none`
where the spec names no text (a vector of a base type other than the four). -/
def specTypeName (baseType : variableType) (vectorWidth : Int) (forceScalar : Bool) :
    Option String :=
  if vectorWidth = 1 ∨ forceScalar = true then
    match baseType with
    | .SH_FLOAT => some "float"
    | .SH_INT => some "int"
    | .SH_UINT => some "unsigned int"
    | .SH_BOOL => some "bool"
    | .other _ => some ""
  else
    match baseType with
    | .SH_FLOAT => some ("vec" ++ toString vectorWidth)
    | .SH_INT => some ("ivec" ++ toString vectorWidth)
    | .SH_UINT => some ("uvec" ++ toString vectorWidth)
    | .SH_BOOL => some ("bvec" ++ toString vectorWidth)
    | .other _ => none

/-- A variable of the registry has the given name. -/
def nameInRegistry (vl : ShVariableList) (name : String) : Prop :=
  ∃ v ∈ vl, v.name = some name

/-- Successive calls of `cgSetLoopIterName`, one for every registry of the list: the
names stored by the calls in order, the state `g` after the last call and the number
of calls of `rand()`. -/
def cgSetLoopIterNames (rnd : RandomSource) (tests : Nat) :
    List ShVariableList → CgState → Nat → Option (List String × CgState × Nat)
  | [], g, pos => some ([], g, pos)
  | vl :: rest, g, pos =>
    match cgSetLoopIterName g vl rnd pos tests with
    | none => none
    | some (name, g1, pos1) =>
      match cgSetLoopIterNames rnd tests rest g1 pos1 with
      | none => none
      | some (names, g2, pos2) => some (name :: names, g2, pos2)

/-- A function of the shader has the given name. -/
def functionInShader (shader : gl_shader) (name : String) : Prop := name ∈ shader

/-- Successive calls of `cgGetDebugName` against one shader, one for every input
signature of the list: the names returned by the calls in order, the state `g` after
the last call and the number of calls of `rand()`. -/
def cgGetDebugNames (shader : gl_shader) (rnd : RandomSource) (tests : Nat) :
    List String → CgState → Nat → Option (List String × CgState × Nat)
  | [], g, pos => some ([], g, pos)
  | input :: rest, g, pos =>
    match cgGetDebugName g input shader rnd pos tests with
    | none => none
    | some (name, g1, pos1) =>
      match cgGetDebugNames shader rnd tests rest g1 pos1 with
      | none => none
      | some (names, g2, pos2) => some (name :: names, g2, pos2)

/-- The depth of open parentheses after reading the characters, starting from the given
depth; `none` as soon as a `)` closes a parenthesis that is not open. -/
def parenDepth : List Char → Nat → Option Nat
  | [], depth => some depth
  | c :: rest, depth =>
    if c = '(' then parenDepth rest (depth + 1)
    else if c = ')' then
      match depth with
      | 0 => none
      | d + 1 => parenDepth rest d
    else parenDepth rest depth

/-- Follows the spec's words: the parentheses of a text are balanced, no prefix has more
`)` than `(` and the totals are equal. -/
def parenBalanced (text : String) : Bool := parenDepth text.data 0 == some 0

/-- The number read from the decimal digits at the front of the characters. -/
def leadingNumber (chars : List Char) : Nat :=
  (chars.takeWhile Char.isDigit).foldl (fun value c => 10 * value + (c.toNat - '0'.toNat)) 0

/-- The number that follows `dbgIter` in a loop iterator name. -/
def loopIterNumber (name : String) : Nat := leadingNumber (name.data.drop 7)

/-- The outcome of appending to the buffer `prog` the text that a call appends to the
empty buffer. -/
def appendTo (prog : String) : Except CgError String → Except CgError String
  | .error e => .error e
  | .ok text => .ok (prog ++ text)

/-- A swizzle operation with the given packed index. -/
def swizzleOp (i : Int) : ShChangeableIndex := { type := .SH_CGB_SWIZZLE, index := i }

/-- A struct-field operation with the given field index. -/
def structOp (i : Int) : ShChangeableIndex := { type := .SH_CGB_STRUCT, index := i }

/-- An array-indirect operation with the given index. -/
def indirectOp (i : Int) : ShChangeableIndex := { type := .SH_CGB_ARRAY_INDIRECT, index := i }

/-- An array-direct operation with the given index. -/
def directOp (i : Int) : ShChangeableIndex := { type := .SH_CGB_ARRAY_DIRECT, index := i }

/-! ## Example variables -/

/-- A plain variable of the given id, name, size and shape flags: a temporary float
that is not a builtin and has no struct fields. -/
def plainVariable (id : Int) (name : String) (size : Int) (isMatrix isArray : Bool)
    (arraySize : List Int) : ShVariable :=
  .mk id false (some name) .SH_FLOAT .SH_TEMPORARY size isMatrix isArray arraySize none 0 none

/-- The variable `float f`. -/
def exampleFloat : ShVariable := plainVariable 3 "f" 1 false false [0]

/-- The variable `vec4 v`. -/
def exampleVec4 : ShVariable := plainVariable 4 "v" 4 false false [0]

/-- The variable `mat4 m`. -/
def exampleMat4 : ShVariable := plainVariable 5 "m" 4 true false [0]

/-- An array variable whose declared size and first dimension are both 65536, so that
their exact product 4294967296 is not a value of a 32-bit `int`. -/
def exampleWideArray : ShVariable := plainVariable 9 "wide" 65536 false true [65536]

/-- The array `vec4 a[536870912]`: 4 times its dimension is 2147483648, one more than
the largest 32-bit `int`. -/
def exampleLongArray : ShVariable := plainVariable 10 "a" 4 false true [536870912]

/-- The variable `mat3 ms[2]`. -/
def exampleMat3Array : ShVariable := plainVariable 6 "ms" 3 true true [2]

/-- The variable `struct S { float f; mat4 m; mat3 ms[2]; } s`. -/
def exampleStruct : ShVariable :=
  .mk 7 false (some "s") (.other 0) .SH_TEMPORARY 1 false false [0] (some "S") 3
    (some [exampleFloat, exampleMat4, exampleMat3Array])

/-- The variable `S sa[5]`, an array of the struct above. -/
def exampleStructArray : ShVariable :=
  .mk 8 false (some "sa") (.other 0) .SH_TEMPORARY 1 false true [5] (some "S") 3
    (some [exampleFloat, exampleMat4, exampleMat3Array])

/-- The stack of a branch node, a loop that is being debugged at iteration 2 and a loop
that has not been reached. -/
def exampleStack : IRGenStack :=
  [{ as_loop := none },
   { as_loop := some { debug_state_internal := .other 0, debug_iter := 2,
                       iter_name := some "dbgIter0" } },
   { as_loop := some { debug_state_internal := .ir_dbg_loop_unset, debug_iter := 0,
                       iter_name := none } }]

/-- The state `g` before any call: no debug variable, no names. -/
def emptyState : CgState :=
  { result := none, condition := none, parameter := none, nameMap := [], loopIters := [],
    numLoopIters := 0 }

/-- A random source that draws the letters A, B, C, ... in turn. -/
def exampleRandom : RandomSource := fun n => ⟨n % 26, Nat.mod_lt n (by decide)⟩

/-- A variable of the registry with the given name: a uniform float. -/
def namedVariable (id : Int) (name : String) : ShVariable :=
  .mk id false (some name) .SH_FLOAT .SH_UNIFORM 1 false false [0] none 0 none

/-- The live result variable `vec3 dbgResult`, a temporary. -/
def exampleResultVec3 : ShVariable :=
  .mk (-1) false (some "dbgResult") .SH_FLOAT .SH_TEMPORARY 3 false false [0] none 0 none

/-- The live result variable `float dbgResult`, a temporary, as `cgInit` stores it in
the fragment stage. -/
def exampleResultFloat : ShVariable :=
  (defaultVariable .SH_FLOAT .SH_TEMPORARY).setName (some "dbgResult")

/-- A random source that draws the letters D, B, G again and again. -/
def exampleRandomDBG : RandomSource := fun n =>
  if n % 3 = 0 then 3 else if n % 3 = 1 then 1 else 6

/-! ## The width table -/

/-- A value in the range of a 32-bit `int` is not changed by the reduction. -/
theorem wrapInt32_of_range (x : Int) (hlo : -2147483648 ≤ x) (hhi : x < 2147483648) :
    wrapInt32 x = x := by
  unfold wrapInt32
  omega

/-- C1 (as amended): for a variable without struct fields and a count `n` of applied
array operations, `getVariableSizeByArrayIndices` returns the width that the table of
section 4.4 gives for `n` and the shape of the variable, in every cell where the
table gives a width that is a value of the result type, a 32-bit `int`. -/
theorem getVariableSizeByArrayIndices_table (var : ShVariable) (n w : Int)
    (hstruct : var.structSpec = none)
    (hcell : specTableWidth n var.isArray var.isMatrix var.size var.arraySize0 = some w)
    (hint : -2147483648 ≤ w ∧ w < 2147483648) :
    getVariableSizeByArrayIndices var n = .ok w := by
  unfold specTableWidth at hcell
  unfold getVariableSizeByArrayIndices
  rw [hstruct]
  split at hcell <;> (try split at hcell) <;> cases hcell <;>
    simp [*, wrapInt32_of_range _ hint.1 hint.2]

/-- Witness of C1 on `mat3 ms[2]`: without a subscript the two matrices, of width 6,
and after one subscript one matrix, of width 3. -/
theorem getVariableSizeByArrayIndices_table_witness :
    exampleMat3Array.structSpec = none ∧
    specTableWidth 0 exampleMat3Array.isArray exampleMat3Array.isMatrix exampleMat3Array.size
      exampleMat3Array.arraySize0 = some 6 ∧
    getVariableSizeByArrayIndices exampleMat3Array 0 = .ok 6 ∧
    getVariableSizeByArrayIndices exampleMat3Array 1 = .ok 3 :=
  ⟨rfl, by decide,
   getVariableSizeByArrayIndices_table exampleMat3Array 0 6 rfl (by decide) (by decide),
   getVariableSizeByArrayIndices_table exampleMat3Array 1 3 rfl (by decide) (by decide)⟩

/-- C1 (counterexample): for an array without struct fields whose size and first
dimension are both 65536 the table gives the width `arraySize[0] * size`, which is
4294967296, and `getVariableSizeByArrayIndices` does not return it: its result is an
`int`, and the `int` product of line 508 is 0.  For `vec4 a[536870912]` the table
gives 2147483648, and the `int` product is -2147483648. -/
theorem getVariableSizeByArrayIndices_table_counterexample :
    (exampleWideArray.structSpec = none ∧
      specTableWidth 0 exampleWideArray.isArray exampleWideArray.isMatrix
        exampleWideArray.size exampleWideArray.arraySize0 = some 4294967296 ∧
      getVariableSizeByArrayIndices exampleWideArray 0 = .ok 0 ∧
      getVariableSizeByArrayIndices exampleWideArray 0 ≠ .ok 4294967296) ∧
    (exampleLongArray.structSpec = none ∧
      specTableWidth 0 exampleLongArray.isArray exampleLongArray.isMatrix
        exampleLongArray.size exampleLongArray.arraySize0 = some 2147483648 ∧
      getVariableSizeByArrayIndices exampleLongArray 0 = .ok (-2147483648) ∧
      getVariableSizeByArrayIndices exampleLongArray 0 ≠ .ok 2147483648) :=
  ⟨⟨rfl, by decide, by decide, by decide⟩, ⟨rfl, by decide, by decide, by decide⟩⟩

/-- C2: in every cell that the table marks fatal, and for every count of 4 or more,
`getVariableSizeByArrayIndices` reaches `exit(1)`: it returns no width, whatever else
the variable holds. -/
theorem getVariableSizeByArrayIndices_fatal (var : ShVariable) (n : Int)
    (hcell : specFatalCell n var.isArray var.isMatrix var.size) :
    getVariableSizeByArrayIndices var n = .error .fatal := by
  unfold getVariableSizeByArrayIndices
  rcases hcell with ⟨hn, ha, hm, hs⟩ | ⟨hn, h1, h2, h3⟩ | ⟨hn, h1⟩ | hn
  · subst hn
    simp [ha, hm, hs]
  · subst hn
    cases ha : var.isArray <;> cases hm : var.isMatrix <;> simp_all
  · subst hn
    cases ha : var.isArray <;> cases hm : var.isMatrix <;> simp_all
  · have h0 : n ≠ 0 := by omega
    have h1 : n ≠ 1 := by omega
    have h2 : n ≠ 2 := by omega
    have h3 : n ≠ 3 := by omega
    simp [h0, h1, h2, h3]

/-- Witness of C2 on `float f` with one subscript and on `mat4 m` with four. -/
theorem getVariableSizeByArrayIndices_fatal_witness :
    getVariableSizeByArrayIndices exampleFloat 1 = .error .fatal ∧
    getVariableSizeByArrayIndices exampleMat4 4 = .error .fatal :=
  ⟨getVariableSizeByArrayIndices_fatal exampleFloat 1 (Or.inl (by decide)),
   getVariableSizeByArrayIndices_fatal exampleMat4 4 (Or.inr (Or.inr (Or.inr (by decide))))⟩

/-! ## Width of a path without index operations -/

/-- With an empty index chain, `getShChangeableSize` returns the `size` field of the
resolved variable, whatever its shape: the `for` loop does not run and the table is
not consulted. -/
theorem getShChangeableSize_nil (id : Int) (vl : ShVariableList) (var : ShVariable)
    (hvar : findShVariableFromId vl id = some var) :
    getShChangeableSize (some { id := id, indices := [] }) (some vl) = .ok var.size := by
  simp [getShChangeableSize, hvar, sizeLoop]

/-- C3 (the code differs): for `mat4 m` and the empty index chain, `getShChangeableSize`
returns 4, although the table gives 16 for a matrix with 0 applied operations; for
`mat3 ms[2]` it returns 3, although the table gives 6. -/
theorem getShChangeableSize_nil_ignores_table :
    getShChangeableSize (some { id := 5, indices := [] }) (some [exampleMat4, exampleMat3Array])
      = .ok 4 ∧
    getVariableSizeByArrayIndices exampleMat4 0 = .ok 16 ∧
    specTableWidth 0 false true 4 0 = some 16 ∧
    getShChangeableSize (some { id := 6, indices := [] }) (some [exampleMat4, exampleMat3Array])
      = .ok 3 ∧
    getVariableSizeByArrayIndices exampleMat3Array 0 = .ok 6 := by
  decide

/-! ## Multi-component swizzles -/

/-- C4 (the code differs): for the packed index 1, `itoMultiSwizzle` returns the empty
string and not `x`, because `ceil(log10(1))` is 0 and the loop does not run; 12 and
4321 are decoded to `xy` and `wzyx`. -/
theorem itoMultiSwizzle_one :
    itoMultiSwizzle 1 = .ok "" ∧
    itoMultiSwizzle 12 = .ok "xy" ∧
    itoMultiSwizzle 4321 = .ok "wzyx" := by
  decide

/-- A packed index of digits below 10 is below the power of ten of its length. -/
theorem packSwizzle_lt (ds : List Nat) (hd : ∀ d ∈ ds, 1 ≤ d ∧ d ≤ 4) :
    packSwizzle ds < 10 ^ ds.length := by
  induction ds with
  | nil => simp [packSwizzle]
  | cons d ds ih =>
    have h1 := ih (fun e he => hd e (List.mem_cons_of_mem _ he))
    have h2 := (hd d (List.mem_cons_self _ _)).2
    simp only [packSwizzle, List.length_cons, pow_succ]
    have h3 : 0 < 10 ^ ds.length := by positivity
    nlinarith

/-- The leading digit of a packed index is its quotient by the power of ten of the
number of digits that follow. -/
theorem packSwizzle_div (d r k : Nat) (h : r < 10 ^ k) :
    ((d * 10 ^ k + r : Nat) : Int) / 10 ^ k = (d : Int) := by
  have hp : (0 : Int) < 10 ^ k := by positivity
  push_cast
  rw [add_comm, Int.add_mul_ediv_right _ _ (ne_of_gt hp)]
  rw [Int.ediv_eq_zero_of_lt (by positivity) (by exact_mod_cast h)]
  simp

/-- The character stored for a digit in `1..4` is its component letter. -/
theorem swizzleChar_digit (d : Nat) (hd : 1 ≤ d ∧ d ≤ 4) :
    swizzleChar (d : Int) = some (specSwizzleLetter d) := by
  obtain ⟨h1, h4⟩ := hd
  interval_cases d <;> decide

/-- The loop of `itoMultiSwizzle`, started with as many iterations as there are
digits, stores the letter of every digit in order, as long as the buffer has room. -/
theorem itoMultiSwizzleLoop_digits (ds : List Nat) (hd : ∀ d ∈ ds, 1 ≤ d ∧ d ≤ 4) :
    ∀ written : List Char, written.length + ds.length ≤ 5 →
      itoMultiSwizzleLoop ds.length (packSwizzle ds : Int) written
        = .ok (written ++ ds.map specSwizzleLetter) := by
  induction ds with
  | nil => intro written _; simp [itoMultiSwizzleLoop]
  | cons d ds ih =>
    intro written hlen
    have hrest : ∀ e ∈ ds, 1 ≤ e ∧ e ≤ 4 := fun e he => hd e (List.mem_cons_of_mem _ he)
    have hlt := packSwizzle_lt ds hrest
    have hdiv := packSwizzle_div d (packSwizzle ds) ds.length hlt
    have hchar := swizzleChar_digit d (hd d (List.mem_cons_self _ _))
    simp only [List.length_cons] at hlen
    have hroom : written.length < 5 := by omega
    have hsub : ((d * 10 ^ ds.length + packSwizzle ds : Nat) : Int) - (d : Int) * 10 ^ ds.length
        = (packSwizzle ds : Int) := by
      push_cast; ring
    simp only [List.length_cons, packSwizzle, itoMultiSwizzleLoop, hdiv, hchar, hroom,
      if_true, hsub]
    rw [ih hrest (written ++ [specSwizzleLetter d]) (by simp; omega)]
    simp

/-- The search of `ceilLog10` as a case distinction on the powers of ten. -/
theorem ceilLog10Search_six (n : Nat) :
    ceilLog10Search 6 0 n =
      if n ≤ 1 then 0 else if n ≤ 10 then 1 else if n ≤ 100 then 2 else if n ≤ 1000 then 3
      else if n ≤ 10000 then 4 else if n ≤ 100000 then 5 else 6 := by
  simp [ceilLog10Search]

/-- The value of `(int)ceil(log10((float)i))` between two powers of ten. -/
theorem ceilLog10_of_bounds (n k : Nat) (hk : 1 ≤ k ∧ k ≤ 4) (hlo : 10 ^ (k - 1) < n)
    (hhi : n ≤ 10 ^ k) : ceilLog10 (n : Int) = .ok (k : Int) := by
  obtain ⟨h1, h4⟩ := hk
  have hn : (1 : Int) ≤ n ∧ (n : Int) < 1000000 := by
    interval_cases k <;> norm_num at hlo hhi <;> omega
  simp only [ceilLog10, hn, and_self, if_true, Int.toNat_ofNat, ceilLog10Search_six]
  interval_cases k <;> norm_num at hlo hhi <;> (split_ifs <;> first | rfl | omega)

/-- The value of `(int)ceil(log10((float)i))` on a packed index of 1 to 4 digits in
`1..4`: the number of digits, except for the index 1, where it is 0. -/
theorem ceilLog10_packSwizzle (ds : List Nat) (hlen : 1 ≤ ds.length ∧ ds.length ≤ 4)
    (hd : ∀ d ∈ ds, 1 ≤ d ∧ d ≤ 4) :
    ceilLog10 (packSwizzle ds : Int) = .ok (if ds = [1] then 0 else (ds.length : Int)) := by
  by_cases hone : ds = [1]
  · subst hone
    decide
  · rw [if_neg hone]
    apply ceilLog10_of_bounds _ _ hlen _ (le_of_lt (packSwizzle_lt ds hd))
    match ds, hlen, hd, hone with
    | [], hlen, _, _ => simp at hlen
    | [a], _, hd, hone =>
      have ha := hd a (by simp)
      have hne : a ≠ 1 := fun h => hone (by rw [h])
      simp [packSwizzle]
      omega
    | a :: b :: rest, _, hd, _ =>
      have ha := hd a (by simp)
      have hb := hd b (by simp)
      have hp : 0 < 10 ^ rest.length := by positivity
      simp only [packSwizzle, List.length_cons, Nat.add_sub_cancel, pow_succ]
      nlinarith [Nat.zero_le (packSwizzle rest)]

/-- Apart from the index 1, `itoMultiSwizzle` decodes a packed index of 1 to 4 digits
in `1..4` into the letters of its digits, most significant digit first. -/
theorem itoMultiSwizzle_digits (ds : List Nat) (hlen : 1 ≤ ds.length ∧ ds.length ≤ 4)
    (hd : ∀ d ∈ ds, 1 ≤ d ∧ d ≤ 4) (hone : ds ≠ [1]) :
    itoMultiSwizzle (packSwizzle ds : Int) = .ok (String.mk (ds.map specSwizzleLetter)) := by
  have hloop := itoMultiSwizzleLoop_digits ds hd [] (by simp; omega)
  have hroom : ds.length < 5 := by omega
  simp [itoMultiSwizzle, ceilLog10_packSwizzle ds hlen hd, hone, hloop, hroom]

/-- On a packed index of 1 to 4 digits in `1..4`, `itoMultiSwizzle` returns a string
and the width expression of `getShChangeableSize` is the length of that string. -/
theorem itoMultiSwizzle_length (ds : List Nat) (hlen : 1 ≤ ds.length ∧ ds.length ≤ 4)
    (hd : ∀ d ∈ ds, 1 ≤ d ∧ d ≤ 4) :
    ∃ s : String, itoMultiSwizzle (packSwizzle ds : Int) = .ok s ∧
      ceilLog10 (packSwizzle ds : Int) = .ok (s.length : Int) := by
  by_cases hone : ds = [1]
  · subst hone
    exact ⟨"", by decide, by decide⟩
  · refine ⟨String.mk (ds.map specSwizzleLetter), itoMultiSwizzle_digits ds hlen hd hone, ?_⟩
    rw [ceilLog10_packSwizzle ds hlen hd, if_neg hone]
    simp [String.length]

/-- The loop of `getShChangeableSize` over a chain that is split in two runs the second
part from the state the first part ends in. -/
theorem sizeLoop_append (pre post : List ShChangeableIndex) (st st1 : SizeState)
    (hpre : sizeLoop pre st = .ok st1) : sizeLoop (pre ++ post) st = sizeLoop post st1 := by
  induction pre generalizing st with
  | nil =>
    simp only [sizeLoop] at hpre
    cases hpre
    rfl
  | cons idx rest ih =>
    simp only [sizeLoop, List.cons_append] at hpre ⊢
    cases hstep : sizeStep st idx with
    | error e => simp [hstep] at hpre
    | ok st2 =>
      simp only [hstep] at hpre ⊢
      exact ih st2 hpre

/-- C5: for a path on a variable of the registry whose last operation is a swizzle
with a packed index of 1 to 4 digits in `1..4`, reached through any earlier operations
that have a width, `itoMultiSwizzle` returns a string for that index and
`getShChangeableSize` returns the number of its letters, whatever the shape of the
variable and the earlier operations are. -/
theorem getShChangeableSize_swizzle (c : ShChangeable) (vl : ShVariableList) (var : ShVariable)
    (pre : List ShChangeableIndex) (st : SizeState) (ds : List Nat)
    (hvar : findShVariableFromId vl c.id = some var)
    (hidx : c.indices = pre ++ [swizzleOp (packSwizzle ds)])
    (hpre : sizeLoop pre { var := var, arraySub := 0, size := var.size } = .ok st)
    (hlen : 1 ≤ ds.length ∧ ds.length ≤ 4) (hd : ∀ d ∈ ds, 1 ≤ d ∧ d ≤ 4) :
    ∃ s : String, itoMultiSwizzle (packSwizzle ds : Int) = .ok s ∧
      getShChangeableSize (some c) (some vl) = .ok (s.length : Int) := by
  obtain ⟨s, hs, hw⟩ := itoMultiSwizzle_length ds hlen hd
  refine ⟨s, hs, ?_⟩
  simp [getShChangeableSize, hvar, hidx, sizeLoop_append pre _ _ st hpre, sizeLoop, sizeStep,
    swizzleOp, hw]

/-- Witness of C5 on `v[0].zw` for `vec4 v`: two letters, width 2. -/
theorem getShChangeableSize_swizzle_witness :
    ∃ s : String, itoMultiSwizzle (packSwizzle [3, 4] : Int) = .ok s ∧
      getShChangeableSize (some { id := 4, indices := [indirectOp 0, swizzleOp 34] })
        (some [exampleFloat, exampleVec4]) = .ok (s.length : Int) :=
  getShChangeableSize_swizzle { id := 4, indices := [indirectOp 0, swizzleOp 34] }
    [exampleFloat, exampleVec4] exampleVec4 [indirectOp 0]
    { var := exampleVec4, arraySub := 1, size := 1 } [3, 4] rfl rfl rfl (by decide) (by decide)

/-! ## Text of an observation path -/

/-- The single letter of an array-direct index is what `itoSwizzle` returns. -/
theorem itoSwizzle_letter (i : Int) (letter : String) (h : specSingleLetter i = some letter) :
    itoSwizzle i = .ok letter := by
  unfold specSingleLetter at h
  split at h <;> cases h <;> rfl

/-- The digits that `decimalDigitsFrom` puts in front of `acc` are those of `n`. -/
theorem packSwizzle_decimalDigitsFrom :
    ∀ (fuel n : Nat) (acc : List Nat), n ≤ fuel →
      packSwizzle (decimalDigitsFrom fuel n acc) = n * 10 ^ acc.length + packSwizzle acc := by
  intro fuel
  induction fuel with
  | zero =>
    intro n acc h
    have h0 : n = 0 := by omega
    simp [decimalDigitsFrom, h0]
  | succ fuel ih =>
    intro n acc h
    by_cases h0 : n = 0
    · simp [decimalDigitsFrom, h0]
    · simp only [decimalDigitsFrom, h0, if_false]
      rw [ih (n / 10) (n % 10 :: acc) (by omega)]
      simp only [packSwizzle, List.length_cons, pow_succ]
      have hdm := Nat.div_add_mod n 10
      calc n / 10 * (10 ^ acc.length * 10) + (n % 10 * 10 ^ acc.length + packSwizzle acc)
          = (10 * (n / 10) + n % 10) * 10 ^ acc.length + packSwizzle acc := by ring
        _ = n * 10 ^ acc.length + packSwizzle acc := by rw [hdm]

/-- The packed index of the decimal digits of `n` is `n`. -/
theorem packSwizzle_decimalDigits (n : Nat) : packSwizzle (decimalDigits n) = n := by
  simp [decimalDigits, packSwizzle_decimalDigitsFrom n n [] (le_refl n), packSwizzle]

/-- Apart from the index 1, `itoMultiSwizzle` returns the multi-component letters of
a packed swizzle index. -/
theorem itoMultiSwizzle_letters (i : Int) (letters : String)
    (h : specMultiSwizzleLetters i = some letters) (hone : i ≠ 1) :
    itoMultiSwizzle i = .ok letters := by
  unfold specMultiSwizzleLetters at h
  split at h
  · rename_i hcond
    obtain ⟨hpos, hlen, hd⟩ := hcond
    cases h
    have hp := packSwizzle_decimalDigits i.toNat
    have hi : ((packSwizzle (decimalDigits i.toNat) : Nat) : Int) = i := by
      rw [hp]
      omega
    have hnil : decimalDigits i.toNat ≠ [] := by
      intro h0
      rw [h0] at hp
      simp only [packSwizzle] at hp
      omega
    have hne : decimalDigits i.toNat ≠ [1] := by
      intro h0
      rw [h0] at hp
      simp only [packSwizzle, List.length_nil, pow_zero] at hp
      omega
    have hlen1 : 1 ≤ (decimalDigits i.toNat).length := by
      cases hds : decimalDigits i.toNat with
      | nil => exact absurd hds hnil
      | cons d ds => simp
    have hcode := itoMultiSwizzle_digits (decimalDigits i.toNat) ⟨hlen1, hlen⟩ hd hne
    rw [hi] at hcode
    exact hcode
  · cases h

/-- The loop of `addVariableCode` appends the pieces of text of the index operations
to the buffer, in order, when no swizzle of the chain has the packed index 1. -/
theorem addIndicesCode_texts (indices : List ShChangeableIndex) :
    ∀ (cur : ShVariable) (prog : String) (ts : List String),
      (∀ idx ∈ indices, idx.type = .SH_CGB_SWIZZLE → idx.index ≠ 1) →
      specIndexTexts cur indices = some ts →
      addIndicesCode indices prog cur = .ok (prog ++ concatTexts ts) := by
  induction indices with
  | nil =>
    intro cur prog ts _ h
    simp only [specIndexTexts, Option.some.injEq] at h
    subst h
    simp [addIndicesCode, concatTexts]
  | cons idx rest ih =>
    intro cur prog ts hswz h
    have hrest : ∀ idx ∈ rest, idx.type = .SH_CGB_SWIZZLE → idx.index ≠ 1 :=
      fun j hj => hswz j (List.mem_cons_of_mem _ hj)
    have hhead := hswz idx (List.mem_cons_self _ _)
    obtain ⟨ty, i⟩ := idx
    cases ty with
    | SH_CGB_ARRAY_INDIRECT =>
      simp only [specIndexTexts, Option.map_eq_some'] at h
      obtain ⟨ts1, h1, rfl⟩ := h
      simp [addIndicesCode, addIndexCode, ih cur _ ts1 hrest h1, concatTexts,
        String.append_assoc]
    | SH_CGB_ARRAY_DIRECT =>
      simp only [specIndexTexts] at h
      cases hl : specSingleLetter i with
      | none => simp [hl] at h
      | some letter =>
        simp only [hl, Option.map_eq_some'] at h
        obtain ⟨ts1, h1, rfl⟩ := h
        simp [addIndicesCode, addIndexCode, itoSwizzle_letter i letter hl,
          ih cur _ ts1 hrest h1, concatTexts, String.append_assoc]
    | SH_CGB_STRUCT =>
      simp only [specIndexTexts] at h
      split at h
      · rename_i hrange
        cases hf : cur.structField i with
        | none => simp [hf] at h
        | some field =>
          cases hn : field.name with
          | none => simp [hf, hn] at h
          | some fieldName =>
            simp only [hf, hn, Option.map_eq_some'] at h
            obtain ⟨ts1, h1, rfl⟩ := h
            simp [addIndicesCode, addIndexCode, hrange.2, hf, hn, cString,
              ih field _ ts1 hrest h1, concatTexts, String.append_assoc]
      · cases h
    | SH_CGB_SWIZZLE =>
      simp only [specIndexTexts] at h
      cases hl : specMultiSwizzleLetters i with
      | none => simp [hl] at h
      | some letters =>
        simp only [hl, Option.map_eq_some'] at h
        obtain ⟨ts1, h1, rfl⟩ := h
        have hcode := itoMultiSwizzle_letters i letters hl (hhead rfl)
        simp [addIndicesCode, addIndexCode, hcode, ih cur _ ts1 hrest h1, concatTexts,
          String.append_assoc]

/-- For a path whose variable resolves, whose text the spec defines (struct-field
indices in range, letters defined) and that has no swizzle with the packed index 1,
`addVariableCode` appends exactly that text: the name, `_<uniqueId>` under the stated
condition only, then the piece of every index operation in order, struct-field
operations moving to the field. -/
theorem addVariableCode_specPathText (prog : String) (c : ShChangeable)
    (vl : ShVariableList) (var : ShVariable) (text : String)
    (hvar : findShVariableFromId vl c.id = some var)
    (hswz : ∀ idx ∈ c.indices, idx.type = .SH_CGB_SWIZZLE → idx.index ≠ 1)
    (htext : specPathText var c.indices = some text) :
    addVariableCode prog (some c) (some vl) = .ok (prog ++ text) := by
  unfold specPathText at htext
  cases hn : specNameText var with
  | none => simp [hn] at htext
  | some n =>
    cases hts : specIndexTexts var c.indices with
    | none => simp [hn, hts] at htext
    | some ts =>
      simp only [hn, hts, Option.some.injEq] at htext
      subst htext
      unfold specNameText at hn
      cases hname : var.name with
      | none => simp [hname] at hn
      | some nm =>
        simp only [hname] at hn
        simp only [addVariableCode, hvar, hname, cString]
        split at hn
        · rename_i hcond
          cases hn
          have hs : needsIdSuffix var = true := by
            simp [needsIdSuffix, hcond.1, hcond.2.1, hcond.2.2.1, hcond.2.2.2.1, hcond.2.2.2.2]
          simp [hs, addIndicesCode_texts c.indices var _ ts hswz hts, String.append_assoc]
        · rename_i hcond
          cases hn
          have hs : needsIdSuffix var = false := by
            simp only [needsIdSuffix]
            by_contra hne
            apply hcond
            simp at hne
            simpa using hne
          simp [hs, addIndicesCode_texts c.indices var _ ts hswz hts, String.append_assoc]

/-- The path `s.ms[1].x.xy` on the struct `s` with id 7: the text of the spec and
what `addVariableCode` appends. -/
theorem addVariableCode_struct_path :
    specPathText exampleStruct [structOp 2, indirectOp 1, directOp 0, swizzleOp 12]
      = some "s_7.ms[1].x.xy" ∧
    addVariableCode "r = vec4("
        (some { id := 7, indices := [structOp 2, indirectOp 1, directOp 0, swizzleOp 12] })
        (some [exampleVec4, exampleStruct])
      = .ok "r = vec4(s_7.ms[1].x.xy" := by
  decide

/-- C6 (the code differs): for `vec4 v` with id 4 and the path `v.x`, given as the
swizzle with the packed index 1, the text is `v_4.x`, the name, the id suffix, `.` and
the letter of the digit 1; `addVariableCode` appends `v_4.` without the letter, because
`itoMultiSwizzle` returns the empty string for the index 1.  For the packed index 12
it appends the text of the path, `v_4.xy`. -/
theorem addVariableCode_swizzle_one :
    findShVariableFromId [exampleVec4] 4 = some exampleVec4 ∧
    specPathText exampleVec4 [swizzleOp 1] = some "v_4.x" ∧
    addVariableCode "r = vec4(" (some { id := 4, indices := [swizzleOp 1] })
        (some [exampleVec4]) = .ok "r = vec4(v_4." ∧
    specPathText exampleVec4 [swizzleOp 12] = some "v_4.xy" ∧
    addVariableCode "r = vec4(" (some { id := 4, indices := [swizzleOp 12] })
        (some [exampleVec4]) = .ok "r = vec4(v_4.xy" :=
  ⟨rfl, by decide, by decide, by decide, by decide⟩

/-! ## Struct-field indices out of range -/

/-- A struct-field operation whose index is at or above the stored field count makes
both loops reach `exit(1)` at that operation. -/
theorem structOp_too_large_fatal (prog : String) (var : ShVariable) (st : SizeState) (i : Int)
    (hvar : var.structSize ≤ i) (hst : st.var.structSize ≤ i) :
    addIndexCode prog var (structOp i) = .error .fatal ∧
    sizeStep st (structOp i) = .error .fatal := by
  have h1 : ¬ i < var.structSize := by omega
  have h2 : ¬ i < st.var.structSize := by omega
  simp [addIndexCode, sizeStep, structOp, h1, h2]

/-- C7 (the code differs): on the struct `s` with 3 fields, the struct-field index 3
reaches `exit(1)` in `addVariableCode` and in `getShChangeableSize`, but the negative
index -1 passes the test `idx->index < var->structSize` in both and the field array is
read at position -1, outside of it. -/
theorem structOp_negative_not_fatal :
    (addVariableCode "" (some { id := 7, indices := [structOp 3] }) (some [exampleStruct])
        = .error .fatal ∧
      getShChangeableSize (some { id := 7, indices := [structOp 3] }) (some [exampleStruct])
        = .error .fatal) ∧
    (addVariableCode "" (some { id := 7, indices := [structOp (-1)] }) (some [exampleStruct])
        = .error .undefined ∧
      getShChangeableSize (some { id := 7, indices := [structOp (-1)] }) (some [exampleStruct])
        = .error .undefined) := by
  decide

/-! ## Struct-field operations and the subscript counter -/

/-- C8: after any operations that run through, a struct-field operation with a valid
index `i` sets the state of `getShChangeableSize` to the field `i`, the counter 0 and
the width of the field for 0 applied operations, which is then the width of the path;
an array-indirect operation right after it gives the width of the field for exactly 1
applied operation, whatever the counter was before the struct-field operation. -/
theorem getShChangeableSize_struct_resets (id : Int) (vl : ShVariableList) (var field : ShVariable)
    (pre : List ShChangeableIndex) (st : SizeState) (i j : Int)
    (hvar : findShVariableFromId vl id = some var)
    (hpre : sizeLoop pre { var := var, arraySub := 0, size := var.size } = .ok st)
    (hrange : i < st.var.structSize)
    (hfield : st.var.structField i = some field) :
    (∃ w, getVariableSizeByArrayIndices field 0 = .ok w ∧
      sizeLoop (pre ++ [structOp i]) { var := var, arraySub := 0, size := var.size }
        = .ok { var := field, arraySub := 0, size := w } ∧
      getShChangeableSize (some { id := id, indices := pre ++ [structOp i] }) (some vl) = .ok w) ∧
    getShChangeableSize (some { id := id, indices := pre ++ [structOp i, indirectOp j] })
        (some vl)
      = getVariableSizeByArrayIndices field 1 := by
  have hw : ∃ w, getVariableSizeByArrayIndices field 0 = .ok w := by
    unfold getVariableSizeByArrayIndices
    simp only [if_true]
    split_ifs <;> exact ⟨_, rfl⟩
  obtain ⟨w, hw⟩ := hw
  have hstep : sizeStep st (structOp i) = .ok { var := field, arraySub := 0, size := w } := by
    simp [sizeStep, structOp, hrange, hfield, hw]
  have hloop : sizeLoop (pre ++ [structOp i]) { var := var, arraySub := 0, size := var.size }
      = .ok { var := field, arraySub := 0, size := w } := by
    rw [sizeLoop_append pre _ _ st hpre]
    simp [sizeLoop, hstep]
  refine ⟨⟨w, hw, hloop, ?_⟩, ?_⟩
  · simp [getShChangeableSize, hvar, hloop]
  · have happ : pre ++ [structOp i, indirectOp j] = (pre ++ [structOp i]) ++ [indirectOp j] := by
      simp
    simp only [getShChangeableSize, hvar, happ]
    rw [sizeLoop_append _ _ _ _ hloop]
    simp only [sizeLoop, sizeStep, indirectOp, zero_add]
    cases hone : getVariableSizeByArrayIndices field 1 <;> rfl

/-- Witness of C8 on `sa[0].m[1]` for the struct array `sa`: the struct-field operation
comes after one array-indirect operation, and the subscript on the field `mat4 m`
counts as the first one (a column, of width 4). -/
theorem getShChangeableSize_struct_resets_witness :
    (∃ w, getVariableSizeByArrayIndices exampleMat4 0 = .ok w ∧
      sizeLoop ([indirectOp 0] ++ [structOp 1])
          { var := exampleStructArray, arraySub := 0, size := exampleStructArray.size }
        = .ok { var := exampleMat4, arraySub := 0, size := w } ∧
      getShChangeableSize (some { id := 8, indices := [indirectOp 0] ++ [structOp 1] })
          (some [exampleStructArray]) = .ok w) ∧
    getShChangeableSize
        (some { id := 8, indices := [indirectOp 0] ++ [structOp 1, indirectOp 1] })
        (some [exampleStructArray])
      = getVariableSizeByArrayIndices exampleMat4 1 :=
  getShChangeableSize_struct_resets 8 [exampleStructArray] exampleStructArray exampleMat4
    [indirectOp 0] { var := exampleStructArray, arraySub := 1, size := 3 } 1 1
    rfl rfl (by decide) rfl

/-! ## Text of a list of observation paths -/

/-- One iteration of the loop of `addVariableCode` appends the same text to a longer
buffer. -/
theorem addIndexCode_append (p q t : String) (var var1 : ShVariable) (idx : ShChangeableIndex)
    (h : addIndexCode q var idx = .ok (t, var1)) :
    ∃ u, t = q ++ u ∧ addIndexCode (p ++ q) var idx = .ok (p ++ q ++ u, var1) := by
  obtain ⟨ty, i⟩ := idx
  cases ty with
  | SH_CGB_ARRAY_INDIRECT =>
    simp only [addIndexCode, Except.ok.injEq, Prod.mk.injEq] at h ⊢
    obtain ⟨h1, h2⟩ := h
    exact ⟨"[" ++ toString i ++ "]", by rw [← h1]; simp [String.append_assoc],
      by simp [String.append_assoc], h2⟩
  | SH_CGB_ARRAY_DIRECT =>
    simp only [addIndexCode] at h ⊢
    cases hs : itoSwizzle i with
    | error e => simp [hs] at h
    | ok letter =>
      simp only [hs, Except.ok.injEq, Prod.mk.injEq] at h ⊢
      obtain ⟨h1, h2⟩ := h
      exact ⟨"." ++ letter, by rw [← h1]; simp [String.append_assoc],
        by simp [String.append_assoc], h2⟩
  | SH_CGB_STRUCT =>
    simp only [addIndexCode] at h ⊢
    split at h
    · cases hf : var.structField i with
      | none => simp [hf] at h
      | some field =>
        cases hn : cString field.name with
        | error e => simp [hf, hn] at h
        | ok fieldName =>
          rename_i hrange
          simp only [hf, hn, Except.ok.injEq, Prod.mk.injEq] at h
          obtain ⟨h1, h2⟩ := h
          subst h2
          refine ⟨"." ++ fieldName, by rw [← h1]; simp [String.append_assoc], ?_⟩
          simp [hrange, hn, String.append_assoc]
    · cases h
  | SH_CGB_SWIZZLE =>
    simp only [addIndexCode] at h ⊢
    cases hs : itoMultiSwizzle i with
    | error e => simp [hs] at h
    | ok letters =>
      simp only [hs, Except.ok.injEq, Prod.mk.injEq] at h ⊢
      obtain ⟨h1, h2⟩ := h
      exact ⟨"." ++ letters, by rw [← h1]; simp [String.append_assoc],
        by simp [String.append_assoc], h2⟩

/-- The loop of `addVariableCode` appends the same text to a longer buffer. -/
theorem addIndicesCode_append (indices : List ShChangeableIndex) :
    ∀ (p q t : String) (var : ShVariable), addIndicesCode indices q var = .ok t →
      ∃ u, t = q ++ u ∧ addIndicesCode indices (p ++ q) var = .ok (p ++ q ++ u) := by
  induction indices with
  | nil =>
    intro p q t var h
    simp only [addIndicesCode, Except.ok.injEq] at h ⊢
    exact ⟨"", by simp [h], by simp⟩
  | cons idx rest ih =>
    intro p q t var h
    simp only [addIndicesCode] at h ⊢
    cases hstep : addIndexCode q var idx with
    | error e => simp [hstep] at h
    | ok r =>
      obtain ⟨q1, var1⟩ := r
      simp only [hstep] at h
      obtain ⟨u, hu, hstep2⟩ := addIndexCode_append p q q1 var var1 idx hstep
      obtain ⟨u2, hu2, hrest⟩ := ih p q1 t var1 h
      subst hu
      refine ⟨u ++ u2, by rw [hu2, String.append_assoc], ?_⟩
      simp only [hstep2]
      simp only [String.append_assoc] at hrest ⊢
      exact hrest

/-- The text that `addVariableCode` appends does not depend on the buffer. -/
theorem addVariableCode_append (prog text : String) (c : Option ShChangeable)
    (vl : Option ShVariableList) (h : addVariableCode "" c vl = .ok text) :
    addVariableCode prog c vl = .ok (prog ++ text) := by
  unfold addVariableCode at h ⊢
  split at h
  · rename_i c1 l1
    cases hvar : findShVariableFromId l1 c1.id with
    | none => simp [hvar] at h
    | some var =>
      cases hn : cString var.name with
      | error e => simp [hvar, hn] at h
      | ok n =>
        simp only [hvar, hn, String.empty_append] at h ⊢
        cases hs : needsIdSuffix var
        · simp only [hs, Bool.false_eq_true, if_false] at h ⊢
          obtain ⟨u, hu, hrest⟩ := addIndicesCode_append c1.indices prog _ text var h
          rw [hrest, hu]
          simp [String.append_assoc]
        · simp only [hs, if_true] at h ⊢
          obtain ⟨u, hu, hrest⟩ := addIndicesCode_append c1.indices prog _ text var h
          simp only [String.append_assoc] at hrest ⊢
          rw [hrest, hu]
          simp [String.append_assoc]
  · cases h

/-- The padding loop appends as many copies of `, 0.0` as it has iterations. -/
theorem addPadding_text (count : Nat) : ∀ prog : String,
    addPadding count prog = prog ++ specPadding count := by
  induction count with
  | zero => intro prog; simp [addPadding, specPadding, concatTexts]
  | succ n ih =>
    intro prog
    simp only [addPadding, ih, specPadding, List.replicate_succ, concatTexts]
    simp [String.append_assoc]

/-- The first loop of `addVariableCodeFromList` appends the texts of the paths,
separated by `, `, and adds up the widths that `getShChangeableSize` returns. -/
theorem addChangeablesCode_text (l : List (Option ShChangeable)) (vl : Option ShVariableList) :
    ∀ (texts : List String) (widths : List Int) (prog : String) (size : Int),
      List.Forall₂ (fun c t => addVariableCode "" c vl = .ok t) l texts →
      List.Forall₂ (fun c w => getShChangeableSize c vl = .ok w) l widths →
      addChangeablesCode l vl prog size
        = .ok (prog ++ specJoin texts, addWidths size widths) := by
  induction l with
  | nil =>
    intro texts widths prog size ht hw
    cases ht
    cases hw
    simp [addChangeablesCode, specJoin, addWidths]
  | cons c rest ih =>
    intro texts widths prog size ht hw
    cases ht with
    | cons ht1 htrest =>
      cases hw with
      | cons hw1 hwrest =>
        rename_i t ts w ws
        simp only [addChangeablesCode, addVariableCode_append prog t c vl ht1, hw1]
        cases rest with
        | nil =>
          cases htrest
          cases hwrest
          simp [addChangeablesCode, specJoin, addWidths]
        | cons c2 rest2 =>
          rw [ih ts ws _ _ htrest hwrest]
          cases htrest with
          | cons ht2 htrest2 =>
            rename_i t2 ts2
            simp [specJoin, String.append_assoc, addWidths]

/-- Widths that add up without leaving the range of a 32-bit `int` add up to their
sum. -/
theorem addWidths_sum (widths : List Int) :
    ∀ size : Int, (∀ k ≤ widths.length, -2147483648 ≤ size + (widths.take k).sum ∧
        size + (widths.take k).sum < 2147483648) →
      addWidths size widths = size + widths.sum := by
  induction widths with
  | nil => intro size _; simp [addWidths]
  | cons w ws ih =>
    intro size h
    have h1 := h 1 (by simp)
    simp only [List.take_succ_cons, List.take_zero, List.sum_cons, List.sum_nil, add_zero] at h1
    rw [addWidths, wrapInt32_of_range _ h1.1 h1.2, ih (size + w), List.sum_cons, add_assoc]
    intro k hk
    have h2 := h (k + 1) (by simpa using hk)
    simpa [List.take_succ_cons, List.sum_cons, add_assoc] using h2

/-- For a list of paths that all have a text and a width, `addVariableCodeFromList`
appends the texts in order, separated by `, ` with none after the last, and then as
many copies of `, 0.0` as the target width `T` exceeds the widths that
`getShChangeableSize` returns for the paths, added up. -/
theorem addVariableCodeFromList_widths (prog : String) (l : ShChangeableList)
    (vl : Option ShVariableList) (texts : List String) (widths : List Int)
    (htexts : List.Forall₂ (fun c t => addVariableCode "" c vl = .ok t) l texts)
    (hwidths : List.Forall₂ (fun c w => getShChangeableSize c vl = .ok w) l widths)
    (T : Int) :
    addVariableCodeFromList prog (some l) vl T
      = .ok (prog ++ specJoin texts ++ specPadding (max 0 (T - addWidths 0 widths)).toNat) := by
  have hmax : (max 0 (T - addWidths 0 widths)).toNat = (T - addWidths 0 widths).toNat := by
    rcases le_total 0 (T - addWidths 0 widths) with h | h
    · rw [max_eq_right h]
    · rw [max_eq_left h]
      simp [Int.toNat_of_nonpos h]
  simp only [addVariableCodeFromList, addChangeablesCode_text l vl texts widths prog 0 htexts
    hwidths, addPadding_text, hmax]

/-- The path `v.xy` of width 2 with the target width 4 is followed by two paddings,
and the paths `v` and `f` of widths 4 and 1 are both emitted, without padding. -/
theorem addVariableCodeFromList_padding :
    addVariableCodeFromList "r = vec4(" (some [some { id := 4, indices := [swizzleOp 12] }])
        (some [exampleFloat, exampleVec4]) 4
      = .ok "r = vec4(v_4.xy, 0.0, 0.0" ∧
    addVariableCodeFromList "r = vec4("
        (some [some { id := 4, indices := [] }, some { id := 3, indices := [] }])
        (some [exampleFloat, exampleVec4]) 4
      = .ok "r = vec4(v_4, f_3" := by
  decide

/-- C9 (the code differs): for the list of the one path `m` on `mat4 m` with id 5 and
the target width 16, the width of the path is 16 by the table (a matrix, no operation
applied), so that `max(0, T - W)` is 0 and nothing follows the text `m_5`;
`addVariableCodeFromList` appends `m_5` and 12 paddings, because it counts 4 for the
path.  For the path `ms` on `mat3 ms[2]` with id 6, of width 6, and the target width 6
it appends 3 paddings. -/
theorem addVariableCodeFromList_matrix_padding :
    specTableWidth 0 exampleMat4.isArray exampleMat4.isMatrix exampleMat4.size
      exampleMat4.arraySize0 = some 16 ∧
    "r = mat4(" ++ specJoin ["m_5"] ++ specPadding (max 0 (16 - 16 : Int)).toNat
      = "r = mat4(m_5" ∧
    addVariableCode "" (some { id := 5, indices := [] }) (some [exampleMat4, exampleMat3Array])
      = .ok "m_5" ∧
    addVariableCodeFromList "r = mat4(" (some [some { id := 5, indices := [] }])
        (some [exampleMat4, exampleMat3Array]) 16
      = .ok ("r = mat4(m_5" ++ specPadding 12) ∧
    specTableWidth 0 exampleMat3Array.isArray exampleMat3Array.isMatrix exampleMat3Array.size
      exampleMat3Array.arraySize0 = some 6 ∧
    addVariableCodeFromList "" (some [some { id := 6, indices := [] }])
        (some [exampleMat4, exampleMat3Array]) 6
      = .ok "ms_6, 0.0, 0.0, 0.0" := by
  decide

/-! ## Loop path guard -/

/-- The function `hasLoop` holds exactly when the stack has a gating frame. -/
theorem hasLoop_eq_true_iff (stack : IRGenStack) :
    hasLoop stack = true ↔ gatingLoops stack ≠ [] := by
  induction stack with
  | nil => simp [hasLoop, gatingLoops]
  | cons node rest ih =>
    obtain ⟨l⟩ := node
    cases l with
    | none => simp [hasLoop, gatingLoops, needDbgLoopIter, ih]
    | some l =>
      by_cases hneed : needDbgLoopIter (some l) = true
      · simp [hasLoop, gatingLoops, hneed]
      · simp [hasLoop, gatingLoops, hneed, ih]

/-- The gating frames are the loops of the stack for which `needDbgLoopIter` holds. -/
theorem mem_gatingLoops_iff (stack : IRGenStack) (l : ir_loop) :
    l ∈ gatingLoops stack ↔
      ({ as_loop := some l } : ir_instruction) ∈ stack ∧ needDbgLoopIter (some l) = true := by
  induction stack with
  | nil => simp [gatingLoops]
  | cons node rest ih =>
    obtain ⟨l1⟩ := node
    cases l1 with
    | none => simp [gatingLoops, ih]
    | some l1 =>
      cases hneed : needDbgLoopIter (some l1) with
      | true =>
        simp only [gatingLoops, hneed, if_true, List.mem_cons, ih, ir_instruction.mk.injEq,
          Option.some.injEq]
        constructor
        · rintro (h | h)
          · subst h
            exact ⟨Or.inl rfl, hneed⟩
          · exact ⟨Or.inr h.1, h.2⟩
        · rintro ⟨h | h, h2⟩
          · exact Or.inl h
          · exact Or.inr ⟨h, h2⟩
      | false =>
        simp only [gatingLoops, hneed, Bool.false_eq_true, if_false, List.mem_cons, ih,
          ir_instruction.mk.injEq, Option.some.injEq]
        constructor
        · rintro ⟨h1, h2⟩
          exact ⟨Or.inr h1, h2⟩
        · rintro ⟨h | h, h2⟩
          · subst h
            rw [hneed] at h2
            cases h2
          · exact ⟨h, h2⟩

/-- The loop of `addLoopHeader` appends the conditions of the gating frames, in stack
order. -/
theorem addLoopConditions_text (stack : IRGenStack) :
    ∀ (conds : List String) (prog : String),
      List.Forall₂ (fun l t => specCondition l = some t) (gatingLoops stack) conds →
      addLoopConditions stack prog = .ok (prog ++ concatTexts conds) := by
  induction stack with
  | nil =>
    intro conds prog h
    simp only [gatingLoops] at h
    cases h
    simp [addLoopConditions, concatTexts]
  | cons node rest ih =>
    intro conds prog h
    obtain ⟨l⟩ := node
    cases l with
    | none =>
      simp only [gatingLoops] at h
      simp [addLoopConditions, needDbgLoopIter, ih conds prog h]
    | some l =>
      by_cases hneed : needDbgLoopIter (some l) = true
      · simp only [gatingLoops, hneed, if_true] at h
        cases h with
        | cons h1 hrest =>
          rename_i t ts
          unfold specCondition at h1
          cases hname : l.iter_name with
          | none => simp [hname] at h1
          | some iterName =>
            simp only [hname, Option.some.injEq] at h1
            subst h1
            simp [addLoopConditions, hneed, hname, cString, ih ts _ hrest, concatTexts,
              String.append_assoc]
      · simp only [gatingLoops, hneed, if_false] at h
        simp [addLoopConditions, hneed, ih conds prog h]

/-- C10: when no frame of the stack needs iteration gating, `addLoopHeader` and
`addLoopFooter` append nothing; otherwise the header appends `(`, then the condition
`<iterName> == <targetIteration> &&` of every gating frame in stack order, then `)`,
and the footer appends `, true))`.  For a stack whose only gating frame is
`dbgIter0` with target 2 the header is `(dbgIter0 == 2 &&)`. -/
theorem addLoopHeader_addLoopFooter_text (prog : String) (stack : IRGenStack)
    (conds : List String)
    (hconds : List.Forall₂ (fun l t => specCondition l = some t) (gatingLoops stack) conds) :
    ((∀ node ∈ stack, needDbgLoopIter node.as_loop = false) →
      addLoopHeader prog stack = .ok prog ∧ addLoopFooter prog stack = prog) ∧
    ((∃ node ∈ stack, needDbgLoopIter node.as_loop = true) →
      addLoopHeader prog stack = .ok (prog ++ "(" ++ concatTexts conds ++ ")") ∧
      addLoopFooter prog stack = prog ++ ", true))") ∧
    (∀ l : ir_loop, gatingLoops stack = [l] → l.iter_name = some "dbgIter0" → l.debug_iter = 2 →
      addLoopHeader prog stack = .ok (prog ++ "(dbgIter0 == 2 &&)")) := by
  have hsome : gatingLoops stack ≠ [] →
      addLoopHeader prog stack = .ok (prog ++ "(" ++ concatTexts conds ++ ")") ∧
      addLoopFooter prog stack = prog ++ ", true))" := by
    intro hne
    have hl := (hasLoop_eq_true_iff stack).2 hne
    simp [addLoopHeader, addLoopFooter, hl, addLoopConditions_text stack conds _ hconds]
  refine ⟨?_, ?_, ?_⟩
  · intro hnone
    have hl : hasLoop stack = false := by
      cases hb : hasLoop stack with
      | false => rfl
      | true =>
        have hne := (hasLoop_eq_true_iff stack).1 hb
        obtain ⟨l, hmem⟩ := List.exists_mem_of_ne_nil _ hne
        have h2 := (mem_gatingLoops_iff stack l).1 hmem
        have h3 := hnone _ h2.1
        simp [h2.2] at h3
    simp [addLoopHeader, addLoopFooter, hl]
  · rintro ⟨node, hmem, hneed⟩
    apply hsome
    obtain ⟨l⟩ := node
    cases l with
    | none => simp [needDbgLoopIter] at hneed
    | some l =>
      have := (mem_gatingLoops_iff stack l).2 ⟨hmem, hneed⟩
      exact List.ne_nil_of_mem this
  · intro l hl hname hiter
    rw [hl] at hconds
    cases hconds with
    | cons h1 hrest =>
      cases hrest
      have hne : gatingLoops stack ≠ [] := by simp [hl]
      rw [(hsome hne).1]
      simp only [specCondition, hname, hiter, Option.some.injEq] at h1
      subst h1
      simp only [concatTexts, String.append_assoc, String.append_empty]
      rfl

/-- Witness of C10 on the example stack, whose only gating frame is `dbgIter0` with
target 2. -/
theorem addLoopHeader_addLoopFooter_text_witness :
    (addLoopHeader "" exampleStack = .ok ("" ++ "(" ++ concatTexts ["dbgIter0 == 2 &&"] ++ ")") ∧
      addLoopFooter "" exampleStack = "" ++ ", true))") ∧
    addLoopHeader "" exampleStack = .ok ("" ++ "(dbgIter0 == 2 &&)") :=
  ⟨(addLoopHeader_addLoopFooter_text "" exampleStack ["dbgIter0 == 2 &&"]
      (List.Forall₂.cons (by decide) List.Forall₂.nil)).2.1
      ⟨{ as_loop := some { debug_state_internal := .other 0, debug_iter := 2,
                           iter_name := some "dbgIter0" } }, by decide, by decide⟩,
   (addLoopHeader_addLoopFooter_text "" exampleStack ["dbgIter0 == 2 &&"]
      (List.Forall₂.cons (by decide) List.Forall₂.nil)).2.2
      { debug_state_internal := .other 0, debug_iter := 2, iter_name := some "dbgIter0" }
      (by decide) rfl rfl⟩

/-! ## Type and qualifier keywords -/

/-- C15: `getTypeCode` returns the scalar keyword of the base type when the size is 1
or the scalar form is forced, the empty text there for any other base type, and
otherwise the vector keyword of the base type followed by the decimal size. -/
theorem getTypeCode_typeName (v : ShVariable) (forceScalar : Bool) (text : String)
    (htext : specTypeName v.type v.size forceScalar = some text) :
    getTypeCode v forceScalar = text := by
  unfold specTypeName at htext
  unfold getTypeCode
  by_cases hs : v.size = 1 ∨ forceScalar = true
  · have hb : (decide (v.size = 1) || forceScalar) = true := by
      rcases hs with h | h <;> simp [h]
    rw [if_pos hs] at htext
    rw [if_pos hb]
    cases ht : v.type <;> simp_all
  · have hb : ¬ ((decide (v.size = 1) || forceScalar) = true) := by
      intro h
      apply hs
      simpa using h
    rw [if_neg hs] at htext
    rw [if_neg hb]
    cases ht : v.type <;> simp_all

/-- Witness of C15 on `vec4 v`: `vec4`, and `float` when the scalar form is forced. -/
theorem getTypeCode_typeName_witness :
    getTypeCode exampleVec4 false = "vec4" ∧ getTypeCode exampleVec4 true = "float" :=
  ⟨getTypeCode_typeName exampleVec4 false "vec4" (by decide),
   getTypeCode_typeName exampleVec4 true "float" (by decide)⟩

/-- C16: `getQualifierCode` returns `varying out ` for a varying-out variable in the
geometry stage and `varying ` for one in any other stage, `uniform ` for a uniform
variable in every stage, and the empty text for every other qualifier in every stage.
-/
theorem getQualifierCode_keyword (v : ShVariable) (l : EShLanguage) :
    (v.qualifier = .SH_VARYING_OUT → l = .EShLangGeometry →
      getQualifierCode v l = "varying out ") ∧
    (v.qualifier = .SH_VARYING_OUT → l ≠ .EShLangGeometry →
      getQualifierCode v l = "varying ") ∧
    (v.qualifier = .SH_UNIFORM → getQualifierCode v l = "uniform ") ∧
    (v.qualifier ≠ .SH_VARYING_OUT → v.qualifier ≠ .SH_UNIFORM → getQualifierCode v l = "") := by
  unfold getQualifierCode
  refine ⟨?_, ?_, ?_, ?_⟩
  · intro hq hl
    simp [hq, hl]
  · intro hq hl
    simp [hq, hl]
  · intro hq
    simp [hq]
  · intro h1 h2
    cases hq : v.qualifier <;> simp_all

/-- Witness of C16 on a varying-out variable in the geometry and the vertex stage, a
uniform and a temporary. -/
theorem getQualifierCode_keyword_witness :
    getQualifierCode (defaultVariable .SH_FLOAT .SH_VARYING_OUT) .EShLangGeometry
      = "varying out " ∧
    getQualifierCode (defaultVariable .SH_FLOAT .SH_VARYING_OUT) .EShLangVertex = "varying " ∧
    getQualifierCode (namedVariable 1 "u") .EShLangFragment = "uniform " ∧
    getQualifierCode exampleVec4 .EShLangFragment = "" :=
  ⟨(getQualifierCode_keyword (defaultVariable .SH_FLOAT .SH_VARYING_OUT) .EShLangGeometry).1
      rfl rfl,
   (getQualifierCode_keyword (defaultVariable .SH_FLOAT .SH_VARYING_OUT) .EShLangVertex).2.1
      rfl (by decide),
   (getQualifierCode_keyword (namedVariable 1 "u") .EShLangFragment).2.2.1 rfl,
   (getQualifierCode_keyword exampleVec4 .EShLangFragment).2.2.2 (by decide) (by decide)⟩

/-! ## Unused names -/

/-- The lookup by name finds a variable exactly when the name is in the registry. -/
theorem findFirstShVariableFromName_isSome (vl : ShVariableList) (name : String) :
    (findFirstShVariableFromName vl name).isSome = true ↔ nameInRegistry vl name := by
  unfold findFirstShVariableFromName nameInRegistry
  rw [List.find?_isSome]
  constructor
  · rintro ⟨v, hv, hname⟩
    exact ⟨v, hv, by simpa using hname⟩
  · rintro ⟨v, hv, hname⟩
    exact ⟨v, hv, by simp [hname]⟩

/-- One round of the retry loop appends exactly three characters. -/
theorem randomLetters_length (rnd : RandomSource) (pos : Nat) :
    (randomLetters rnd pos).length = 3 := by
  rfl

/-- A name that the retry loop returns is not in the registry; it is the name the loop
was entered with, or the prefix followed by the three letters of the last round. -/
theorem getUnusedNameLoop_some (vl : ShVariableList) (pfx : String) (rnd : RandomSource)
    (tests : Nat) :
    ∀ (name : String) (pos : Nat) (n : String) (pos1 : Nat),
      getUnusedNameLoop vl pfx rnd tests name pos = some (n, pos1) →
      ¬ nameInRegistry vl n ∧
        ((n = name ∧ pos1 = pos) ∨
          ∃ k, n = pfx ++ randomLetters rnd (pos + 3 * k) ∧ pos1 = pos + 3 * (k + 1)) := by
  induction tests with
  | zero =>
    intro name pos n pos1 h
    simp [getUnusedNameLoop] at h
  | succ t ih =>
    intro name pos n pos1 h
    simp only [getUnusedNameLoop] at h
    by_cases hin : (findFirstShVariableFromName vl name).isSome = true
    · rw [if_pos hin] at h
      obtain ⟨hfree, hform⟩ := ih _ _ n pos1 h
      refine ⟨hfree, Or.inr ?_⟩
      rcases hform with ⟨hn, hp⟩ | ⟨k, hn, hp⟩
      · exact ⟨0, by simpa using hn, by omega⟩
      · refine ⟨k + 1, ?_, by omega⟩
        rw [hn]
        congr 2
        omega
    · rw [if_neg hin] at h
      simp only [Option.some.injEq, Prod.mk.injEq] at h
      obtain ⟨hn, hp⟩ := h
      subst hn
      refine ⟨?_, Or.inl ⟨rfl, hp.symm⟩⟩
      intro hreg
      exact hin ((findFirstShVariableFromName_isSome vl name).2 hreg)

/-- The retry loop ends as soon as a round draws letters that give an unused name, if
it is allowed that many tests. -/
theorem getUnusedNameLoop_ends (vl : ShVariableList) (pfx : String) (rnd : RandomSource)
    (k : Nat) :
    ∀ (tests : Nat) (name : String) (pos : Nat),
      ¬ nameInRegistry vl (pfx ++ randomLetters rnd (pos + 3 * k)) → k + 2 ≤ tests →
      ∃ r, getUnusedNameLoop vl pfx rnd tests name pos = some r := by
  induction k with
  | zero =>
    intro tests name pos hfree htests
    obtain ⟨t, rfl⟩ : ∃ t, tests = t + 2 := ⟨tests - 2, by omega⟩
    simp only [getUnusedNameLoop]
    have hout : ¬ (findFirstShVariableFromName vl (pfx ++ randomLetters rnd pos)).isSome = true :=
      fun h => hfree (by simpa using (findFirstShVariableFromName_isSome vl _).1 h)
    by_cases hin : (findFirstShVariableFromName vl name).isSome = true
    · rw [if_pos hin, if_neg hout]
      exact ⟨_, rfl⟩
    · rw [if_neg hin]
      exact ⟨_, rfl⟩
  | succ k ih =>
    intro tests name pos hfree htests
    obtain ⟨t, rfl⟩ : ∃ t, tests = t + 1 := ⟨tests - 1, by omega⟩
    simp only [getUnusedNameLoop]
    by_cases hin : (findFirstShVariableFromName vl name).isSome = true
    · rw [if_pos hin]
      apply ih t _ (pos + 3) _ (by omega)
      have hpos : pos + 3 + 3 * k = pos + 3 * (k + 1) := by omega
      rw [hpos]
      exact hfree
    · rw [if_neg hin]
      exact ⟨_, rfl⟩

/-- C19: when the prefix is not in the registry, `getUnusedNameByPrefix` returns it
unchanged and draws nothing; when it is, every name the function returns is not in the
registry and is the prefix followed by exactly 3 characters, and the function does
return as soon as one round of letters gives an unused name (within the number of
loop tests allowed).  `cgGetNewName` is the same function. -/
theorem getUnusedNameByPrefix_unused (vl : ShVariableList) (pfx : String) (rnd : RandomSource)
    (pos tests : Nat) :
    (¬ nameInRegistry vl pfx → getUnusedNameByPrefix vl pfx rnd pos tests = some (pfx, pos)) ∧
    (nameInRegistry vl pfx → ∀ (name : String) (pos1 : Nat),
      getUnusedNameByPrefix vl pfx rnd pos tests = some (name, pos1) →
      ¬ nameInRegistry vl name ∧
        ∃ letters : String, letters.length = 3 ∧ name = pfx ++ letters) ∧
    (nameInRegistry vl pfx → ∀ k : Nat,
      ¬ nameInRegistry vl (pfx ++ randomLetters rnd (pos + 3 * k)) → k + 2 ≤ tests →
      ∃ r, getUnusedNameByPrefix vl pfx rnd pos tests = some r) ∧
    cgGetNewName vl pfx rnd pos tests = getUnusedNameByPrefix vl pfx rnd pos tests := by
  refine ⟨?_, ?_, ?_, rfl⟩
  · intro hfree
    have hout : ¬ (findFirstShVariableFromName vl pfx).isSome = true :=
      fun h => hfree ((findFirstShVariableFromName_isSome vl pfx).1 h)
    simp [getUnusedNameByPrefix, hout]
  · intro hin name pos1 h
    have hfound := (findFirstShVariableFromName_isSome vl pfx).2 hin
    simp only [getUnusedNameByPrefix, hfound, if_true] at h
    obtain ⟨hfree, hform⟩ := getUnusedNameLoop_some vl pfx rnd tests pfx pos name pos1 h
    refine ⟨hfree, ?_⟩
    rcases hform with ⟨hn, _⟩ | ⟨k, hn, _⟩
    · exact absurd (hn ▸ hin) hfree
    · exact ⟨randomLetters rnd (pos + 3 * k), randomLetters_length rnd _, hn⟩
  · intro hin k hfree htests
    have hfound := (findFirstShVariableFromName_isSome vl pfx).2 hin
    simp only [getUnusedNameByPrefix, hfound, if_true]
    exact getUnusedNameLoop_ends vl pfx rnd k tests pfx pos hfree htests

/-- Witness of C19 on a registry that holds `dbgResult` and `dbgResultABC`: the first
round draws ABC, which is taken, the second draws DEF. -/
theorem getUnusedNameByPrefix_unused_witness :
    getUnusedNameByPrefix [namedVariable 1 "dbgResult", namedVariable 2 "dbgResultABC"]
        "dbgResult" exampleRandom 0 5 = some ("dbgResultDEF", 6) ∧
    ¬ nameInRegistry [namedVariable 1 "dbgResult", namedVariable 2 "dbgResultABC"]
        "dbgResultDEF" ∧
    ∃ letters : String, letters.length = 3 ∧ "dbgResultDEF" = "dbgResult" ++ letters :=
  ⟨by decide,
   (getUnusedNameByPrefix_unused [namedVariable 1 "dbgResult", namedVariable 2 "dbgResultABC"]
      "dbgResult" exampleRandom 0 5).2.1 ⟨namedVariable 1 "dbgResult", by simp, rfl⟩
      "dbgResultDEF" 6 (by decide)⟩

/-! ## Loop iterator names -/

/-- A name that `getUnusedNameByPrefix` returns starts with the prefix. -/
theorem getUnusedNameByPrefix_starts (vl : ShVariableList) (pfx : String) (rnd : RandomSource)
    (pos tests : Nat) (name : String) (pos1 : Nat)
    (h : getUnusedNameByPrefix vl pfx rnd pos tests = some (name, pos1)) :
    ∃ rest : String, name = pfx ++ rest := by
  unfold getUnusedNameByPrefix at h
  split at h
  · obtain ⟨_, hform⟩ := getUnusedNameLoop_some vl pfx rnd tests pfx pos name pos1 h
    rcases hform with ⟨hn, _⟩ | ⟨k, hn, _⟩
    · exact ⟨"", by simp [hn]⟩
    · exact ⟨_, hn⟩
  · simp only [Option.some.injEq, Prod.mk.injEq] at h
    exact ⟨"", by simp [h.1]⟩

/-- Successive calls of `cgSetLoopIterName` advance the counter by the number of calls
and append the returned names to the list, in order; the name of the call number `i`
was allocated with the prefix made of `dbgIter` and the counter at that call. -/
theorem cgSetLoopIterNames_some (rnd : RandomSource) (tests : Nat) (vls : List ShVariableList) :
    ∀ (g : CgState) (pos : Nat) (names : List String) (g1 : CgState) (pos1 : Nat),
      cgSetLoopIterNames rnd tests vls g pos = some (names, g1, pos1) →
      g1.numLoopIters = g.numLoopIters + vls.length ∧
      g1.loopIters = g.loopIters ++ names ∧
      names.length = vls.length ∧
      ∀ (i : Nat) (name : String), names[i]? = some name →
        ∃ (vl : ShVariableList) (p p1 : Nat), vls[i]? = some vl ∧
          getUnusedNameByPrefix vl (CG_LOOP_ITER_PREFIX ++ toString (g.numLoopIters + i))
            rnd p tests = some (name, p1) := by
  induction vls with
  | nil =>
    intro g pos names g1 pos1 h
    simp only [cgSetLoopIterNames, Option.some.injEq, Prod.mk.injEq] at h
    obtain ⟨hn, hg, _⟩ := h
    subst hn
    subst hg
    simp
  | cons vl rest ih =>
    intro g pos names g1 pos1 h
    simp only [cgSetLoopIterNames, cgSetLoopIterName] at h
    cases hfirst : getUnusedNameByPrefix vl (CG_LOOP_ITER_PREFIX ++ toString g.numLoopIters)
        rnd pos tests with
    | none => simp [hfirst] at h
    | some r =>
      obtain ⟨name, p1⟩ := r
      simp only [hfirst] at h
      cases hrest : cgSetLoopIterNames rnd tests rest
          { g with loopIters := g.loopIters ++ [name], numLoopIters := g.numLoopIters + 1 } p1
        with
      | none => simp [hrest] at h
      | some r2 =>
        obtain ⟨names2, g2, p2⟩ := r2
        simp only [hrest, Option.some.injEq, Prod.mk.injEq] at h
        obtain ⟨hn, hg, _⟩ := h
        subst hn
        subst hg
        obtain ⟨hcount, hlist, hlen, hnames⟩ := ih _ _ _ _ _ hrest
        refine ⟨?_, ?_, ?_, ?_⟩
        · rw [hcount]
          simp only [List.length_cons]
          push_cast
          ring
        · rw [hlist]
          simp
        · simp [hlen]
        · intro i n hi
          cases i with
          | zero =>
            simp only [List.getElem?_cons_zero, Option.some.injEq] at hi
            subst hi
            exact ⟨vl, pos, p1, by simp, by simpa using hfirst⟩
          | succ j =>
            simp only [List.getElem?_cons_succ] at hi
            obtain ⟨vl2, p, q, hvl, halloc⟩ := hnames j n hi
            refine ⟨vl2, p, q, by simpa using hvl, ?_⟩
            have hidx : g.numLoopIters + 1 + (j : Int) = g.numLoopIters + ((j + 1 : Nat) : Int) := by
              push_cast
              ring
            rw [← hidx]
            exact halloc

/-- Successive calls of `cgSetLoopIterName` all return when no registry holds a name
made of `dbgIter` and a number. -/
theorem cgSetLoopIterNames_returns (rnd : RandomSource) (tests : Nat)
    (vls : List ShVariableList)
    (hfree : ∀ vl ∈ vls, ∀ c : Int, ¬ nameInRegistry vl (CG_LOOP_ITER_PREFIX ++ toString c)) :
    ∀ (g : CgState) (pos : Nat), ∃ r, cgSetLoopIterNames rnd tests vls g pos = some r := by
  induction vls with
  | nil =>
    intro g pos
    exact ⟨_, rfl⟩
  | cons vl rest ih =>
    intro g pos
    have hvl := hfree vl (by simp) g.numLoopIters
    have hrest := ih (fun v hv c => hfree v (List.mem_cons_of_mem _ hv) c)
    have hfirst := (getUnusedNameByPrefix_unused vl
      (CG_LOOP_ITER_PREFIX ++ toString g.numLoopIters) rnd pos tests).1 hvl
    simp only [cgSetLoopIterNames, cgSetLoopIterName, hfirst]
    obtain ⟨r, hr⟩ := hrest
      { g with loopIters := g.loopIters ++ [CG_LOOP_ITER_PREFIX ++ toString g.numLoopIters],
               numLoopIters := g.numLoopIters + 1 } pos
    rw [hr]
    exact ⟨_, rfl⟩

/-- C20: starting from `cgInitLoopIter` or `cgResetLoopIterNames`, after `k` successive
calls of `cgSetLoopIterName` that have returned, the counter is `k`, the list holds
exactly the `k` returned names in the order of the calls, the name of the call number
`i` (from 0) was allocated by `getUnusedNameByPrefix` with the prefix `dbgIter<i>` and
starts with it, and the counter equals the length of the list.  The calls all return
when no registry holds a name made of `dbgIter` and a number. -/
theorem cgSetLoopIterName_counter (g g0 : CgState)
    (hstart : g0 = cgInitLoopIter g ∨ g0 = cgResetLoopIterNames g)
    (rnd : RandomSource) (tests : Nat) (vls : List ShVariableList) (pos : Nat) :
    (∀ (names : List String) (g1 : CgState) (pos1 : Nat),
      cgSetLoopIterNames rnd tests vls g0 pos = some (names, g1, pos1) →
      g1.numLoopIters = vls.length ∧
      g1.loopIters = names ∧
      names.length = vls.length ∧
      (∀ (i : Nat) (name : String), names[i]? = some name →
        (∃ (vl : ShVariableList) (p p1 : Nat), vls[i]? = some vl ∧
          getUnusedNameByPrefix vl ("dbgIter" ++ toString (i : Int)) rnd p tests
            = some (name, p1)) ∧
        ∃ rest : String, name = "dbgIter" ++ toString (i : Int) ++ rest) ∧
      g1.numLoopIters = g1.loopIters.length) ∧
    ((∀ vl ∈ vls, ∀ c : Int, ¬ nameInRegistry vl ("dbgIter" ++ toString c)) →
      ∃ r, cgSetLoopIterNames rnd tests vls g0 pos = some r) := by
  have hzero : g0.numLoopIters = 0 ∧ g0.loopIters = [] := by
    rcases hstart with h | h <;> subst h <;> exact ⟨rfl, rfl⟩
  refine ⟨?_, fun hfree => cgSetLoopIterNames_returns rnd tests vls hfree g0 pos⟩
  intro names g1 pos1 hrun
  obtain ⟨hcount, hlist, hlen, hnames⟩ := cgSetLoopIterNames_some rnd tests vls g0 pos names g1
    pos1 hrun
  rw [hzero.1, zero_add] at hcount
  rw [hzero.2, List.nil_append] at hlist
  refine ⟨hcount, hlist, hlen, ?_, ?_⟩
  · intro i name hi
    obtain ⟨vl, p, p1, hvl, halloc⟩ := hnames i name hi
    rw [hzero.1, zero_add] at halloc
    exact ⟨⟨vl, p, p1, hvl, halloc⟩,
      getUnusedNameByPrefix_starts vl _ rnd p tests name p1 halloc⟩
  · rw [hcount, hlist, hlen]

/-- Witness of C20: two calls after `cgInitLoopIter`, the first against a registry that
holds `dbgIter0`, the second against an empty one. -/
theorem cgSetLoopIterName_counter_witness :
    cgSetLoopIterNames exampleRandom 5 [[namedVariable 1 "dbgIter0"], []]
        (cgInitLoopIter emptyState) 0
      = some (["dbgIter0ABC", "dbgIter1"],
          { emptyState with loopIters := ["dbgIter0ABC", "dbgIter1"], numLoopIters := 2 }, 3) ∧
    (2 : Int) = ([[namedVariable 1 "dbgIter0"], []] : List ShVariableList).length ∧
    ["dbgIter0ABC", "dbgIter1"].length = 2 :=
  have h := (cgSetLoopIterName_counter emptyState (cgInitLoopIter emptyState) (Or.inl rfl)
    exampleRandom 5 [[namedVariable 1 "dbgIter0"], []] 0).1 ["dbgIter0ABC", "dbgIter1"]
    { emptyState with loopIters := ["dbgIter0ABC", "dbgIter1"], numLoopIters := 2 } 3 rfl
  ⟨rfl, h.1, h.2.2.1⟩

/-! ## Initialisation of the debug variables -/

/-- A name that `getUnusedNameByPrefix` returns is not in the registry. -/
theorem getUnusedNameByPrefix_free (vl : ShVariableList) (pfx : String) (rnd : RandomSource)
    (pos tests : Nat) (name : String) (pos1 : Nat)
    (h : getUnusedNameByPrefix vl pfx rnd pos tests = some (name, pos1)) :
    ¬ nameInRegistry vl name := by
  unfold getUnusedNameByPrefix at h
  split at h
  · exact (getUnusedNameLoop_some vl pfx rnd tests pfx pos name pos1 h).1
  · rename_i hout
    simp only [Option.some.injEq, Prod.mk.injEq] at h
    rw [← h.1]
    exact fun hreg => hout ((findFirstShVariableFromName_isSome vl pfx).2 hreg)

/-- The function `getUnusedNameByPrefix` returns when the prefix is unused or one round
of letters gives an unused name within the number of loop tests allowed. -/
theorem getUnusedNameByPrefix_returns (vl : ShVariableList) (pfx : String) (rnd : RandomSource)
    (pos tests k : Nat)
    (hfree : ¬ nameInRegistry vl (pfx ++ randomLetters rnd (pos + 3 * k)))
    (htests : k + 2 ≤ tests) :
    ∃ r, getUnusedNameByPrefix vl pfx rnd pos tests = some r := by
  unfold getUnusedNameByPrefix
  split
  · exact getUnusedNameLoop_ends vl pfx rnd k tests pfx pos hfree htests
  · exact ⟨_, rfl⟩

/-- Setting the name of a variable changes no other field. -/
theorem ShVariable.setName_fields (v : ShVariable) (n : Option String) :
    (v.setName n).name = n ∧ (v.setName n).type = v.type ∧ (v.setName n).size = v.size ∧
    (v.setName n).qualifier = v.qualifier := by
  cases v
  exact ⟨rfl, rfl, rfl, rfl⟩

/-- With a source descriptor, `cgInit` for the condition stores the copy of the
descriptor under the allocated name. -/
theorem cgInit_condition_descriptor (g : CgState) (src : ShVariable) (vl : ShVariableList)
    (l : EShLanguage) (rnd : RandomSource) (pos tests : Nat) (name : String) (pos1 : Nat)
    (hname : getUnusedNameByPrefix vl "dbgCond" rnd pos tests = some (name, pos1)) :
    ∃ g1, cgInit g .CG_TYPE_CONDITION (some src) vl l rnd pos tests = .ok (some (g1, pos1)) ∧
      g1.condition = some (src.setName (some name)) := by
  have h : getUnusedNameByPrefix vl CG_CONDITION_PREFIX rnd pos tests = some (name, pos1) := hname
  simp only [cgInit, getNewUnusedName, assignUnusedName, copyShVariable, h]
  exact ⟨_, rfl, rfl⟩

/-- C17 (the code differs): `cgInit` for the condition with the descriptor of `vec4 v`
stores a float variable of size 4, the copy of the descriptor, and not the bool of
size 1 that it stores when no descriptor is given. -/
theorem cgInit_condition_keeps_descriptor :
    (∃ g1, cgInit emptyState .CG_TYPE_CONDITION (some exampleVec4) [] .EShLangFragment
        exampleRandom 0 0 = .ok (some (g1, 0)) ∧
      g1.condition = some (exampleVec4.setName (some "dbgCond")) ∧
      (exampleVec4.setName (some "dbgCond")).type = .SH_FLOAT ∧
      (exampleVec4.setName (some "dbgCond")).size = 4) ∧
    (∃ g2, cgInit emptyState .CG_TYPE_CONDITION none [] .EShLangFragment
        exampleRandom 0 0 = .ok (some (g2, 0)) ∧
      g2.condition = some ((defaultVariable .SH_BOOL .SH_TEMPORARY).setName (some "dbgCond")) ∧
      ((defaultVariable .SH_BOOL .SH_TEMPORARY).setName (some "dbgCond")).type = .SH_BOOL ∧
      ((defaultVariable .SH_BOOL .SH_TEMPORARY).setName (some "dbgCond")).size = 1) :=
  ⟨⟨_, rfl, rfl, rfl, rfl⟩, ⟨_, rfl, rfl, rfl, rfl⟩⟩

/-- C18: without a source descriptor, `cgInit` for the result in the vertex or geometry
stage stores a float of size 1 with the varying-out qualifier and the name `dbgResult`,
whatever the registry holds and without drawing a letter; in the fragment stage it
stores a float of size 1 with the temporary qualifier under the name that
`getUnusedNameByPrefix` allocates for `dbgResult`, which is not in the registry; it
returns whenever that allocation does. -/
theorem cgInit_result_default (g : CgState) (vl : ShVariableList) (rnd : RandomSource)
    (pos tests : Nat) :
    (∀ l : EShLanguage, l = .EShLangVertex ∨ l = .EShLangGeometry →
      ∃ g1 v, cgInit g .CG_TYPE_RESULT none vl l rnd pos tests = .ok (some (g1, pos)) ∧
        g1.result = some v ∧ v.type = .SH_FLOAT ∧ v.size = 1 ∧
        v.qualifier = .SH_VARYING_OUT ∧ v.name = some "dbgResult") ∧
    (∀ (g1 : CgState) (pos1 : Nat),
      cgInit g .CG_TYPE_RESULT none vl .EShLangFragment rnd pos tests = .ok (some (g1, pos1)) →
      ∃ v name, g1.result = some v ∧ v.type = .SH_FLOAT ∧ v.size = 1 ∧
        v.qualifier = .SH_TEMPORARY ∧ v.name = some name ∧ ¬ nameInRegistry vl name ∧
        getUnusedNameByPrefix vl "dbgResult" rnd pos tests = some (name, pos1)) ∧
    (∀ (name : String) (pos1 : Nat),
      getUnusedNameByPrefix vl "dbgResult" rnd pos tests = some (name, pos1) →
      ∃ g1 v, cgInit g .CG_TYPE_RESULT none vl .EShLangFragment rnd pos tests
          = .ok (some (g1, pos1)) ∧
        g1.result = some v ∧ v.name = some name) ∧
    (¬ nameInRegistry vl "dbgResult" →
      getUnusedNameByPrefix vl "dbgResult" rnd pos tests = some ("dbgResult", pos)) ∧
    (∀ k : Nat, ¬ nameInRegistry vl ("dbgResult" ++ randomLetters rnd (pos + 3 * k)) →
      k + 2 ≤ tests → ∃ r, getUnusedNameByPrefix vl "dbgResult" rnd pos tests = some r) := by
  refine ⟨?_, ?_, ?_, ?_, ?_⟩
  · intro l hl
    rcases hl with h | h <;> subst h <;> exact ⟨_, _, rfl, rfl, rfl, rfl, rfl, rfl⟩
  · intro g1 pos1 h
    simp only [cgInit, createDefault, getNewUnusedName, assignUnusedName] at h
    cases hname : getUnusedNameByPrefix vl CG_RESULT_PREFIX rnd pos tests with
    | none => simp [hname] at h
    | some r =>
      obtain ⟨name, p1⟩ := r
      simp only [hname, Except.ok.injEq, Option.some.injEq, Prod.mk.injEq] at h
      obtain ⟨hg, hp⟩ := h
      subst hg
      subst hp
      exact ⟨_, name, rfl, rfl, rfl, rfl, rfl,
        getUnusedNameByPrefix_free vl _ rnd pos tests name p1 hname, hname⟩
  · intro name pos1 hname
    have h : getUnusedNameByPrefix vl CG_RESULT_PREFIX rnd pos tests = some (name, pos1) := hname
    simp only [cgInit, createDefault, getNewUnusedName, assignUnusedName, h]
    exact ⟨_, _, rfl, rfl, rfl⟩
  · intro hfree
    have hout : ¬ (findFirstShVariableFromName vl "dbgResult").isSome = true :=
      fun h => hfree ((findFirstShVariableFromName_isSome vl _).1 h)
    simp [getUnusedNameByPrefix, hout]
  · intro k hfree htests
    exact getUnusedNameByPrefix_returns vl _ rnd pos tests k hfree htests

/-- Witness of C18 against a registry that holds `dbgResult`: the name is `dbgResult`
in the vertex stage, and `dbgResultABC` in the fragment stage. -/
theorem cgInit_result_default_witness :
    (∃ g1 v, cgInit emptyState .CG_TYPE_RESULT none [namedVariable 1 "dbgResult"]
        .EShLangVertex exampleRandom 0 5 = .ok (some (g1, 0)) ∧
      g1.result = some v ∧ v.type = .SH_FLOAT ∧ v.size = 1 ∧
      v.qualifier = .SH_VARYING_OUT ∧ v.name = some "dbgResult") ∧
    (∃ g1 v, cgInit emptyState .CG_TYPE_RESULT none [namedVariable 1 "dbgResult"]
        .EShLangFragment exampleRandom 0 5 = .ok (some (g1, 3)) ∧
      g1.result = some v ∧ v.name = some "dbgResultABC") :=
  ⟨(cgInit_result_default emptyState [namedVariable 1 "dbgResult"] exampleRandom 0 5).1
      .EShLangVertex (Or.inl rfl),
   (cgInit_result_default emptyState [namedVariable 1 "dbgResult"] exampleRandom 0 5).2.2.1
      "dbgResultABC" 3 (by decide)⟩

/-! ## The appended text does not depend on the buffer -/

/-- One iteration of the loop of `addVariableCode` appends to any buffer what it
appends to the empty one. -/
theorem addIndexCode_eq (prog : String) (var : ShVariable) (idx : ShChangeableIndex) :
    addIndexCode prog var idx =
      match addIndexCode "" var idx with
      | .error e => .error e
      | .ok (text, var1) => .ok (prog ++ text, var1) := by
  obtain ⟨ty, i⟩ := idx
  cases ty with
  | SH_CGB_ARRAY_INDIRECT => simp [addIndexCode, String.append_assoc]
  | SH_CGB_ARRAY_DIRECT =>
    simp only [addIndexCode]
    cases itoSwizzle i <;> simp [String.append_assoc]
  | SH_CGB_STRUCT =>
    simp only [addIndexCode]
    by_cases hrange : i < var.structSize
    · simp only [hrange, if_true]
      cases var.structField i with
      | none => rfl
      | some field =>
        simp only []
        cases cString field.name <;> simp [String.append_assoc]
    · simp [hrange]
  | SH_CGB_SWIZZLE =>
    simp only [addIndexCode]
    cases itoMultiSwizzle i <;> simp [String.append_assoc]

/-- The loop of `addVariableCode` appends to any buffer what it appends to the empty
one. -/
theorem addIndicesCode_eq (indices : List ShChangeableIndex) :
    ∀ (prog : String) (var : ShVariable),
      addIndicesCode indices prog var = appendTo prog (addIndicesCode indices "" var) := by
  induction indices with
  | nil => intro prog var; simp [addIndicesCode, appendTo]
  | cons idx rest ih =>
    intro prog var
    simp only [addIndicesCode]
    rw [addIndexCode_eq prog var idx]
    cases hstep : addIndexCode "" var idx with
    | error e => simp [appendTo]
    | ok r =>
      obtain ⟨text, var1⟩ := r
      simp only []
      rw [ih (prog ++ text) var1, ih text var1]
      cases addIndicesCode rest "" var1 <;> simp [appendTo, String.append_assoc]

/-- The function `addVariableCode` appends to any buffer what it appends to the empty
one. -/
theorem addVariableCode_eq (prog : String) (c : Option ShChangeable)
    (vl : Option ShVariableList) :
    addVariableCode prog c vl = appendTo prog (addVariableCode "" c vl) := by
  unfold addVariableCode
  split
  · rename_i c1 l1
    cases findShVariableFromId l1 c1.id with
    | none => rfl
    | some var =>
      simp only []
      cases cString var.name with
      | error e => rfl
      | ok n =>
        simp only [String.empty_append]
        cases hs : needsIdSuffix var
        · simp only [Bool.false_eq_true, if_false]
          rw [addIndicesCode_eq c1.indices (prog ++ n) var, addIndicesCode_eq c1.indices n var]
          cases addIndicesCode c1.indices "" var <;> simp [appendTo, String.append_assoc]
        · simp only [if_true]
          rw [addIndicesCode_eq c1.indices (prog ++ n ++ "_" ++ toString var.uniqueId) var,
            addIndicesCode_eq c1.indices (n ++ "_" ++ toString var.uniqueId) var]
          cases addIndicesCode c1.indices "" var <;> simp [appendTo, String.append_assoc]
  · rfl

/-- The first loop of `addVariableCodeFromList` appends to any buffer what it appends
to the empty one, and adds up the same widths. -/
theorem addChangeablesCode_eq (l : List (Option ShChangeable)) (vl : Option ShVariableList) :
    ∀ (prog : String) (size : Int),
      addChangeablesCode l vl prog size =
        match addChangeablesCode l vl "" size with
        | .error e => .error e
        | .ok (text, size1) => .ok (prog ++ text, size1) := by
  induction l with
  | nil => intro prog size; simp [addChangeablesCode]
  | cons c rest ih =>
    intro prog size
    simp only [addChangeablesCode]
    rw [addVariableCode_eq prog c vl]
    cases htext : addVariableCode "" c vl with
    | error e => simp [appendTo]
    | ok text =>
      simp only [appendTo]
      cases getShChangeableSize c vl with
      | error e => rfl
      | ok w =>
        simp only []
        rw [ih (if rest.isEmpty then prog ++ text else prog ++ text ++ ", ")
            (wrapInt32 (size + w)),
          ih (if rest.isEmpty then text else text ++ ", ") (wrapInt32 (size + w))]
        cases addChangeablesCode rest vl "" (wrapInt32 (size + w)) with
        | error e => rfl
        | ok r =>
          obtain ⟨text2, size2⟩ := r
          cases rest.isEmpty <;> simp [String.append_assoc]

/-- The function `addVariableCodeFromList` appends to any buffer what it appends to the
empty one. -/
theorem addVariableCodeFromList_eq (prog : String) (cgbl : Option ShChangeableList)
    (vl : Option ShVariableList) (targetSize : Int) :
    addVariableCodeFromList prog cgbl vl targetSize =
      appendTo prog (addVariableCodeFromList "" cgbl vl targetSize) := by
  unfold addVariableCodeFromList
  cases cgbl with
  | none => simp [appendTo]
  | some l =>
    simp only []
    rw [addChangeablesCode_eq l vl prog 0]
    cases addChangeablesCode l vl "" 0 with
    | error e => rfl
    | ok r =>
      obtain ⟨text, size⟩ := r
      simp [appendTo, addPadding_text, String.append_assoc]

/-- The loop of `addLoopHeader` appends to any buffer what it appends to the empty
one. -/
theorem addLoopConditions_eq (stack : IRGenStack) :
    ∀ prog : String, addLoopConditions stack prog = appendTo prog (addLoopConditions stack "") := by
  induction stack with
  | nil => intro prog; simp [addLoopConditions, appendTo]
  | cons node rest ih =>
    intro prog
    simp only [addLoopConditions]
    by_cases hneed : needDbgLoopIter node.as_loop = true
    · simp only [hneed, if_true]
      cases node.as_loop with
      | none => rfl
      | some l =>
        simp only []
        cases cString l.iter_name with
        | error e => rfl
        | ok n =>
          simp only []
          rw [ih (prog ++ n ++ " == " ++ toString l.debug_iter ++ " &&"),
            ih ("" ++ n ++ " == " ++ toString l.debug_iter ++ " &&")]
          cases addLoopConditions rest "" <;> simp [appendTo, String.append_assoc]
    · simp only [hneed, if_false]
      exact ih prog

/-- The functions `addLoopHeader` and `addLoopFooter` append to any buffer what they
append to the empty one. -/
theorem addLoopHeader_eq (prog : String) (stack : IRGenStack) :
    addLoopHeader prog stack = appendTo prog (addLoopHeader "" stack) ∧
    addLoopFooter prog stack = prog ++ addLoopFooter "" stack := by
  unfold addLoopHeader addLoopFooter
  cases hasLoop stack
  · simp [appendTo]
  · simp only [if_true]
    rw [addLoopConditions_eq stack (prog ++ "("), addLoopConditions_eq stack ("" ++ "(")]
    cases addLoopConditions stack "" <;> simp [appendTo, String.append_assoc]

/-- The assignment head of a probe statement is appended to any buffer as it is to the
empty one. -/
theorem addAssignment_eq (v : ShVariable) (prog tail : String) :
    addAssignment v prog tail = appendTo prog (addAssignment v "" tail) := by
  unfold addAssignment
  cases cString v.name <;> simp [appendTo, String.append_assoc]

/-- The probe statement of the result is appended to any buffer as it is to the empty
one. -/
theorem addResultCode_eq (g : CgState) (v : ShVariable) (prog : String)
    (cgOptions : DbgCgOptions) (src : Option ShChangeableList) (vl : Option ShVariableList)
    (option outPrimType : Int) :
    addResultCode g v prog cgOptions src vl option outPrimType =
      appendTo prog (addResultCode g v "" cgOptions src vl option outPrimType) := by
  cases cgOptions with
  | DBG_CG_COVERAGE => exact addAssignment_eq v prog _
  | DBG_CG_SELECTION_CONDITIONAL => exact addAssignment_eq v prog _
  | DBG_CG_LOOP_CONDITIONAL =>
    simp only [addResultCode]
    cases g.condition with
    | none => rfl
    | some c =>
      simp only []
      cases cString c.name with
      | error e => rfl
      | ok cn => exact addAssignment_eq v prog _
  | DBG_CG_CHANGEABLE =>
    simp only [addResultCode]
    rw [addAssignment_eq v prog "("]
    cases addAssignment v "" "(" with
    | error e => rfl
    | ok head =>
      simp only [appendTo]
      cases getVariableSizeByArrayIndices v 0 with
      | error e => rfl
      | ok targetSize =>
        simp only []
        rw [addVariableCodeFromList_eq (prog ++ head) src vl targetSize,
          addVariableCodeFromList_eq head src vl targetSize]
        cases addVariableCodeFromList "" src vl targetSize <;>
          simp [appendTo, String.append_assoc]
  | DBG_CG_GEOMETRY_MAP =>
    simp only [addResultCode]
    rw [addAssignment_eq v prog ""]
    cases addAssignment v "" "" with
    | error e => rfl
    | ok head =>
      simp only [appendTo]
      split <;> simp [String.append_assoc]
  | DBG_CG_GEOMETRY_CHANGEABLE =>
    simp only [addResultCode]
    split
    · exact addAssignment_eq v prog _
    · split
      · rw [addAssignment_eq v prog "("]
        cases addAssignment v "" "(" with
        | error e => rfl
        | ok head =>
          simp only [appendTo]
          rw [addVariableCodeFromList_eq (prog ++ head) src vl 0,
            addVariableCodeFromList_eq head src vl 0]
          cases addVariableCodeFromList "" src vl 0 with
          | error e => rfl
          | ok list =>
            simp only [appendTo]
            cases cString v.name <;> simp [String.append_assoc]
      · split
        · cases cString v.name with
          | error e => rfl
          | ok n => exact addAssignment_eq v prog _
        · simp [appendTo]
  | DBG_CG_VERTEX_COUNT =>
    simp only [addResultCode]
    rw [addAssignment_eq v prog ""]
    cases addAssignment v "" "" with
    | error e => rfl
    | ok head =>
      simp only [appendTo]
      split
      · split
        · simp [String.append_assoc]
        · split
          · simp [String.append_assoc]
          · split <;> simp [String.append_assoc]
      · simp [String.append_assoc]
  | other code => simp [addResultCode, appendTo]

/-! ## Probe statements and the loop guard -/

/-- C11: for the result, in every probe family and option other than geometry-changeable
with the option in-scope or no-scope, `cgAddDbgCode` appends the header of the stack,
then the text that it appends for the same arguments with an empty stack, then the
footer of the stack; for geometry-changeable with the option in-scope or no-scope the
outcome is the same for every stack. -/
theorem cgAddDbgCode_guard (g : CgState) (prog : String) (cgOptions : DbgCgOptions)
    (src : Option ShChangeableList) (vl : Option ShVariableList) (stack : IRGenStack)
    (option outPrimType : Int) :
    (¬ (cgOptions = .DBG_CG_GEOMETRY_CHANGEABLE ∧
          (option = CG_GEOM_CHANGEABLE_IN_SCOPE ∨ option = CG_GEOM_CHANGEABLE_NO_SCOPE)) →
      ∀ header body : String, addLoopHeader "" stack = .ok header →
        cgAddDbgCode g .CG_TYPE_RESULT "" cgOptions src vl [] option outPrimType = .ok body →
        cgAddDbgCode g .CG_TYPE_RESULT prog cgOptions src vl stack option outPrimType
          = .ok (prog ++ header ++ body ++ addLoopFooter "" stack)) ∧
    (cgOptions = .DBG_CG_GEOMETRY_CHANGEABLE →
      option = CG_GEOM_CHANGEABLE_IN_SCOPE ∨ option = CG_GEOM_CHANGEABLE_NO_SCOPE →
      ∀ stack2 : IRGenStack,
        cgAddDbgCode g .CG_TYPE_RESULT prog cgOptions src vl stack option outPrimType
          = cgAddDbgCode g .CG_TYPE_RESULT prog cgOptions src vl stack2 option outPrimType) := by
  constructor
  · intro hguard header body hheader hbody
    have hin : insideLoopGuard cgOptions option = true := by
      unfold insideLoopGuard
      by_cases hfam : cgOptions = .DBG_CG_GEOMETRY_CHANGEABLE
      · have hopt : ¬ (option = CG_GEOM_CHANGEABLE_IN_SCOPE ∨
            option = CG_GEOM_CHANGEABLE_NO_SCOPE) := fun h => hguard ⟨hfam, h⟩
        have h1 : option ≠ CG_GEOM_CHANGEABLE_IN_SCOPE := fun h => hopt (Or.inl h)
        have h2 : option ≠ CG_GEOM_CHANGEABLE_NO_SCOPE := fun h => hopt (Or.inr h)
        simp [h1, h2]
      · simp [hfam]
    simp only [cgAddDbgCode, hin, if_true] at hbody ⊢
    have hempty : addLoopHeader "" [] = .ok "" := rfl
    rw [hempty] at hbody
    simp only [] at hbody
    rw [(addLoopHeader_eq prog stack).1, hheader]
    simp only [appendTo]
    cases hres : g.result with
    | none => simp [hres] at hbody
    | some v =>
      simp only [hres] at hbody
      simp only []
      rw [addResultCode_eq g v (prog ++ header)]
      cases hcode : addResultCode g v "" cgOptions src vl option outPrimType with
      | error e => simp [hcode] at hbody
      | ok text =>
        simp only [hcode, Except.ok.injEq] at hbody
        have hfoot : addLoopFooter text [] = text := rfl
        rw [hfoot] at hbody
        subst hbody
        simp only [appendTo]
        rw [(addLoopHeader_eq (prog ++ header ++ text) stack).2]
  · intro hfam hopt stack2
    have hout : insideLoopGuard cgOptions option = false := by
      unfold insideLoopGuard
      rcases hopt with h | h <;> simp [hfam, h]
    simp only [cgAddDbgCode, hout]
    rfl

/-- Witness of C11: the coverage probe on `float dbgResult` under the example stack is
the header, the statement and the footer; the no-scope probe of the geometry-changeable
family is the same under the example stack and under the empty one. -/
theorem cgAddDbgCode_guard_witness :
    cgAddDbgCode { emptyState with result := some exampleResultFloat } .CG_TYPE_RESULT "x; "
        .DBG_CG_COVERAGE none none exampleStack 0 0
      = .ok ("x; " ++ "(dbgIter0 == 2 &&)" ++ "dbgResult = float(1.0)"
          ++ addLoopFooter "" exampleStack) ∧
    cgAddDbgCode { emptyState with result := some exampleResultFloat } .CG_TYPE_RESULT "x; "
        .DBG_CG_GEOMETRY_CHANGEABLE none none exampleStack CG_GEOM_CHANGEABLE_NO_SCOPE 0
      = cgAddDbgCode { emptyState with result := some exampleResultFloat } .CG_TYPE_RESULT "x; "
        .DBG_CG_GEOMETRY_CHANGEABLE none none [] CG_GEOM_CHANGEABLE_NO_SCOPE 0 :=
  ⟨(cgAddDbgCode_guard { emptyState with result := some exampleResultFloat } "x; "
      .DBG_CG_COVERAGE none none exampleStack 0 0).1 (by decide) "(dbgIter0 == 2 &&)"
      "dbgResult = float(1.0)" (by decide) (by decide),
   (cgAddDbgCode_guard { emptyState with result := some exampleResultFloat } "x; "
      .DBG_CG_GEOMETRY_CHANGEABLE none none exampleStack CG_GEOM_CHANGEABLE_NO_SCOPE 0).2
      rfl (Or.inr rfl) []⟩

/-! ## Literal probe, declaration and output texts -/

/-- The header and the footer add nothing for a stack without loops. -/
theorem addLoopHeader_no_loops (prog : String) (stack : IRGenStack)
    (hstack : ∀ node ∈ stack, node.as_loop = none) :
    addLoopHeader prog stack = .ok prog ∧ addLoopFooter prog stack = prog := by
  have hl : hasLoop stack = false := by
    induction stack with
    | nil => rfl
    | cons node rest ih =>
      have hnode := hstack node (by simp)
      simp only [hasLoop, hnode, needDbgLoopIter]
      exact ih (fun n hn => hstack n (List.mem_cons_of_mem _ hn))
  simp [addLoopHeader, addLoopFooter, hl]

/-- Under a stack without loops, the coverage probe is the assignment of `(1.0)` to the
result, without guard text. -/
theorem cgAddDbgCode_coverage (g : CgState) (v : ShVariable) (n prog : String)
    (src : Option ShChangeableList) (vl : Option ShVariableList) (stack : IRGenStack)
    (option outPrimType : Int) (hres : g.result = some v) (hname : v.name = some n)
    (hstack : ∀ node ∈ stack, node.as_loop = none) :
    cgAddDbgCode g .CG_TYPE_RESULT prog .DBG_CG_COVERAGE src vl stack option outPrimType
      = .ok (prog ++ n ++ " = " ++ getTypeCode v false ++ "(1.0)") := by
  have hin : insideLoopGuard .DBG_CG_COVERAGE option = true := rfl
  simp only [cgAddDbgCode, hin, if_true, (addLoopHeader_no_loops prog stack hstack).1, hres,
    addResultCode, addAssignment, cString, hname]
  rw [(addLoopHeader_no_loops _ stack hstack).2]

/-- C12 (as amended): in the fragment stage, with a registry that does not hold
`dbgResult`, `cgInit` for the result without a source descriptor returns and stores a
temporary float of size 1 named `dbgResult`; then `cgAddDbgCode` for the coverage family
under a stack without loops appends exactly `dbgResult = float(1.0)`, and `cgAddOutput`
for the result with the fragment-color qualifier appends exactly
`gl_FragColor.x = dbgResult;` and a newline. -/
theorem cgInit_coverage_output (g : CgState) (vl : ShVariableList) (rnd : RandomSource)
    (pos tests : Nat) (stack : IRGenStack) (prog : String) (src : Option ShChangeableList)
    (cvl : Option ShVariableList) (option outPrimType : Int)
    (hfree : ¬ nameInRegistry vl "dbgResult")
    (hstack : ∀ node ∈ stack, node.as_loop = none) :
    ∃ g1 v, cgInit g .CG_TYPE_RESULT none vl .EShLangFragment rnd pos tests
        = .ok (some (g1, pos)) ∧
      g1.result = some v ∧ v.type = .SH_FLOAT ∧ v.size = 1 ∧ v.qualifier = .SH_TEMPORARY ∧
      v.name = some "dbgResult" ∧
      cgAddDbgCode g1 .CG_TYPE_RESULT prog .DBG_CG_COVERAGE src cvl stack option outPrimType
        = .ok (prog ++ "dbgResult = float(1.0)") ∧
      cgAddOutput g1 .CG_TYPE_RESULT prog .EShLangFragment .EvqFragColor
        = .ok (prog ++ "gl_FragColor.x = dbgResult;\n") := by
  have hout : ¬ (findFirstShVariableFromName vl "dbgResult").isSome = true :=
    fun h => hfree ((findFirstShVariableFromName_isSome vl _).1 h)
  have hname : getUnusedNameByPrefix vl CG_RESULT_PREFIX rnd pos tests
      = some ("dbgResult", pos) := by
    simp [getUnusedNameByPrefix, CG_RESULT_PREFIX, hout]
  have hguard := addLoopHeader_no_loops prog stack hstack
  refine ⟨setDebugVariable (if (debugVariable g .CG_TYPE_RESULT).isSome = true then
      cgDestruct g .CG_TYPE_RESULT else g) .CG_TYPE_RESULT (some exampleResultFloat),
    exampleResultFloat, ?_, rfl, rfl, rfl, rfl, rfl, ?_, ?_⟩
  · simp only [cgInit, createDefault, getNewUnusedName, assignUnusedName, hname]
    rfl
  · rw [cgAddDbgCode_coverage _ exampleResultFloat "dbgResult" prog src cvl stack option
      outPrimType rfl rfl hstack]
    simp only [String.append_assoc]
    rfl
  · simp only [cgAddOutput, setDebugVariable]
    simp [exampleResultFloat, cString, ShVariable.setName, defaultVariable, ShVariable.name,
      String.append_assoc]

/-- Witness of C12 on an empty registry, the empty state and the empty stack. -/
theorem cgInit_coverage_output_witness :
    ∃ g1 v, cgInit emptyState .CG_TYPE_RESULT none [] .EShLangFragment exampleRandom 0 1
        = .ok (some (g1, 0)) ∧
      g1.result = some v ∧ v.type = .SH_FLOAT ∧ v.size = 1 ∧ v.qualifier = .SH_TEMPORARY ∧
      v.name = some "dbgResult" ∧
      cgAddDbgCode g1 .CG_TYPE_RESULT "" .DBG_CG_COVERAGE none none [] 0 0
        = .ok ("" ++ "dbgResult = float(1.0)") ∧
      cgAddOutput g1 .CG_TYPE_RESULT "" .EShLangFragment .EvqFragColor
        = .ok ("" ++ "gl_FragColor.x = dbgResult;\n") :=
  cgInit_coverage_output emptyState [] exampleRandom 0 1 [] "" none none 0 0
    (by simp [nameInRegistry]) (by simp)

/-- C12 (counterexample): after `cgInit` for the result in the fragment stage on an empty
registry, `cgAddOutput` appends `gl_FragColor.x = dbgResult;` with a newline at the end,
which is not the text `gl_FragColor.x = dbgResult;`. -/
theorem cgAddOutput_counterexample :
    ∃ g1, cgInit emptyState .CG_TYPE_RESULT none [] .EShLangFragment exampleRandom 0 1
        = .ok (some (g1, 0)) ∧
      cgAddOutput g1 .CG_TYPE_RESULT "" .EShLangFragment .EvqFragColor
        = .ok "gl_FragColor.x = dbgResult;\n" ∧
      cgAddOutput g1 .CG_TYPE_RESULT "" .EShLangFragment .EvqFragColor
        ≠ .ok "gl_FragColor.x = dbgResult;" :=
  ⟨_, rfl, by decide, by decide⟩

/-- C13 (as amended): for the selection-conditional family with an empty stack,
`cgAddDbgCode` appends exactly `<result> = <type>(1.000000)` when the option is
non-zero and `<result> = <type>(0.500000)` when it is zero: the value is printed with
`%f`, with six digits after the decimal point. -/
theorem cgAddDbgCode_selection (g : CgState) (v : ShVariable) (n prog : String)
    (src : Option ShChangeableList) (vl : Option ShVariableList) (option outPrimType : Int)
    (hres : g.result = some v) (hname : v.name = some n) :
    (option ≠ 0 →
      cgAddDbgCode g .CG_TYPE_RESULT prog .DBG_CG_SELECTION_CONDITIONAL src vl [] option
          outPrimType
        = .ok (prog ++ n ++ " = " ++ getTypeCode v false ++ "(1.000000)")) ∧
    (option = 0 →
      cgAddDbgCode g .CG_TYPE_RESULT prog .DBG_CG_SELECTION_CONDITIONAL src vl [] option
          outPrimType
        = .ok (prog ++ n ++ " = " ++ getTypeCode v false ++ "(0.500000)")) := by
  have hin : insideLoopGuard .DBG_CG_SELECTION_CONDITIONAL option = true := rfl
  have hhead : addLoopHeader prog [] = .ok prog := rfl
  constructor
  · intro hopt
    simp only [cgAddDbgCode, hin, if_true, hhead, hres, addResultCode, addAssignment, cString,
      hname, formatSelection, hopt, ne_eq, not_false_eq_true]
    rfl
  · intro hopt
    simp only [cgAddDbgCode, hin, if_true, hhead, hres, addResultCode, addAssignment, cString,
      hname, formatSelection, hopt, ne_eq, not_true_eq_false, if_false]
    rfl

/-- Witness of C13 on `float dbgResult`, for the true branch and the false branch. -/
theorem cgAddDbgCode_selection_witness :
    cgAddDbgCode { emptyState with result := some exampleResultFloat } .CG_TYPE_RESULT ""
        .DBG_CG_SELECTION_CONDITIONAL none none [] 1 0
      = .ok ("" ++ "dbgResult" ++ " = " ++ getTypeCode exampleResultFloat false ++ "(1.000000)") ∧
    cgAddDbgCode { emptyState with result := some exampleResultFloat } .CG_TYPE_RESULT ""
        .DBG_CG_SELECTION_CONDITIONAL none none [] 0 0
      = .ok ("" ++ "dbgResult" ++ " = " ++ getTypeCode exampleResultFloat false ++ "(0.500000)") :=
  ⟨(cgAddDbgCode_selection { emptyState with result := some exampleResultFloat }
      exampleResultFloat "dbgResult" "" none none 1 0 rfl rfl).1 (by decide),
   (cgAddDbgCode_selection { emptyState with result := some exampleResultFloat }
      exampleResultFloat "dbgResult" "" none none 0 0 rfl rfl).2 rfl⟩

/-- C13 (counterexample): for `float dbgResult` the true branch gives
`dbgResult = float(1.000000)`, not `dbgResult = float(1.0)`, and the false branch
`dbgResult = float(0.500000)`, not `dbgResult = float(0.5)`. -/
theorem cgAddDbgCode_selection_counterexample :
    cgAddDbgCode { emptyState with result := some exampleResultFloat } .CG_TYPE_RESULT ""
        .DBG_CG_SELECTION_CONDITIONAL none none [] 1 0 = .ok "dbgResult = float(1.000000)" ∧
    cgAddDbgCode { emptyState with result := some exampleResultFloat } .CG_TYPE_RESULT ""
        .DBG_CG_SELECTION_CONDITIONAL none none [] 1 0 ≠ .ok "dbgResult = float(1.0)" ∧
    cgAddDbgCode { emptyState with result := some exampleResultFloat } .CG_TYPE_RESULT ""
        .DBG_CG_SELECTION_CONDITIONAL none none [] 0 0 = .ok "dbgResult = float(0.500000)" ∧
    cgAddDbgCode { emptyState with result := some exampleResultFloat } .CG_TYPE_RESULT ""
        .DBG_CG_SELECTION_CONDITIONAL none none [] 0 0 ≠ .ok "dbgResult = float(0.5)" := by
  decide

/-- C14 (as amended): for a live result variable, `cgAddDeclaration` appends
`<qualifierPrefix><typeName> <name>;` and a newline, and `cgAddInitialization` then
appends `<name> = <typeName>(<fill>)` for the same name and type name; for the temporary
`vec3 dbgResult` and the all-one pattern the two texts are `vec3 dbgResult;` with a
newline and `dbgResult = vec3(1.0)`. -/
theorem cgAddDeclaration_cgAddInitialization (g : CgState) (v : ShVariable) (n prog : String)
    (l : EShLanguage) (init : cgInitialization)
    (hres : g.result = some v) (hname : v.name = some n) :
    cgAddDeclaration g .CG_TYPE_RESULT prog l
      = .ok (prog ++ getQualifierCode v l ++ getTypeCode v false ++ " " ++ n ++ ";\n") ∧
    cgAddInitialization g .CG_TYPE_RESULT init
        (prog ++ getQualifierCode v l ++ getTypeCode v false ++ " " ++ n ++ ";\n")
      = .ok (prog ++ getQualifierCode v l ++ getTypeCode v false ++ " " ++ n ++ ";\n"
          ++ n ++ " = " ++ getTypeCode v false ++ "(" ++ addInitializationCode init "" ++ ")") ∧
    addInitializationCode .CG_INIT_WHITE "" = "1.0" ∧
    (v = exampleResultVec3 →
      cgAddDeclaration g .CG_TYPE_RESULT prog l = .ok (prog ++ "vec3 dbgResult;\n") ∧
      cgAddInitialization g .CG_TYPE_RESULT .CG_INIT_WHITE (prog ++ "vec3 dbgResult;\n")
        = .ok (prog ++ "vec3 dbgResult;\n" ++ "dbgResult = vec3(1.0)")) := by
  have hdecl : cgAddDeclaration g .CG_TYPE_RESULT prog l
      = .ok (prog ++ getQualifierCode v l ++ getTypeCode v false ++ " " ++ n ++ ";\n") := by
    simp [cgAddDeclaration, addVariableDeclaration, hres, cString, hname]
  have hinit : ∀ p : String, cgAddInitialization g .CG_TYPE_RESULT init p
      = .ok (p ++ n ++ " = " ++ getTypeCode v false ++ "(" ++ addInitializationCode init ""
          ++ ")") := by
    intro p
    simp only [cgAddInitialization, addInitializationTarget, hres, cString, hname]
    cases init <;> simp [addInitializationCode, String.append_assoc]
  have hwhite : ∀ p : String, cgAddInitialization g .CG_TYPE_RESULT .CG_INIT_WHITE p
      = .ok (p ++ n ++ " = " ++ getTypeCode v false ++ "(" ++ "1.0" ++ ")") := by
    intro p
    simp [cgAddInitialization, addInitializationTarget, hres, cString, hname,
      addInitializationCode, String.append_assoc]
  refine ⟨hdecl, hinit _, rfl, ?_⟩
  intro hv
  subst hv
  have hn : n = "dbgResult" := by
    have h : exampleResultVec3.name = some "dbgResult" := rfl
    rw [h] at hname
    exact (Option.some.inj hname).symm
  subst hn
  have hq : getQualifierCode exampleResultVec3 l = "" := rfl
  have ht : getTypeCode exampleResultVec3 false = "vec3" := by decide
  constructor
  · rw [hdecl, hq, ht]
    simp [String.append_assoc]
  · rw [hwhite, ht]
    simp [String.append_assoc]

/-- Witness of C14 on the temporary `vec3 dbgResult` in the fragment stage. -/
theorem cgAddDeclaration_cgAddInitialization_witness :
    cgAddDeclaration { emptyState with result := some exampleResultVec3 } .CG_TYPE_RESULT ""
        .EShLangFragment = .ok ("" ++ "vec3 dbgResult;\n") ∧
    cgAddInitialization { emptyState with result := some exampleResultVec3 } .CG_TYPE_RESULT
        .CG_INIT_WHITE ("" ++ "vec3 dbgResult;\n")
      = .ok ("" ++ "vec3 dbgResult;\n" ++ "dbgResult = vec3(1.0)") :=
  (cgAddDeclaration_cgAddInitialization { emptyState with result := some exampleResultVec3 }
    exampleResultVec3 "dbgResult" "" .EShLangFragment .CG_INIT_WHITE rfl rfl).2.2.2 rfl

/-- C14 (counterexample): for the temporary `vec3 dbgResult`, the declaration followed by
the all-one initialisation is `vec3 dbgResult;`, a newline, and `dbgResult = vec3(1.0)`,
which is not `vec3 dbgResult;` directly followed by `dbgResult = vec3(1.0)`. -/
theorem cgAddDeclaration_counterexample :
    cgAddDeclaration { emptyState with result := some exampleResultVec3 } .CG_TYPE_RESULT ""
        .EShLangFragment = .ok "vec3 dbgResult;\n" ∧
    cgAddDeclaration { emptyState with result := some exampleResultVec3 } .CG_TYPE_RESULT ""
        .EShLangFragment ≠ .ok "vec3 dbgResult;" ∧
    cgAddInitialization { emptyState with result := some exampleResultVec3 } .CG_TYPE_RESULT
        .CG_INIT_WHITE "vec3 dbgResult;\n" = .ok "vec3 dbgResult;\ndbgResult = vec3(1.0)" ∧
    cgAddInitialization { emptyState with result := some exampleResultVec3 } .CG_TYPE_RESULT
        .CG_INIT_WHITE "vec3 dbgResult;\n" ≠ .ok ("vec3 dbgResult;" ++ "dbgResult = vec3(1.0)") := by
  decide

/-! ## The parameter without a source descriptor -/

/-- C23 (the code differs): for every state, registry and stage, `cgInit` for the
parameter without a source descriptor has no defined outcome: `createDefault` returns
`NULL`, and `getNewUnusedName` then stores the allocated name through
`&((*var)->name)`, the name field of the missing variable. -/
theorem cgInit_parameter_without_descriptor (g : CgState) (vl : ShVariableList)
    (l : EShLanguage) (rnd : RandomSource) (pos tests : Nat) :
    createDefault .CG_TYPE_PARAMETER l = none ∧
    cgInit g .CG_TYPE_PARAMETER none vl l rnd pos tests = .error .undefined := by
  constructor
  · rfl
  · simp [cgInit, createDefault, getNewUnusedName, assignUnusedName]

/-! ## Parentheses of a guarded probe -/

/-- C24 (the code differs): under the example stack, whose only gating frame is
`dbgIter0` with target 2, the coverage probe on `float dbgResult` is the text
`(dbgIter0 == 2 &&)dbgResult = float(1.0), true))`: the header closes its own
parenthesis, so the two `)` of the footer close nothing, and the text has 2 `(` and
4 `)`. -/
theorem cgAddDbgCode_coverage_unbalanced :
    cgAddDbgCode { emptyState with result := some exampleResultFloat } .CG_TYPE_RESULT ""
        .DBG_CG_COVERAGE none none exampleStack 0 0
      = .ok "(dbgIter0 == 2 &&)dbgResult = float(1.0), true))" ∧
    parenBalanced "(dbgIter0 == 2 &&)dbgResult = float(1.0), true))" = false ∧
    parenDepth "(dbgIter0 == 2 &&)dbgResult = float(1.0)".data 0 = some 0 ∧
    "(dbgIter0 == 2 &&)dbgResult = float(1.0), true))".data.count '(' = 2 ∧
    "(dbgIter0 == 2 &&)dbgResult = float(1.0), true))".data.count ')' = 4 := by
  decide

/-! ## Debug function names -/

/-- After a call of `cgGetDebugName` that returns, the map holds the returned name for
the input. -/
theorem cgGetDebugName_lookup (g : CgState) (input : String) (shader : gl_shader)
    (rnd : RandomSource) (pos tests : Nat) (name : String) (g1 : CgState) (pos1 : Nat)
    (h : cgGetDebugName g input shader rnd pos tests = some (name, g1, pos1)) :
    g1.nameMap.lookup input = some name := by
  unfold cgGetDebugName at h
  cases hfind : g.nameMap.lookup input with
  | some cached =>
    simp only [hfind, Option.some.injEq, Prod.mk.injEq] at h
    obtain ⟨hn, hg, _⟩ := h
    subst hn
    subst hg
    exact hfind
  | none =>
    simp only [hfind] at h
    cases hnew : getNewUnusedFunctionName input shader rnd pos tests with
    | none => simp [hnew] at h
    | some r =>
      obtain ⟨n, p⟩ := r
      simp only [hnew, Option.some.injEq, Prod.mk.injEq] at h
      obtain ⟨hn, hg, _⟩ := h
      subst hn
      subst hg
      simp [List.lookup_cons]

/-- A call of `cgGetDebugName` keeps every name that the map already holds. -/
theorem cgGetDebugName_keeps (g : CgState) (input key : String) (shader : gl_shader)
    (rnd : RandomSource) (pos tests : Nat) (name cached : String) (g1 : CgState) (pos1 : Nat)
    (h : cgGetDebugName g input shader rnd pos tests = some (name, g1, pos1))
    (hkey : g.nameMap.lookup key = some cached) :
    g1.nameMap.lookup key = some cached := by
  unfold cgGetDebugName at h
  cases hfind : g.nameMap.lookup input with
  | some found =>
    simp only [hfind, Option.some.injEq, Prod.mk.injEq] at h
    obtain ⟨_, hg, _⟩ := h
    subst hg
    exact hkey
  | none =>
    simp only [hfind] at h
    cases hnew : getNewUnusedFunctionName input shader rnd pos tests with
    | none => simp [hnew] at h
    | some r =>
      obtain ⟨n, p⟩ := r
      simp only [hnew, Option.some.injEq, Prod.mk.injEq] at h
      obtain ⟨_, hg, _⟩ := h
      subst hg
      have hne : key ≠ input := by
        intro heq
        rw [heq, hfind] at hkey
        cases hkey
      have hbeq : (key == input) = false := by simpa using hne
      simp [List.lookup_cons, hbeq, hkey]

/-- Successive calls of `cgGetDebugName` keep every name that the map already holds. -/
theorem cgGetDebugNames_keeps (shader : gl_shader) (rnd : RandomSource) (tests : Nat)
    (key cached : String) (inputs : List String) :
    ∀ (g : CgState) (pos : Nat) (names : List String) (g1 : CgState) (pos1 : Nat),
      cgGetDebugNames shader rnd tests inputs g pos = some (names, g1, pos1) →
      g.nameMap.lookup key = some cached → g1.nameMap.lookup key = some cached := by
  induction inputs with
  | nil =>
    intro g pos names g1 pos1 h hkey
    simp only [cgGetDebugNames, Option.some.injEq, Prod.mk.injEq] at h
    obtain ⟨_, hg, _⟩ := h
    subst hg
    exact hkey
  | cons input rest ih =>
    intro g pos names g1 pos1 h hkey
    simp only [cgGetDebugNames] at h
    cases hfirst : cgGetDebugName g input shader rnd pos tests with
    | none => simp [hfirst] at h
    | some r =>
      obtain ⟨n, g2, p2⟩ := r
      simp only [hfirst] at h
      cases hrest : cgGetDebugNames shader rnd tests rest g2 p2 with
      | none => simp [hrest] at h
      | some r2 =>
        obtain ⟨ns, g3, p3⟩ := r2
        simp only [hrest, Option.some.injEq, Prod.mk.injEq] at h
        obtain ⟨_, hg, _⟩ := h
        subst hg
        exact ih g2 p2 ns g3 p3 hrest
          (cgGetDebugName_keeps g input key shader rnd pos tests n cached g2 p2 hfirst hkey)

/-- C21: after a call of `cgGetDebugName` that returned a name for an input signature,
and after any further calls of the session, a call with the same input signature
returns the same name, leaves the state (the name map) as it is and makes no call of
`rand()`, against any shader and for any bound of loop tests. -/
theorem cgGetDebugName_cached (g : CgState) (input : String) (shader : gl_shader)
    (rnd : RandomSource) (pos tests : Nat) (name : String) (g1 : CgState) (pos1 : Nat)
    (between : List String) (names : List String) (g2 : CgState) (pos2 : Nat)
    (hfirst : cgGetDebugName g input shader rnd pos tests = some (name, g1, pos1))
    (hbetween : cgGetDebugNames shader rnd tests between g1 pos1 = some (names, g2, pos2)) :
    ∀ (shader2 : gl_shader) (tests2 : Nat),
      cgGetDebugName g2 input shader2 rnd pos2 tests2 = some (name, g2, pos2) := by
  intro shader2 tests2
  have h1 := cgGetDebugName_lookup g input shader rnd pos tests name g1 pos1 hfirst
  have h2 := cgGetDebugNames_keeps shader rnd tests input name between g1 pos1 names g2 pos2
    hbetween h1
  simp [cgGetDebugName, h2]

/-- Witness of C21: the signature `foo(f1;` is asked for, then `bar(` and `foo(vf3;`,
then `foo(f1;` again. -/
theorem cgGetDebugName_cached_witness :
    cgGetDebugName
        { emptyState with nameMap := [("foo(vf3;", "fooDBG"), ("bar(", "barDBG"),
                                     ("foo(f1;", "fooDBG")] }
        "foo(f1;" ["main"] exampleRandom 0 0
      = some ("fooDBG",
          { emptyState with nameMap := [("foo(vf3;", "fooDBG"), ("bar(", "barDBG"),
                                       ("foo(f1;", "fooDBG")] }, 0) :=
  cgGetDebugName_cached (cgInitNameMap emptyState) "foo(f1;" ["main"] exampleRandom 0 3
    "fooDBG" { emptyState with nameMap := [("foo(f1;", "fooDBG")] } 0
    ["bar(", "foo(vf3;"] ["barDBG", "fooDBG"]
    { emptyState with nameMap := [("foo(vf3;", "fooDBG"), ("bar(", "barDBG"),
                                 ("foo(f1;", "fooDBG")] } 0
    rfl rfl ["main"] 0

/-- The lookup by signature finds a function exactly when the shader has a function of
that name. -/
theorem getFunctionBySignature_isSome (name : String) (shader : gl_shader) :
    (getFunctionBySignature name shader).isSome = true ↔ functionInShader shader name := by
  unfold getFunctionBySignature functionInShader
  rw [List.find?_isSome]
  constructor
  · rintro ⟨f, hf, heq⟩
    have : f = name := by simpa using heq
    exact this ▸ hf
  · intro h
    exact ⟨name, h, by simp⟩

/-- A name that the retry loop of `getNewUnusedFunctionName` returns is not a function
of the shader; it is the name the loop was entered with, or the base followed by the
three letters of the last round. -/
theorem getNewUnusedFunctionNameLoop_some (shader : gl_shader) (base : String)
    (rnd : RandomSource) (tests : Nat) :
    ∀ (output : String) (pos : Nat) (n : String) (pos1 : Nat),
      getNewUnusedFunctionNameLoop shader base rnd tests output pos = some (n, pos1) →
      ¬ functionInShader shader n ∧
        ((n = output ∧ pos1 = pos) ∨
          ∃ k, n = base ++ randomLetters rnd (pos + 3 * k) ∧ pos1 = pos + 3 * (k + 1)) := by
  induction tests with
  | zero =>
    intro output pos n pos1 h
    simp [getNewUnusedFunctionNameLoop] at h
  | succ t ih =>
    intro output pos n pos1 h
    simp only [getNewUnusedFunctionNameLoop] at h
    by_cases hin : (getFunctionBySignature output shader).isSome = true
    · rw [if_pos hin] at h
      obtain ⟨hfree, hform⟩ := ih _ _ n pos1 h
      refine ⟨hfree, Or.inr ?_⟩
      rcases hform with ⟨hn, hp⟩ | ⟨k, hn, hp⟩
      · exact ⟨0, by simpa using hn, by omega⟩
      · refine ⟨k + 1, ?_, by omega⟩
        rw [hn]
        congr 2
        omega
    · rw [if_neg hin] at h
      simp only [Option.some.injEq, Prod.mk.injEq] at h
      obtain ⟨hn, hp⟩ := h
      subst hn
      refine ⟨?_, Or.inl ⟨rfl, hp.symm⟩⟩
      intro hreg
      exact hin ((getFunctionBySignature_isSome output shader).2 hreg)

/-- A name that `getNewUnusedFunctionName` returns is not a function of the shader; it
is the function name of the input followed by `DBG`, or by `DBG` and three letters. -/
theorem getNewUnusedFunctionName_form (input : String) (shader : gl_shader)
    (rnd : RandomSource) (pos tests : Nat) (n : String) (pos1 : Nat)
    (h : getNewUnusedFunctionName input shader rnd pos tests = some (n, pos1)) :
    ¬ functionInShader shader n ∧
      ((n = getFunctionName input ++ "DBG" ∧ pos1 = pos) ∨
        ∃ letters : String, letters.length = 3 ∧
          n = getFunctionName input ++ "DBG" ++ letters) := by
  unfold getNewUnusedFunctionName at h
  obtain ⟨hfree, hform⟩ := getNewUnusedFunctionNameLoop_some shader _ rnd tests _ pos n pos1 h
  refine ⟨hfree, ?_⟩
  rcases hform with ⟨hn, hp⟩ | ⟨k, hn, _⟩
  · exact Or.inl ⟨hn, hp⟩
  · exact Or.inr ⟨randomLetters rnd (pos + 3 * k), randomLetters_length rnd _, hn⟩

/-- The function `getNewUnusedFunctionName` returns at once, without a call of `rand()`,
when the function name followed by `DBG` is not a function of the shader. -/
theorem getNewUnusedFunctionName_unused (input : String) (shader : gl_shader)
    (rnd : RandomSource) (pos tests : Nat)
    (hfree : ¬ functionInShader shader (getFunctionName input ++ "DBG")) :
    getNewUnusedFunctionName input shader rnd pos (tests + 1)
      = some (getFunctionName input ++ "DBG", pos) := by
  have hout : ¬ (getFunctionBySignature (getFunctionName input ++ "DBG") shader).isSome = true :=
    fun h => hfree ((getFunctionBySignature_isSome _ shader).1 h)
  simp only [getNewUnusedFunctionName, getNewUnusedFunctionNameLoop, CG_FUNCTION_POSTFIX]
  rw [if_neg hout]

/-- A call of `cgGetDebugName` on a map of allocated names returns an allocated name
and leaves a map of allocated names. -/
theorem cgGetDebugName_allocated (shader : gl_shader) (rnd : RandomSource) (tests : Nat)
    (g : CgState) (input : String) (pos : Nat) (name : String) (g1 : CgState) (pos1 : Nat)
    (hmap : ∀ k v, g.nameMap.lookup k = some v →
      ∃ p p1, getNewUnusedFunctionName k shader rnd p tests = some (v, p1))
    (h : cgGetDebugName g input shader rnd pos tests = some (name, g1, pos1)) :
    (∃ p p1, getNewUnusedFunctionName input shader rnd p tests = some (name, p1)) ∧
    ∀ k v, g1.nameMap.lookup k = some v →
      ∃ p p1, getNewUnusedFunctionName k shader rnd p tests = some (v, p1) := by
  unfold cgGetDebugName at h
  cases hfind : g.nameMap.lookup input with
  | some cached =>
    simp only [hfind, Option.some.injEq, Prod.mk.injEq] at h
    obtain ⟨hn, hg, _⟩ := h
    subst hn
    subst hg
    exact ⟨hmap input cached hfind, hmap⟩
  | none =>
    simp only [hfind] at h
    cases hnew : getNewUnusedFunctionName input shader rnd pos tests with
    | none => simp [hnew] at h
    | some r =>
      obtain ⟨n, p⟩ := r
      simp only [hnew, Option.some.injEq, Prod.mk.injEq] at h
      obtain ⟨hn, hg, _⟩ := h
      subst hn
      subst hg
      refine ⟨⟨pos, p, hnew⟩, ?_⟩
      intro k v hk
      simp only [List.lookup_cons] at hk
      cases hbeq : (k == input) with
      | true =>
        simp only [hbeq, Option.some.injEq] at hk
        have hki : k = input := by simpa using hbeq
        subst hk
        subst hki
        exact ⟨pos, p, hnew⟩
      | false =>
        simp only [hbeq] at hk
        exact hmap k v hk

/-- Successive calls of `cgGetDebugName` on a map of allocated names return, for every
input signature, a name allocated for it. -/
theorem cgGetDebugNames_allocated (shader : gl_shader) (rnd : RandomSource) (tests : Nat)
    (inputs : List String) :
    ∀ (g : CgState) (pos : Nat) (names : List String) (g1 : CgState) (pos1 : Nat),
      (∀ k v, g.nameMap.lookup k = some v →
        ∃ p p1, getNewUnusedFunctionName k shader rnd p tests = some (v, p1)) →
      cgGetDebugNames shader rnd tests inputs g pos = some (names, g1, pos1) →
      ∀ (i : Nat) (input name : String), inputs[i]? = some input → names[i]? = some name →
        ∃ p p1, getNewUnusedFunctionName input shader rnd p tests = some (name, p1) := by
  induction inputs with
  | nil =>
    intro g pos names g1 pos1 _ _ i input name hi
    simp at hi
  | cons first rest ih =>
    intro g pos names g1 pos1 hmap h i input name hi hn
    simp only [cgGetDebugNames] at h
    cases hfirst : cgGetDebugName g first shader rnd pos tests with
    | none => simp [hfirst] at h
    | some r =>
      obtain ⟨n, g2, p2⟩ := r
      simp only [hfirst] at h
      cases hrest : cgGetDebugNames shader rnd tests rest g2 p2 with
      | none => simp [hrest] at h
      | some r2 =>
        obtain ⟨ns, g3, p3⟩ := r2
        simp only [hrest, Option.some.injEq, Prod.mk.injEq] at h
        obtain ⟨hnames, _, _⟩ := h
        subst hnames
        obtain ⟨halloc, hmap2⟩ := cgGetDebugName_allocated shader rnd tests g first pos n g2 p2
          hmap hfirst
        cases i with
        | zero =>
          simp only [List.getElem?_cons_zero, Option.some.injEq] at hi hn
          subst hi
          subst hn
          exact halloc
        | succ j =>
          simp only [List.getElem?_cons_succ] at hi hn
          exact ih g2 p2 ns g3 p3 hmap2 hrest j input name hi hn

/-- Successive calls of `cgGetDebugName` all return, without a call of `rand()`, when
for no input signature the function name followed by `DBG` is a function of the shader.
-/
theorem cgGetDebugNames_returns (shader : gl_shader) (rnd : RandomSource) (tests : Nat)
    (inputs : List String)
    (hfree : ∀ input ∈ inputs, ¬ functionInShader shader (getFunctionName input ++ "DBG")) :
    ∀ (g : CgState) (pos : Nat),
      ∃ names g1, cgGetDebugNames shader rnd (tests + 1) inputs g pos = some (names, g1, pos) := by
  induction inputs with
  | nil =>
    intro g pos
    exact ⟨_, _, rfl⟩
  | cons first rest ih =>
    intro g pos
    have hrest := ih (fun i hi => hfree i (List.mem_cons_of_mem _ hi))
    have hnew := getNewUnusedFunctionName_unused first shader rnd pos tests
      (hfree first (by simp))
    simp only [cgGetDebugNames, cgGetDebugName]
    cases hfind : g.nameMap.lookup first with
    | some cached =>
      simp only []
      obtain ⟨ns, g1, hr⟩ := hrest g pos
      rw [hr]
      exact ⟨_, _, rfl⟩
    | none =>
      simp only [hnew]
      obtain ⟨ns, g1, hr⟩ := hrest
        { g with nameMap := (first, getFunctionName first ++ "DBG") :: g.nameMap } pos
      rw [hr]
      exact ⟨_, _, rfl⟩

/-- Two equal texts that end in parts of the same length agree in both parts. -/
theorem string_append_inj (a b c d : String) (h : a ++ c = b ++ d)
    (hlen : c.length = d.length) : a = b ∧ c = d := by
  have hdata := congrArg String.data h
  simp only [String.data_append] at hdata
  have hl : c.data.length = d.data.length := hlen
  obtain ⟨h1, h2⟩ := List.append_inj' hdata hl
  exact ⟨String.ext h1, String.ext h2⟩

/-- Successive calls of `cgGetDebugName` return one name for every input signature. -/
theorem cgGetDebugNames_length (shader : gl_shader) (rnd : RandomSource) (tests : Nat)
    (inputs : List String) :
    ∀ (g : CgState) (pos : Nat) (names : List String) (g1 : CgState) (pos1 : Nat),
      cgGetDebugNames shader rnd tests inputs g pos = some (names, g1, pos1) →
      names.length = inputs.length := by
  induction inputs with
  | nil =>
    intro g pos names g1 pos1 h
    simp only [cgGetDebugNames, Option.some.injEq, Prod.mk.injEq] at h
    rw [← h.1]
  | cons first rest ih =>
    intro g pos names g1 pos1 h
    simp only [cgGetDebugNames] at h
    cases hfirst : cgGetDebugName g first shader rnd pos tests with
    | none => simp [hfirst] at h
    | some r =>
      obtain ⟨n, g2, p2⟩ := r
      simp only [hfirst] at h
      cases hrest : cgGetDebugNames shader rnd tests rest g2 p2 with
      | none => simp [hrest] at h
      | some r2 =>
        obtain ⟨ns, g3, p3⟩ := r2
        simp only [hrest, Option.some.injEq, Prod.mk.injEq] at h
        rw [← h.1]
        simp [ih g2 p2 ns g3 p3 hrest]

/-- C22 (as amended): in a session that starts with `cgInitNameMap` and runs against one
shader, every name that `cgGetDebugName` returns is not the name of a function of the
shader; and the names returned for two input signatures with different function names
differ from each other, unless the common name is one of the two function names
followed by `DBGDBG` (one name allocated without letters, the other with the letters
D, B, G).  The calls all return when for no input signature the function name followed
by `DBG` is a function of the shader. -/
theorem cgGetDebugName_names (g : CgState) (shader : gl_shader) (rnd : RandomSource)
    (tests : Nat) (inputs : List String) (pos : Nat) :
    (∀ (names : List String) (g1 : CgState) (pos1 : Nat),
      cgGetDebugNames shader rnd tests inputs (cgInitNameMap g) pos = some (names, g1, pos1) →
      (∀ (i : Nat) (name : String), names[i]? = some name → ¬ functionInShader shader name) ∧
      (∀ (i j : Nat) (a b n1 n2 : String), inputs[i]? = some a → inputs[j]? = some b →
        names[i]? = some n1 → names[j]? = some n2 →
        getFunctionName a ≠ getFunctionName b →
        n1 ≠ n2 ∨ n1 = getFunctionName a ++ "DBG" ++ "DBG" ∨
          n1 = getFunctionName b ++ "DBG" ++ "DBG")) ∧
    ((∀ input ∈ inputs, ¬ functionInShader shader (getFunctionName input ++ "DBG")) →
      1 ≤ tests →
      ∃ r, cgGetDebugNames shader rnd tests inputs (cgInitNameMap g) pos = some r) := by
  constructor
  · intro names g1 pos1 hrun
    have hmap : ∀ k v, (cgInitNameMap g).nameMap.lookup k = some v →
        ∃ p p1, getNewUnusedFunctionName k shader rnd p tests = some (v, p1) := by
      intro k v hk
      simp [cgInitNameMap] at hk
    have halloc := cgGetDebugNames_allocated shader rnd tests inputs (cgInitNameMap g) pos names
      g1 pos1 hmap hrun
    have hlen := cgGetDebugNames_length shader rnd tests inputs (cgInitNameMap g) pos names g1
      pos1 hrun
    constructor
    · intro i name hi
      have hlt : i < inputs.length := by
        rw [← hlen]
        exact (List.getElem?_eq_some.1 hi).1
      obtain ⟨p, p1, hnew⟩ := halloc i inputs[i] name (List.getElem?_eq_getElem hlt) hi
      exact (getNewUnusedFunctionName_form _ shader rnd p tests name p1 hnew).1
    · intro i j a b n1 n2 hia hjb hi hj hne
      obtain ⟨p, p1, hnew1⟩ := halloc i a n1 hia hi
      obtain ⟨q, q1, hnew2⟩ := halloc j b n2 hjb hj
      have hform1 := (getNewUnusedFunctionName_form a shader rnd p tests n1 p1 hnew1).2
      have hform2 := (getNewUnusedFunctionName_form b shader rnd q tests n2 q1 hnew2).2
      by_cases heq : n1 = n2
      · right
        subst heq
        rcases hform1 with ⟨h1, _⟩ | ⟨s1, hs1, h1⟩ <;> rcases hform2 with ⟨h2, _⟩ | ⟨s2, hs2, h2⟩
        · exact absurd (string_append_inj _ _ _ _ (h1.symm.trans h2) rfl).1 hne
        · have h := string_append_inj _ _ _ _ (h1.symm.trans h2) (by rw [hs2]; rfl)
          right
          rw [h2, ← h.2]
        · have h := string_append_inj _ _ _ _ (h1.symm.trans h2) (by rw [hs1]; rfl)
          left
          rw [h1, h.2]
        · have h := string_append_inj _ _ _ _ (h1.symm.trans h2) (by rw [hs1, hs2])
          exact absurd (string_append_inj _ _ _ _ h.1 rfl).1 hne
      · exact Or.inl heq
  · intro hfree htests
    obtain ⟨t, rfl⟩ : ∃ t, tests = t + 1 := ⟨tests - 1, by omega⟩
    obtain ⟨names, g1, hr⟩ := cgGetDebugNames_returns shader rnd t inputs hfree
      (cgInitNameMap g) pos
    exact ⟨_, hr⟩

/-- Witness of C22 on the signatures `foo(f1;` and `bar(`, against a shader with the
functions `main` and `fooDBG`. -/
theorem cgGetDebugName_names_witness :
    cgGetDebugNames ["main", "fooDBG"] exampleRandom 5 ["foo(f1;", "bar("]
        (cgInitNameMap emptyState) 0
      = some (["fooDBGABC", "barDBG"],
          { emptyState with nameMap := [("bar(", "barDBG"), ("foo(f1;", "fooDBGABC")] }, 3) ∧
    ¬ functionInShader ["main", "fooDBG"] "fooDBGABC" ∧
    ("fooDBGABC" ≠ "barDBG" ∨ "fooDBGABC" = getFunctionName "foo(f1;" ++ "DBG" ++ "DBG" ∨
      "fooDBGABC" = getFunctionName "bar(" ++ "DBG" ++ "DBG") :=
  have h := (cgGetDebugName_names emptyState ["main", "fooDBG"] exampleRandom 5
    ["foo(f1;", "bar("] 0).1 ["fooDBGABC", "barDBG"]
    { emptyState with nameMap := [("bar(", "barDBG"), ("foo(f1;", "fooDBGABC")] } 3 rfl
  ⟨rfl, h.1 0 "fooDBGABC" rfl, h.2 0 1 "foo(f1;" "bar(" "fooDBGABC" "barDBG" rfl rfl rfl rfl
    (by decide)⟩

/-- C22 (counterexample): against a shader without functions the two different
signatures `foo(f1;` and `foo(vf3;` both get the name `fooDBG`; and against a shader
with the function `fooDBG`, with a random source that draws D, B, G, the signatures
`foo(f1;` and `fooDBG(f1;` both get the name `fooDBGDBG`. -/
theorem cgGetDebugName_names_counterexample :
    (∃ g1, cgGetDebugNames [] exampleRandom 5 ["foo(f1;", "foo(vf3;"]
        (cgInitNameMap emptyState) 0 = some (["fooDBG", "fooDBG"], g1, 0)) ∧
    "foo(f1;" ≠ "foo(vf3;" ∧
    (∃ g1, cgGetDebugNames ["fooDBG"] exampleRandomDBG 5 ["foo(f1;", "fooDBG(f1;"]
        (cgInitNameMap emptyState) 0 = some (["fooDBGDBG", "fooDBGDBG"], g1, 3)) ∧
    "foo(f1;" ≠ "fooDBG(f1;" ∧ getFunctionName "foo(f1;" ≠ getFunctionName "fooDBG(f1;" :=
  ⟨⟨_, rfl⟩, by decide, ⟨_, rfl⟩, by decide, by decide⟩

/-! ## Loop iterator names are pairwise different -/

/-- The character of a decimal digit is a digit character and has the value of the
digit. -/
theorem digitChar_digit (k : Nat) (hk : k < 10) :
    (Nat.digitChar k).isDigit = true ∧ (Nat.digitChar k).toNat - '0'.toNat = k := by
  interval_cases k <;> decide

/-- A random letter is a character between `A` and `Z`, and not a digit. -/
theorem randomLetter_upper (rnd : RandomSource) (pos : Nat) :
    (randomLetter rnd pos).isDigit = false ∧ 'A' ≤ randomLetter rnd pos ∧
    randomLetter rnd pos ≤ 'Z' := by
  have h : ∀ i : Fin 26, (Char.ofNat ('A'.toNat + i.val)).isDigit = false ∧
      'A' ≤ Char.ofNat ('A'.toNat + i.val) ∧ Char.ofNat ('A'.toNat + i.val) ≤ 'Z' := by
    decide
  exact h (rnd pos)

/-- The digits of a number are written in front of the characters that are already
there. -/
theorem toDigitsCore_append (fuel : Nat) :
    ∀ (n : Nat) (ds : List Char),
      Nat.toDigitsCore 10 fuel n ds = Nat.toDigitsCore 10 fuel n [] ++ ds := by
  induction fuel with
  | zero => intro n ds; simp [Nat.toDigitsCore]
  | succ f ih =>
    intro n ds
    simp only [Nat.toDigitsCore]
    by_cases h : n / 10 = 0
    · simp [h]
    · simp only [h, if_false]
      rw [ih (n / 10) (Nat.digitChar (n % 10) :: ds), ih (n / 10) [Nat.digitChar (n % 10)]]
      simp

/-- The decimal representation of a number consists of digit characters and reads back
as the number. -/
theorem toDigitsCore_value (fuel : Nat) :
    ∀ n : Nat, n < fuel →
      (∀ c ∈ Nat.toDigitsCore 10 fuel n [], c.isDigit = true) ∧
      (Nat.toDigitsCore 10 fuel n []).foldl
        (fun value c => 10 * value + (c.toNat - '0'.toNat)) 0 = n := by
  induction fuel with
  | zero => intro n hn; omega
  | succ f ih =>
    intro n hn
    have hd := digitChar_digit (n % 10) (Nat.mod_lt n (by decide))
    simp only [Nat.toDigitsCore]
    by_cases h : n / 10 = 0
    · simp only [h, if_true, List.mem_singleton, forall_eq, List.foldl_cons, List.foldl_nil]
      refine ⟨hd.1, ?_⟩
      rw [hd.2]
      omega
    · simp only [h, if_false]
      rw [toDigitsCore_append f (n / 10) [Nat.digitChar (n % 10)]]
      have hlt : n / 10 < f := by omega
      obtain ⟨hall, hval⟩ := ih (n / 10) hlt
      constructor
      · intro c hc
        rcases List.mem_append.1 hc with hc | hc
        · exact hall c hc
        · rw [List.mem_singleton.1 hc]
          exact hd.1
      · rw [List.foldl_append, hval]
        simp only [List.foldl_cons, List.foldl_nil]
        rw [hd.2]
        omega

/-- The number in front of a text is read back from its decimal representation when no
digit follows it. -/
theorem leadingNumber_toDigits (n : Nat) (rest : List Char)
    (hrest : rest = [] ∨ ∃ c tl, rest = c :: tl ∧ c.isDigit = false) :
    leadingNumber (Nat.toDigits 10 n ++ rest) = n := by
  obtain ⟨hall, hval⟩ := toDigitsCore_value (n + 1) n (by omega)
  have htake : rest.takeWhile Char.isDigit = [] := by
    rcases hrest with h | ⟨c, tl, h, hc⟩
    · simp [h]
    · simp [h, List.takeWhile, hc]
  unfold leadingNumber Nat.toDigits
  rw [List.takeWhile_append_of_pos hall, htake, List.append_nil]
  exact hval

/-- A name that `getUnusedNameByPrefix` returns is the prefix itself or the prefix
followed by the three letters of one round. -/
theorem getUnusedNameByPrefix_form (vl : ShVariableList) (pfx : String) (rnd : RandomSource)
    (pos tests : Nat) (name : String) (pos1 : Nat)
    (h : getUnusedNameByPrefix vl pfx rnd pos tests = some (name, pos1)) :
    name = pfx ∨ ∃ k, name = pfx ++ randomLetters rnd (pos + 3 * k) := by
  unfold getUnusedNameByPrefix at h
  split at h
  · obtain ⟨_, hform⟩ := getUnusedNameLoop_some vl pfx rnd tests pfx pos name pos1 h
    rcases hform with ⟨hn, _⟩ | ⟨k, hn, _⟩
    · exact Or.inl hn
    · exact Or.inr ⟨k, hn⟩
  · simp only [Option.some.injEq, Prod.mk.injEq] at h
    exact Or.inl h.1.symm

/-- The number of a loop iterator name is read back from the name, with or without the
three letters. -/
theorem loopIterNumber_name (rnd : RandomSource) (i : Nat) (name : String)
    (h : name = "dbgIter" ++ toString (i : Int) ∨
      ∃ p, name = "dbgIter" ++ toString (i : Int) ++ randomLetters rnd p) :
    loopIterNumber name = i := by
  have hnum : (toString (i : Int)).data = Nat.toDigits 10 i := rfl
  have hpre : "dbgIter".data.length = 7 := rfl
  rcases h with h | ⟨p, h⟩
  · subst h
    unfold loopIterNumber
    rw [String.data_append, List.drop_left' hpre, hnum]
    have := leadingNumber_toDigits i [] (Or.inl rfl)
    simpa using this
  · subst h
    unfold loopIterNumber
    rw [String.data_append, String.data_append, List.append_assoc, List.drop_left' hpre, hnum]
    apply leadingNumber_toDigits
    right
    exact ⟨randomLetter rnd p, [randomLetter rnd (p + 1), randomLetter rnd (p + 2)], rfl,
      (randomLetter_upper rnd p).1⟩

/-- C25: of the names that successive calls of `cgSetLoopIterName` return after
`cgInitLoopIter` or `cgResetLoopIterNames`, whatever the registries and the random
source, the name of the call number `i` is `dbgIter<i>` or `dbgIter<i>` followed by 3
characters between `A` and `Z`, its number reads back as `i`, and the names of two
different calls are different strings; in particular a name of the prefix `dbgIter1`
never equals one of the prefix `dbgIter10`.  The calls all return when no registry holds
a name made of `dbgIter` and a number. -/
theorem cgSetLoopIterName_distinct (g g0 : CgState)
    (hstart : g0 = cgInitLoopIter g ∨ g0 = cgResetLoopIterNames g)
    (rnd : RandomSource) (tests : Nat) (vls : List ShVariableList) (pos : Nat) :
    (∀ (names : List String) (g1 : CgState) (pos1 : Nat),
      cgSetLoopIterNames rnd tests vls g0 pos = some (names, g1, pos1) →
      (∀ (i : Nat) (name : String), names[i]? = some name →
        (name = "dbgIter" ++ toString (i : Int) ∨
          ∃ a b c : Char, ('A' ≤ a ∧ a ≤ 'Z') ∧ ('A' ≤ b ∧ b ≤ 'Z') ∧ ('A' ≤ c ∧ c ≤ 'Z') ∧
            name = "dbgIter" ++ toString (i : Int) ++ String.mk [a, b, c]) ∧
        loopIterNumber name = i) ∧
      (∀ (i j : Nat) (n1 n2 : String), names[i]? = some n1 → names[j]? = some n2 →
        i ≠ j → n1 ≠ n2)) ∧
    (∀ n1 n2 : String,
      (n1 = "dbgIter1" ∨ ∃ p, n1 = "dbgIter1" ++ randomLetters rnd p) →
      (n2 = "dbgIter10" ∨ ∃ q, n2 = "dbgIter10" ++ randomLetters rnd q) → n1 ≠ n2) ∧
    ((∀ vl ∈ vls, ∀ c : Int, ¬ nameInRegistry vl ("dbgIter" ++ toString c)) →
      ∃ r, cgSetLoopIterNames rnd tests vls g0 pos = some r) := by
  have hzero : g0.numLoopIters = 0 := by
    rcases hstart with h | h <;> subst h <;> rfl
  refine ⟨?_, ?_, fun hfree => cgSetLoopIterNames_returns rnd tests vls hfree g0 pos⟩
  · intro names g1 pos1 hrun
    obtain ⟨_, _, _, hnames⟩ := cgSetLoopIterNames_some rnd tests vls g0 pos names g1 pos1 hrun
    have hform : ∀ (i : Nat) (name : String), names[i]? = some name →
        name = "dbgIter" ++ toString (i : Int) ∨
          ∃ p, name = "dbgIter" ++ toString (i : Int) ++ randomLetters rnd p := by
      intro i name hi
      obtain ⟨vl, p, p1, _, halloc⟩ := hnames i name hi
      rw [hzero, zero_add] at halloc
      rcases getUnusedNameByPrefix_form vl _ rnd p tests name p1 halloc with h | ⟨k, h⟩
      · exact Or.inl h
      · exact Or.inr ⟨_, h⟩
    constructor
    · intro i name hi
      refine ⟨?_, loopIterNumber_name rnd i name (hform i name hi)⟩
      rcases hform i name hi with h | ⟨p, h⟩
      · exact Or.inl h
      · exact Or.inr ⟨randomLetter rnd p, randomLetter rnd (p + 1), randomLetter rnd (p + 2),
          (randomLetter_upper rnd p).2, (randomLetter_upper rnd (p + 1)).2,
          (randomLetter_upper rnd (p + 2)).2, h⟩
    · intro i j n1 n2 hi hj hne heq
      have h1 := loopIterNumber_name rnd i n1 (hform i n1 hi)
      have h2 := loopIterNumber_name rnd j n2 (hform j n2 hj)
      rw [heq, h2] at h1
      exact hne h1.symm
  · intro n1 n2 h1 h2 heq
    have e1 := loopIterNumber_name rnd 1 n1 h1
    have e2 := loopIterNumber_name rnd 10 n2 h2
    rw [heq, e2] at e1
    exact absurd e1 (by decide)

/-- Witness of C25: three calls after `cgInitLoopIter`, against registries that hold
`dbgIter0` and `dbgIter1`; the three names are pairwise different. -/
theorem cgSetLoopIterName_distinct_witness :
    cgSetLoopIterNames exampleRandom 5
        [[namedVariable 1 "dbgIter0"], [namedVariable 1 "dbgIter1"], []]
        (cgInitLoopIter emptyState) 0
      = some (["dbgIter0ABC", "dbgIter1DEF", "dbgIter2"],
          { emptyState with loopIters := ["dbgIter0ABC", "dbgIter1DEF", "dbgIter2"],
                            numLoopIters := 3 }, 6) ∧
    "dbgIter0ABC" ≠ "dbgIter1DEF" ∧ "dbgIter1DEF" ≠ "dbgIter2" ∧
    loopIterNumber "dbgIter1DEF" = 1 :=
  have h := (cgSetLoopIterName_distinct emptyState (cgInitLoopIter emptyState) (Or.inl rfl)
    exampleRandom 5 [[namedVariable 1 "dbgIter0"], [namedVariable 1 "dbgIter1"], []] 0).1
    ["dbgIter0ABC", "dbgIter1DEF", "dbgIter2"]
    { emptyState with loopIters := ["dbgIter0ABC", "dbgIter1DEF", "dbgIter2"],
                      numLoopIters := 3 } 6 rfl
  ⟨rfl, h.2 0 1 "dbgIter0ABC" "dbgIter1DEF" rfl rfl (by decide),
   h.2 1 2 "dbgIter1DEF" "dbgIter2" rfl rfl (by decide), (h.1 1 "dbgIter1DEF" rfl).2⟩

end CodeInsertion
